import Mathlib

/-!
# ots-cert-demo: the provisioning server

A shallow embedding of the server side of `digininja/ots-cert-demo`
(`server/dns.go`, `server/cert_gen.go`, `server/main.go`, `server/webserver.go`,
`interop/cert_utils.go`, `interop/interop.go`) together with theorems about it.

Conventions of the embedding.

* A Go function that returns `error` returns `Option String` here: `none` is `nil`.
* `log.Fatal…` ends the process; a nil-pointer dereference panics.  Both are
  results of type `Outcome`, next to a normal return.
* Remote state (the DNS zone at the provider, the `clients` table, the files on
  disk) is passed explicitly.  Calls to collaborators outside the repository are
  recorded, in order, in a log or trace, so that "is called", "is not called" and
  "is called n times" are statements about that trace.
-/

namespace OtsCert

/-! ## Results -/

/-- How a call ends: it returns a value, the process is ended by `log.Fatal`,
or the goroutine panics. -/
inductive Outcome (α : Type) where
  | returned (a : α)
  | fatal (msg : String)
  | panic (msg : String)
  deriving DecidableEq, Repr

/-! ## The DNS provider (`cloudflare-go`, outside the repository)

The zone is an explicit list of records.  Every call to the provider is numbered
(from 0, over the lifetime of the provider value); `failing` lists the numbers of
the calls that return an error.  A call that fails leaves the zone as it was. -/

/-- The part of `cloudflare.DNSRecord` the server reads or writes.  The remote
identifier `ID` is assigned by the provider; `Type_` is the Go field `Type`. -/
structure DNSRecord where
  ID : Nat
  Type_ : String
  Name : String
  Content : String
  deriving DecidableEq, Repr

/-- The record with its content replaced; identifier, type and name are kept. -/
def DNSRecord.withContent (r : DNSRecord) (content : String) : DNSRecord :=
  { r with Content := content }

/-- A call made to the provider. -/
inductive ApiCall where
  | DNSRecords (entryType name : String)
  | UpdateDNSRecord (recordID : Nat) (content : String)
  | CreateDNSRecord (entryType name content : String)
  | DeleteDNSRecord (recordID : Nat)
  deriving DecidableEq, Repr

/-- One line of the provider log: the call and whether it succeeded. -/
structure LogEntry where
  call : ApiCall
  ok : Bool
  deriving DecidableEq, Repr

/-- The provider: the zone, the next free remote identifier, the numbers of the
calls that fail, and the log of the calls made so far. -/
structure Provider where
  zone : List DNSRecord
  nextID : Nat
  failing : List Nat
  log : List LogEntry
  deriving DecidableEq, Repr

/-- Whether the next call to the provider fails. -/
def Provider.nextFails (p : Provider) : Bool :=
  decide (p.log.length ∈ p.failing)

/-- Appends one line to the provider log. -/
def Provider.record (p : Provider) (c : ApiCall) (ok : Bool) : Provider :=
  { p with log := p.log ++ [⟨c, ok⟩] }

/-- The filter of `api.DNSRecords(zoneID, DNSRecord{Type: t, Name: n})`: a field of
the filter that is the empty string is not sent and so does not restrict. -/
def recordMatches (entryType name : String) (r : DNSRecord) : Bool :=
  (entryType == "" || r.Type_ == entryType) && (name == "" || r.Name == name)

/-- Remote identifiers are unique and below the next free one. -/
def Provider.WF (p : Provider) : Prop :=
  (p.zone.map DNSRecord.ID).Nodup ∧ ∀ r ∈ p.zone, r.ID < p.nextID

instance (p : Provider) : Decidable p.WF := by
  unfold Provider.WF; infer_instance

namespace api

/-- `api.DNSRecords(zoneID, filter)`: the records of the zone that pass the filter. -/
def DNSRecords (entryType name : String) (p : Provider) : Option (List DNSRecord) × Provider :=
  if p.nextFails then (none, p.record (.DNSRecords entryType name) false)
  else (some (p.zone.filter (recordMatches entryType name)), p.record (.DNSRecords entryType name) true)

/-- `api.UpdateDNSRecord(zoneID, recordID, DNSRecord{Content: content})`: sets the
content of the record with that identifier; type and name are kept.  It is an
error when there is no such record.  Returns `true` when `err == nil`. -/
def UpdateDNSRecord (recordID : Nat) (content : String) (p : Provider) : Bool × Provider :=
  if p.nextFails || !(p.zone.any (fun r => r.ID == recordID)) then
    (false, p.record (.UpdateDNSRecord recordID content) false)
  else
    (true, { (p.record (.UpdateDNSRecord recordID content) true) with
      zone := p.zone.map (fun r => if r.ID = recordID then r.withContent content else r) })

/-- `api.CreateDNSRecord(zoneID, record)`: adds the record under a fresh
identifier.  Returns `true` when `err == nil`. -/
def CreateDNSRecord (entryType name content : String) (p : Provider) : Bool × Provider :=
  if p.nextFails then (false, p.record (.CreateDNSRecord entryType name content) false)
  else
    (true, { (p.record (.CreateDNSRecord entryType name content) true) with
      zone := p.zone ++ [⟨p.nextID, entryType, name, content⟩]
      nextID := p.nextID + 1 })

/-- `api.DeleteDNSRecord(zoneID, recordID)`: removes the record with that
identifier.  Returns `true` when `err == nil`. -/
def DeleteDNSRecord (recordID : Nat) (p : Provider) : Bool × Provider :=
  if p.nextFails || !(p.zone.any (fun r => r.ID == recordID)) then
    (false, p.record (.DeleteDNSRecord recordID) false)
  else
    (true, { (p.record (.DeleteDNSRecord recordID) true) with
      zone := p.zone.filter (fun r => r.ID != recordID) })

end api

/-! ## `server/dns.go` -/

/-- The loop `for _, r := range recs { … api.DeleteDNSRecord(zoneID, r.ID) … }` of
`DeleteDNSRecord`. -/
def deleteEach : List DNSRecord → Provider → Option String × Provider
  | [], p => (none, p)
  | r :: rest, p =>
    match api.DeleteDNSRecord r.ID p with
    | (false, p1) => (some "Something went wrong with the delete", p1)
    | (true, p1) => deleteEach rest p1

/-- `DeleteDNSRecord(entryType, name)`. -/
def DeleteDNSRecord (entryType name : String) (p : Provider) : Option String × Provider :=
  match api.DNSRecords entryType name p with
  | (none, p1) => (none, p1)
  | (some recs, p1) =>
    if recs.length = 0 then (none, p1)
    else deleteEach recs p1

/-- The loop `for _, r := range recs { … api.UpdateDNSRecord(zoneID, r.ID, record) … }`
of `CreateOrUpdateDNSRecord`: it stops at the first update that fails. -/
def updateEach (content : String) : List DNSRecord → Provider → Option String × Provider
  | [], p => (none, p)
  | r :: rest, p =>
    match api.UpdateDNSRecord r.ID content p with
    | (false, p1) => (some "Failed to update the DNS record", p1)
    | (true, p1) => updateEach content rest p1

/-- `CreateOrUpdateDNSRecord(entryType, name, content)`. -/
def CreateOrUpdateDNSRecord (entryType name content : String) (p : Provider) :
    Option String × Provider :=
  match api.DNSRecords entryType name p with
  | (none, p1) => (some "Searching for existing record failed", p1)
  | (some recs, p1) =>
    if recs.length > 0 then updateEach content recs p1
    else
      match api.CreateDNSRecord entryType name content p1 with
      | (false, p2) => (some "Failed to add the DNS record", p2)
      | (true, p2) => (none, p2)

/-- `CheckRecord(recordType, name)`. -/
def CheckRecord (recordType name : String) (p : Provider) : Bool × Provider :=
  match api.DNSRecords recordType name p with
  | (none, p1) => (false, p1)
  | (some recs, p1) => (decide (recs.length > 0), p1)

/-! ## The certificate authority (`golang.org/x/crypto/acme`, outside the repository)

What the authority answers is given by a value of `Acme`; the calls made to it are
recorded in a trace of `Event`s. -/

/-- The fields of `x509.Certificate` the server reads.  `NotAfter` is an instant on
the time line (`time.Time`), in any fixed unit. -/
structure Certificate where
  NotAfter : Int
  DNSNames : List String
  deriving DecidableEq, Repr

/-- A DER byte string, kept as what `crypto/x509` parses it to. -/
inductive DER where
  | certificate (c : Certificate)
  | pkcs1PrivateKey (key : Nat)
  | certificateRequest (commonName : String) (key : Nat)
  | raw (bytes : List Nat)
  deriving DecidableEq, Repr

/-- `acme.Challenge`: the fields read by the server. -/
structure Challenge where
  Type_ : String
  Token : String
  deriving DecidableEq, Repr

/-- `acme.Authorization`: the fields read by the server (`Identifier` is
`authz.Identifier.Value`). -/
structure Authorization where
  URI : String
  Identifier : String
  Challenges : List Challenge
  deriving DecidableEq, Repr

/-- The answers of the certificate authority.  A `Bool` is `err == nil`;
`WaitAuthorization uri i` is the answer to attempt number `i` (from 0) of one
issuance.  `CreateCert` of the acme client answers an error or a chain that starts
with the certificate issued, never an empty chain without an error; the type allows
that answer, and a theorem that needs it excluded says so in a hypothesis. -/
structure Acme where
  Register : Bool
  Authorize : String → Option Authorization
  DNS01ChallengeRecord : String → String
  Accept : Challenge → Bool
  WaitAuthorization : String → Nat → Bool
  CreateCert : DER → Except String (List DER)

/-- The calls a run makes, in order, to the certificate authority, to `CheckRecord`
and `CreateOrUpdateDNSRecord`, and (at start-up) to the key, CSR and file helpers. -/
inductive Event where
  | Register
  | Authorize (fqdn : String)
  | CreateOrUpdateDNSRecord (entryType name content : String) (err : Option String)
  | CheckRecord (recordType name : String) (res : Bool)
  | Accept (chal : Challenge)
  | WaitAuthorization (uri : String) (ok : Bool)
  | CreateCert (csr : DER)
  | GeneratePrivateKey (fileName : String)
  | GenerateCSR (fileName domainName : String)
  | GenerateCertificate (csr : DER) (fqdn : String)
  | WriteCertificates (fileName : String) (certificates : List DER)
  deriving DecidableEq, Repr

/-- The results of the `CheckRecord` polls of a trace, in order. -/
def checkRecordResults (t : List Event) : List Bool :=
  t.filterMap (fun e => match e with | .CheckRecord _ _ res => some res | _ => none)

/-- The results (`err == nil`) of the `WaitAuthorization` attempts of a trace, in order. -/
def waitAuthorizationResults (t : List Event) : List Bool :=
  t.filterMap (fun e => match e with | .WaitAuthorization _ ok => some ok | _ => none)

/-- Whether the event is a call of `client.Accept`. -/
def Event.isAccept : Event → Bool
  | .Accept _ => true
  | _ => false

/-- Whether the event is a call of `client.CreateCert`. -/
def Event.isCreateCert : Event → Bool
  | .CreateCert _ => true
  | _ => false

/-! ## `server/cert_gen.go` -/

/-- The loop `for i := 0; i < 3; i++ { res := CheckRecord("TXT", txtLabel); if res
{ success = true; break } … }`, with `n` the number of iterations left (`3 - i`).
Returns `success`, the provider and the polls made. -/
def pollRecord (txtLabel : String) : Nat → Provider → Bool × Provider × List Event
  | 0, p => (false, p, [])
  | n + 1, p =>
    match CheckRecord "TXT" txtLabel p with
    | (true, p1) => (true, p1, [.CheckRecord "TXT" txtLabel true])
    | (false, p1) =>
      let r := pollRecord txtLabel n p1
      (r.1, r.2.1, .CheckRecord "TXT" txtLabel false :: r.2.2)

/-- The loop `for i := 0; i < 3; i++ { if _, err = client.WaitAuthorization(ctx,
authz.URI); err == nil { success = true; break } … }`, with `n` the number of
iterations left and `i` the loop counter.  Returns `success` and the attempts made. -/
def waitAuthorized (acme : Acme) (uri : String) : Nat → Nat → Bool × List Event
  | 0, _ => (false, [])
  | n + 1, i =>
    if acme.WaitAuthorization uri i then (true, [.WaitAuthorization uri true])
    else
      let r := waitAuthorized acme uri n (i + 1)
      (r.1, .WaitAuthorization uri false :: r.2)

/-- The result of a run of `GenerateCertificate`: how it ended (a return carries the
pair `(certs, err)`), the provider afterwards, and the calls made. -/
structure CertRun where
  outcome : Outcome (List DER × Option String)
  provider : Provider
  trace : List Event

/-- `GenerateCertificate(csrKeyBytes, fqdn)`. -/
def GenerateCertificate (acme : Acme) (csrKeyBytes : DER) (fqdn : String) (p : Provider) :
    CertRun :=
  if !acme.Register then
    ⟨.fatal "Can't register an ACME account, error: ", p, [.Register]⟩
  else
    match acme.Authorize fqdn with
    | none => ⟨.fatal "Can't authorize, error: ", p, [.Register, .Authorize fqdn]⟩
    | some authz =>
      match authz.Challenges.find? (fun c => c.Type_ == "dns-01") with
      | none => ⟨.fatal "No DNS challenge was present", p, [.Register, .Authorize fqdn]⟩
      | some chal =>
        let txtLabel := "_acme-challenge." ++ authz.Identifier
        let txtValue := acme.DNS01ChallengeRecord chal.Token
        let created := CreateOrUpdateDNSRecord "TXT" txtLabel txtValue p
        let t1 : List Event := [.Register, .Authorize fqdn,
          .CreateOrUpdateDNSRecord "TXT" txtLabel txtValue created.1]
        let polled := pollRecord txtLabel 3 created.2
        if !polled.1 then
          ⟨.fatal "TXT record not created", polled.2.1, t1 ++ polled.2.2⟩
        else if !acme.Accept chal then
          ⟨.fatal "Can't accept challenge: ", polled.2.1, t1 ++ polled.2.2 ++ [.Accept chal]⟩
        else
          let waited := waitAuthorized acme authz.URI 3 0
          let t2 := t1 ++ polled.2.2 ++ [.Accept chal] ++ waited.2
          if !waited.1 then
            ⟨.fatal "Failed authorization", polled.2.1, t2⟩
          else
            match acme.CreateCert csrKeyBytes with
            | .error e =>
              ⟨.fatal ("Got an error when creating the certificate, error: " ++ e), polled.2.1,
                t2 ++ [.CreateCert csrKeyBytes]⟩
            | .ok certs =>
              if certs.length > 0 then
                ⟨.returned (certs, none), polled.2.1, t2 ++ [.CreateCert csrKeyBytes]⟩
              else
                ⟨.returned ([], some "No certificates returned"), polled.2.1,
                  t2 ++ [.CreateCert csrKeyBytes]⟩

/-! ## Files, PEM and X.509 (`io/ioutil`, `encoding/pem`, `crypto/x509`)

A file holding PEM text is kept as the list of the PEM blocks in it.  A Go `[]byte`
holding PEM text is an `Option`: `none` is the nil slice, `some bs` a non-nil slice
in which `pem.Decode` finds the blocks `bs`, in that order. -/

/-- `pem.Block`: its type line and its bytes. -/
structure Block where
  Type_ : String
  Bytes : DER
  deriving DecidableEq, Repr

/-- A Go `[]byte` holding PEM text. -/
abbrev PEMBytes := Option (List Block)

/-- The files on disk: name and content. -/
abbrev Files := List (String × List Block)

/-- `ioutil.ReadFile`: the content as a non-nil slice, or an error. -/
def ReadFile (fs : Files) (name : String) : Except String PEMBytes :=
  match fs.lookup name with
  | some blocks => .ok (some blocks)
  | none => .error ("open " ++ name ++ ": no such file or directory")

/-- `os.Stat(name)`: `true` when `err == nil`. -/
def Stat (fs : Files) (name : String) : Bool :=
  (fs.lookup name).isSome

/-- Writing a file: the content of `name` is replaced. -/
def writeFile (fs : Files) (name : String) (blocks : List Block) : Files :=
  (name, blocks) :: fs.filter (fun f => f.1 != name)

namespace pem

/-- `pem.Decode(data)`: the first block and the rest of the input after it; when no
block is found the block is nil and the rest is the whole input.  The rest after a
block is a sub-slice of a non-nil slice, so it is not nil even when it is empty. -/
def Decode : PEMBytes → Option Block × PEMBytes
  | none => (none, none)
  | some [] => (none, some [])
  | some (b :: rest) => (some b, some rest)

end pem

namespace x509

/-- `x509.ParseCertificate`. -/
def ParseCertificate : DER → Except String Certificate
  | .certificate c => .ok c
  | _ => .error "x509: malformed certificate"

/-- `x509.ParsePKCS1PrivateKey`. -/
def ParsePKCS1PrivateKey : DER → Except String Nat
  | .pkcs1PrivateKey k => .ok k
  | _ => .error "x509: failed to parse private key"

end x509

/-! ## `interop/cert_utils.go` -/

/-- What `LoadX509KeyPair` returns: three pointers and a `*error`.  For the last,
`none` is the nil pointer and `some e` a pointer to the error value `e` (which may
itself be `nil`). -/
abbrev KeyPair := Option Certificate × Option Certificate × Option Nat × Option (Option String)

/-- `LoadX509KeyPair(certFile, keyFile)`.  `caBlock.Bytes` and `certBlock.Bytes`
dereference a pointer that `pem.Decode` leaves nil when it finds no block. -/
def LoadX509KeyPair (fs : Files) (certFile keyFile : String) : Outcome KeyPair :=
  match ReadFile fs certFile with
  | .error e => .returned (none, none, none, some (some e))
  | .ok cf =>
    match ReadFile fs keyFile with
    | .error e => .returned (none, none, none, some (some e))
    | .ok kf =>
      let (caBlock, rest) := pem.Decode cf
      if rest ≠ none then
        let (certBlock, _) := pem.Decode rest
        let (keyBlock, _) := pem.Decode kf
        match keyBlock with
        | none => .returned (none, none, none, some none)
        | some keyBlock =>
          match caBlock with
          | none => .panic "invalid memory address or nil pointer dereference"
          | some caBlock =>
            match x509.ParseCertificate caBlock.Bytes with
            | .error e => .returned (none, none, none, some (some e))
            | .ok ca =>
              match certBlock with
              | none => .panic "invalid memory address or nil pointer dereference"
              | some certBlock =>
                match x509.ParseCertificate certBlock.Bytes with
                | .error e => .returned (none, none, none, some (some e))
                | .ok cert =>
                  match x509.ParsePKCS1PrivateKey keyBlock.Bytes with
                  | .error e => .returned (none, none, none, some (some e))
                  | .ok key => .returned (some cert, some ca, some key, none)
      else .returned (none, none, none, some none)

/-! ## UUIDs (`github.com/google/uuid`, outside the repository) -/

/-- A UUID: its 16 bytes. -/
structure UUID where
  bytes : List Nat
  deriving DecidableEq, Repr

namespace uuid

/-- The value of a hexadecimal digit, in either case. -/
def xvalue (c : Char) : Option Nat :=
  if '0' ≤ c ∧ c ≤ '9' then some (c.toNat - '0'.toNat)
  else if 'a' ≤ c ∧ c ≤ 'f' then some (c.toNat - 'a'.toNat + 10)
  else if 'A' ≤ c ∧ c ≤ 'F' then some (c.toNat - 'A'.toNat + 10)
  else none

/-- `xtob(x1, x2)`: the byte written as two hexadecimal digits. -/
def xtob (x1 x2 : Char) : Option Nat :=
  match xvalue x1, xvalue x2 with
  | some a, some b => some (a * 16 + b)
  | _, _ => none

/-- The bytes written at the given offsets of `s`, two digits each. -/
def bytesAt (s : List Char) : List Nat → Option (List Nat)
  | [] => some []
  | x :: xs =>
    match s.get? x, s.get? (x + 1) with
    | some c1, some c2 =>
      match xtob c1 c2, bytesAt s xs with
      | some v, some vs => some (v :: vs)
      | _, _ => none
    | _, _ => none

/-- The form `xxxxxxxx-xxxx-xxxx-xxxx-xxxxxxxxxxxx`, read from the start of `s`. -/
def parseHyphenated (s : List Char) : Option UUID :=
  if s.get? 8 ≠ some '-' ∨ s.get? 13 ≠ some '-' ∨ s.get? 18 ≠ some '-' ∨ s.get? 23 ≠ some '-' then
    none
  else
    (bytesAt s [0, 2, 4, 6, 9, 11, 14, 16, 19, 21, 24, 26, 28, 30, 32, 34]).map UUID.mk

/-- `uuid.Parse(s)`: accepts the 36-character form, that form after `urn:uuid:` (in
any case) or with one character before and after it, and 32 hexadecimal digits.
Every string it accepts is ASCII, so here a string with another character is
refused at once and lengths are counted in characters. -/
def Parse (s : String) : Option UUID :=
  if s.data.any (fun c => decide (128 ≤ c.toNat)) then none
  else if s.data.length = 36 then parseHyphenated s.data
  else if s.data.length = 36 + 9 then
    if (s.data.take 9).map Char.toLower ≠ "urn:uuid:".data then none
    else parseHyphenated (s.data.drop 9)
  else if s.data.length = 36 + 2 then parseHyphenated (s.data.drop 1)
  else if s.data.length = 32 then
    (bytesAt s.data [0, 2, 4, 6, 8, 10, 12, 14, 16, 18, 20, 22, 24, 26, 28, 30]).map UUID.mk
  else none

/-- A byte as two lower-case hexadecimal digits. -/
def hex (b : Nat) : List Char :=
  ["0123456789abcdef".data.getD (b / 16) '0', "0123456789abcdef".data.getD (b % 16) '0']

end uuid

/-- `UUID.String()`: the canonical form `xxxxxxxx-xxxx-xxxx-xxxx-xxxxxxxxxxxx`, in
lower case. -/
def UUID.String (u : UUID) : String :=
  ⟨((u.bytes.take 4).flatMap uuid.hex) ++ '-' :: (((u.bytes.drop 4).take 2).flatMap uuid.hex) ++
    '-' :: (((u.bytes.drop 6).take 2).flatMap uuid.hex) ++
    '-' :: (((u.bytes.drop 8).take 2).flatMap uuid.hex) ++
    '-' :: ((u.bytes.drop 10).flatMap uuid.hex)⟩

/-! ## IP addresses (`net`, outside the repository)

A `net.IP` is its list of bytes (4 or 16 of them); the nil address is the empty
list.  The parser `net.ParseIP` is taken as given (a field of `Env`). -/

/-- `ip.To4()`: the 4-byte form of an IPv4 address, nil when it is not one. -/
def To4 (ip : List Nat) : List Nat :=
  if ip.length = 4 then ip
  else if ip.length = 16 ∧ ip.take 10 = List.replicate 10 0 ∧ ip.get? 10 = some 255 ∧
      ip.get? 11 = some 255 then ip.drop 12
  else []

/-- An IPv4 `net.IPNet`: network number and mask, 4 bytes each. -/
structure IPNet where
  IP : List Nat
  Mask : List Nat
  deriving DecidableEq, Repr

/-- `n.Contains(ip)`. -/
def IPNet.Contains (n : IPNet) (ip : List Nat) : Bool :=
  let ip := if To4 ip ≠ [] then To4 ip else ip
  if ip.length ≠ n.IP.length then false
  else (List.zip (List.zip n.IP n.Mask) ip).all (fun x => x.1.1 &&& x.1.2 == x.2 &&& x.1.2)

/-! ## `interop/interop.go` -/

/-- `RegClientRequest`. -/
structure RegClientRequest where
  ClientID : String
  IP : String
  deriving DecidableEq, Repr

/-- `RegClientResponse`. -/
structure RegClientResponse where
  Success : Bool
  Message : String
  Hostname : String
  deriving DecidableEq, Repr

/-- `CertificateRequest`. -/
structure CertificateRequest where
  CSR : DER
  ClientID : String
  deriving DecidableEq, Repr

/-- `CertificateResponse`. -/
structure CertificateResponse where
  Success : Bool
  Certificates : List DER
  Message : String
  deriving DecidableEq, Repr

/-- A JSON text, kept as the value `json.Marshal` was applied to.  `jsonMessage` is
the encoding `{}` of the empty struct `JSONMessage`. -/
inductive JSONText where
  | jsonMessage
  | regClientResponse (r : RegClientResponse)
  | certificateResponse (r : CertificateResponse)
  deriving DecidableEq, Repr

/-- `func (r JSONMessage) Marshall() string`: the receiver is the embedded
`JSONMessage`, which has no fields. -/
def JSONMessage.Marshall : JSONText := .jsonMessage

/-- `func (r RegClientResponse) Marshall() string`. -/
def RegClientResponse.Marshall (r : RegClientResponse) : JSONText := .regClientResponse r

/-- `CertificateResponse` has no `Marshall` of its own: the call goes to the method
promoted from the embedded `JSONMessage`. -/
def CertificateResponse.Marshall (_ : CertificateResponse) : JSONText := JSONMessage.Marshall

/-! ## The registration store (table `clients` of the SQLite database)

The table is the list of its rows, in order of insertion.  Text is compared byte by
byte, as SQLite does for `TEXT` columns.  The queries themselves do not fail; the one
statement that can be refused is an `INSERT` that repeats the primary key. -/

/-- A row of `clients (uuid TEXT PRIMARY KEY, hostname TEXT, IP TEXT)`. -/
structure Client where
  uuid : String
  hostname : String
  ip : String
  deriving DecidableEq, Repr

/-- `SELECT COUNT(*) FROM clients WHERE uuid=?`. -/
def countUUID (database : List Client) (uuid : String) : Nat :=
  (database.filter (fun c => c.uuid == uuid)).length

/-- `SELECT COUNT(*) FROM clients WHERE hostname=?`. -/
def countHostname (database : List Client) (hostname : String) : Nat :=
  (database.filter (fun c => c.hostname == hostname)).length

/-- `INSERT INTO clients (uuid, hostname, IP) VALUES (?,?,?)`: refused when the
primary key is already present. -/
def insertClient (database : List Client) (c : Client) : Except String (List Client) :=
  if countUUID database c.uuid > 0 then .error "UNIQUE constraint failed: clients.uuid"
  else .ok (database ++ [c])

/-- `SELECT uuid, hostname, IP FROM clients WHERE uuid = ?`. -/
def selectClient (database : List Client) (uuid : String) : List Client :=
  database.filter (fun c => c.uuid == uuid)

/-! ## The server: configuration, environment and state -/

/-- `config.webServer`: the fields used after start-up. -/
structure WebServer where
  CertFilename : String
  KeyFilename : String
  CSRFilename : String
  deriving DecidableEq, Repr

/-- `config.Config`: the fields used after the configuration is loaded. -/
structure Config where
  Domain : String
  Hostname : String
  WebServer : WebServer
  deriving DecidableEq, Repr

/-- What the server is given from outside: its configuration, the answers of the
certificate authority, `net.ParseIP`, the instant `time.Now()` returns at start-up,
the value of `uuid.New()` at start-up, whether `os.Create` succeeds on a file name,
and the key `rsa.GenerateKey` returns. -/
structure Env where
  Cfg : Config
  acme : Acme
  ParseIP : String → List Nat
  now : Int
  newUUID : UUID
  canCreate : String → Bool
  rsaKey : Nat

/-- The state the server works on: the `clients` table, the DNS provider, the files,
the names the coming calls of `namesgenerator.GetRandomName(0)` return, and the
trace of calls made so far. -/
structure World where
  database : List Client
  provider : Provider
  files : Files
  names : List String
  trace : List Event
  deriving DecidableEq, Repr

/-- An HTTP response: status code and body (`none` when nothing was written). -/
structure Response where
  status : Nat
  body : Option JSONText
  deriving DecidableEq, Repr

/-! ## `server/webserver.go` -/

/-- `generateHostname()`, given the name `namesgenerator.GetRandomName(0)` returns:
`strings.Replace(hostname, "_", "-", -1)`. -/
def generateHostname (randomName : String) : String :=
  ⟨randomName.data.map (fun c => if c = '_' then '-' else c)⟩

/-- `writeError(w, msg)`: status 500 and the message as body. -/
def writeError (msg : JSONText) : Response :=
  ⟨500, some msg⟩

/-- The loop `for { hostname = generateHostname(); …; if count > 0 { } else { break } }`
over the names the generator returns.  The result is the hostname and the names
left; `none` when the names given run out before the loop ends. -/
def uniqueHostname (database : List Client) : List String → Option (String × List String)
  | [] => none
  | randomName :: rest =>
    if countHostname database (generateHostname randomName) > 0 then uniqueHostname database rest
    else some (generateHostname randomName, rest)

/-- The blocks of `privateIPBlocks` set up by `init`: `10.0.0.0/8`, `172.16.0.0/12`,
`192.168.0.0/16`. -/
def privateIPBlocks : List IPNet :=
  [⟨[10, 0, 0, 0], [255, 0, 0, 0]⟩, ⟨[172, 16, 0, 0], [255, 240, 0, 0]⟩,
    ⟨[192, 168, 0, 0], [255, 255, 0, 0]⟩]

/-- `isPrivateIP(ip)`. -/
def isPrivateIP (ip : List Nat) : Bool :=
  privateIPBlocks.any (fun block => block.Contains ip)

/-- `registerClient(w, r)`, run under the mutex from start to end.  `body` is what
decoding the request body as JSON gives.  The result is `none` when the hostname
loop does not end within the names given.  The error `CreateOrUpdateDNSRecord`
returns is not looked at.  On success the JSON text is written with
`fmt.Fprintf(w, s)`, which writes `s` itself as long as `s` has no `%` in it. -/
def registerClient (env : Env) (body : Except String RegClientRequest) (w : World) :
    Option (Outcome Response × World) :=
  match body with
  | .error err =>
    some (.returned (writeError (RegClientResponse.Marshall
      ⟨false, "Error decoding the JSON\nError message: " ++ err, ""⟩)), w)
  | .ok regClient =>
    match uuid.Parse regClient.ClientID with
    | none =>
      some (.returned (writeError (RegClientResponse.Marshall
        ⟨false, "Client ID was not in the expected format: " ++ regClient.ClientID, ""⟩)), w)
    | some parsedUuid =>
      if !isPrivateIP (env.ParseIP regClient.IP) then
        some (.returned (writeError (RegClientResponse.Marshall
          ⟨false, "The IP address passed in is not private: " ++ regClient.IP, ""⟩)), w)
      else if countUUID w.database parsedUuid.String > 0 then
        some (.returned (writeError (RegClientResponse.Marshall
          ⟨false, "The client with provided UUID is already registered", ""⟩)), w)
      else
        match uniqueHostname w.database w.names with
        | none => none
        | some (hostname, names) =>
          match insertClient w.database ⟨parsedUuid.String, hostname, regClient.IP⟩ with
          | .error e =>
            some (.fatal ("Could not insert data into the database, error: " ++ e),
              { w with names := names })
          | .ok database =>
            let fqdn := hostname ++ "." ++ env.Cfg.Domain
            let published := CreateOrUpdateDNSRecord "A" fqdn regClient.IP w.provider
            some (.returned ⟨200, some (.regClientResponse ⟨true, "done", fqdn⟩)⟩,
              { w with
                database := database
                names := names
                provider := published.2
                trace := w.trace ++ [.CreateOrUpdateDNSRecord "A" fqdn regClient.IP published.1] })

/-- `getClient(uuid)`: the rows with that identity are scanned into one `Client`
value, so the result is the last of them, and the zero value when there is none;
more than one row is fatal. -/
def getClient (database : List Client) (uuid : String) : Outcome Client :=
  if (selectClient database uuid).length > 1 then .fatal "Multiple hits, this shouldn't happen"
  else .returned ((selectClient database uuid).getLast?.getD ⟨"", "", ""⟩)

/-- `generateCertificate(w, r)`, the handler of `/get_certificate`.  `body` is what
decoding the request body as JSON gives.  When the client is not found the handler
returns without writing anything, which leaves status 200 and an empty body.  The
error `GenerateCertificate` returns is not looked at. -/
def generateCertificate (env : Env) (body : Except String CertificateRequest) (w : World) :
    Outcome Response × World :=
  match body with
  | .error err =>
    (.returned (writeError (CertificateResponse.Marshall
      ⟨false, [], "Error decoding the JSON\nError message: " ++ err⟩)), w)
  | .ok certificaterRequest =>
    match uuid.Parse certificaterRequest.ClientID with
    | none =>
      (.returned (writeError (CertificateResponse.Marshall
        ⟨false, [], "Client ID was not in the expected format: " ++
          certificaterRequest.ClientID⟩)), w)
    | some parsedUuid =>
      match getClient w.database parsedUuid.String with
      | .fatal msg => (.fatal msg, w)
      | .panic msg => (.panic msg, w)
      | .returned client =>
        if client = ⟨"", "", ""⟩ then (.returned ⟨200, none⟩, w)
        else
          let fqdn := client.hostname ++ "." ++ env.Cfg.Domain
          let run := GenerateCertificate env.acme certificaterRequest.CSR fqdn w.provider
          let w1 : World := { w with
            provider := run.provider
            trace := w.trace ++ .GenerateCertificate certificaterRequest.CSR fqdn :: run.trace }
          match run.outcome with
          | .fatal msg => (.fatal msg, w1)
          | .panic msg => (.panic msg, w1)
          | .returned (certificates, _) =>
            (.returned ⟨200, some (.certificateResponse ⟨true, certificates, "done"⟩)⟩, w1)

/-! ## `interop/cert_utils.go`: keys and signing requests -/

/-- `GeneratePrivateKey(fileName)`: creates the file (fatal when that fails), writes
the new key to it as a `PRIVATE KEY` block and returns the key; the error it returns
is always nil.  A failure to write to the file once created is not part of the
model. -/
def GeneratePrivateKey (env : Env) (fileName : String) (w : World) : Outcome Nat × World :=
  if !env.canCreate fileName then
    (.fatal "Failed to create private key file, error: ",
      { w with trace := w.trace ++ [.GeneratePrivateKey fileName] })
  else
    (.returned env.rsaKey,
      { w with
        files := writeFile w.files fileName [⟨"PRIVATE KEY", .pkcs1PrivateKey env.rsaKey⟩]
        trace := w.trace ++ [.GeneratePrivateKey fileName] })

/-- `GenerateCSR(filename, domainName, keyBytes)`: creates the file (fatal when that
fails), writes the request to it as a `CERTIFICATE REQUEST` block and returns its
bytes. -/
def GenerateCSR (env : Env) (filename domainName : String) (keyBytes : Nat) (w : World) :
    Outcome DER × World :=
  if !env.canCreate filename then
    (.fatal "Failed to create CSR file, error: ",
      { w with trace := w.trace ++ [.GenerateCSR filename domainName] })
  else
    (.returned (.certificateRequest domainName keyBytes),
      { w with
        files := writeFile w.files filename
          [⟨"CERTIFICATE REQUEST", .certificateRequest domainName keyBytes⟩]
        trace := w.trace ++ [.GenerateCSR filename domainName] })

/-! ## `server/main.go` -/

/-- Lines 172–214 of `main`, the value of `certValid` for a configured hostname: the
certificate and key files are looked for and loaded, and the certificate that
`main` takes as `cert` (the second value `LoadX509KeyPair` returns) is checked
against the clock and the name of the server. -/
def existingCertificateValid (env : Env) (fqdn : String) (fs : Files) : Outcome Bool :=
  if Stat fs env.Cfg.WebServer.KeyFilename && Stat fs env.Cfg.WebServer.CertFilename then
    match LoadX509KeyPair fs env.Cfg.WebServer.CertFilename env.Cfg.WebServer.KeyFilename with
    | .fatal msg => .fatal msg
    | .panic msg => .panic msg
    | .returned (_, cert, _, err) =>
      if err = none then
        match cert with
        | none => .panic "invalid memory address or nil pointer dereference"
        | some cert =>
          if env.now > cert.NotAfter then .returned false
          else .returned (cert.DNSNames.any (fun name => name == fqdn))
      else .returned false
  else .returned false

/-- Lines 218–252 of `main`: a new key, a signing request, issuance, and the chain
written to the certificate file.  The error `GenerateCertificate` returns is not
looked at. -/
def createCertificate (env : Env) (fqdn : String) (w : World) : Outcome Unit × World :=
  match GeneratePrivateKey env env.Cfg.WebServer.KeyFilename w with
  | (.fatal msg, w1) => (.fatal msg, w1)
  | (.panic msg, w1) => (.panic msg, w1)
  | (.returned privateKeyBytes, w1) =>
    match GenerateCSR env env.Cfg.WebServer.CSRFilename fqdn privateKeyBytes w1 with
    | (.fatal msg, w2) => (.fatal msg, w2)
    | (.panic msg, w2) => (.panic msg, w2)
    | (.returned csr, w2) =>
      let run := GenerateCertificate env.acme csr fqdn w2.provider
      let w3 : World := { w2 with
        provider := run.provider
        trace := w2.trace ++ .GenerateCertificate csr fqdn :: run.trace }
      match run.outcome with
      | .fatal msg => (.fatal msg, w3)
      | .panic msg => (.panic msg, w3)
      | .returned (certificates, _) =>
        if !env.canCreate env.Cfg.WebServer.CertFilename then
          (.fatal ("Failed to open " ++ env.Cfg.WebServer.CertFilename ++ " for writing"), w3)
        else
          (.returned (), { w3 with
            files := writeFile w3.files env.Cfg.WebServer.CertFilename
              (certificates.map (fun certificate => ⟨"CERTIFICATE", certificate⟩))
            trace := w3.trace ++ [.WriteCertificates env.Cfg.WebServer.CertFilename certificates] })

/-- Lines 217–258 of `main`: the certificate is created unless `certValid`, then the
address record of the server is published. -/
def finishStartup (env : Env) (fqdn ip : String) (certValid : Bool) (w : World) :
    Outcome Unit × World :=
  match (if !certValid then createCertificate env fqdn w else (.returned (), w)) with
  | (.fatal msg, w1) => (.fatal msg, w1)
  | (.panic msg, w1) => (.panic msg, w1)
  | (.returned (), w1) =>
    let published := CreateOrUpdateDNSRecord "A" fqdn ip w1.provider
    (.returned (), { w1 with
      provider := published.2
      trace := w1.trace ++ [.CreateOrUpdateDNSRecord "A" fqdn ip published.1] })

/-- `main`, from line 134 (after the configuration, the provider and the database
are set up) to the call of `StartWebServer`; `ip` is what `interop.GetIP` returned.
The result is `none` when the hostname loop does not end within the names given. -/
def main (env : Env) (ip : String) (w : World) : Option (Outcome Unit × World) :=
  if env.Cfg.Hostname = "" then
    match uniqueHostname w.database w.names with
    | none => none
    | some (hostname, names) =>
      match insertClient w.database ⟨env.newUUID.String, hostname, ip⟩ with
      | .error e =>
        some (.fatal ("Could not insert data into the database, error: " ++ e),
          { w with names := names })
      | .ok database =>
        some (finishStartup env (hostname ++ "." ++ env.Cfg.Domain) ip false
          { w with database := database, names := names })
  else
    match existingCertificateValid env (env.Cfg.Hostname ++ "." ++ env.Cfg.Domain) w.files with
    | .fatal msg => some (.fatal msg, w)
    | .panic msg => some (.panic msg, w)
    | .returned certValid =>
      some (finishStartup env (env.Cfg.Hostname ++ "." ++ env.Cfg.Domain) ip certValid w)

/-! ## The private address space, in the words of the specification

The three blocks are ranges of IPv4 addresses; an address is compared as a number.
These definitions do not come from the code: `isPrivateIP` is compared with them. -/

/-- The IPv4 address `a.b.c.d` that a `net.IP` stands for: its 4-byte form, or its
16-byte form with the prefix of an IPv4 address; none for any other value. -/
def ipv4Of : List Nat → Option (Nat × Nat × Nat × Nat)
  | [a, b, c, d] => some (a, b, c, d)
  | [p0, p1, p2, p3, p4, p5, p6, p7, p8, p9, p10, p11, a, b, c, d] =>
    if [p0, p1, p2, p3, p4, p5, p6, p7, p8, p9, p10, p11] =
        [0, 0, 0, 0, 0, 0, 0, 0, 0, 0, 255, 255] then some (a, b, c, d)
    else none
  | _ => none

/-- The address `a.b.c.d` as a 32-bit number. -/
def addr (a b c d : Nat) : Nat :=
  ((a * 256 + b) * 256 + c) * 256 + d

/-- Whether the address `v` lies in the block `base/prefixLen`. -/
def inBlock (base prefixLen v : Nat) : Bool :=
  decide (base ≤ v ∧ v < base + 2 ^ (32 - prefixLen))

/-- Whether a `net.IP` is an address inside `10.0.0.0/8`, `172.16.0.0/12` or
`192.168.0.0/16`. -/
def inPrivateAddressSpace (ip : List Nat) : Bool :=
  match ipv4Of ip with
  | some (a, b, c, d) =>
    inBlock (addr 10 0 0 0) 8 (addr a b c d) || inBlock (addr 172 16 0 0) 12 (addr a b c d) ||
      inBlock (addr 192 168 0 0) 16 (addr a b c d)
  | none => false

/-! ## The states of the store -/

/-- The tables that the server can come to from the empty table by registrations,
certificate requests and start-ups, one after the other.  Each of them runs in any
environment and on any state that holds the table; a run that ends the process
leaves the table to the next one. -/
inductive Reachable : List Client → Prop where
  | empty : Reachable []
  | register (env : Env) (body : Except String RegClientRequest) (w : World)
      (r : Outcome Response × World) (before : Reachable w.database)
      (run : registerClient env body w = some r) : Reachable r.2.database
  | certificate (env : Env) (body : Except String CertificateRequest) (w : World)
      (before : Reachable w.database) : Reachable (generateCertificate env body w).2.database
  | startup (env : Env) (ip : String) (w : World) (r : Outcome Unit × World)
      (before : Reachable w.database) (run : main env ip w = some r) : Reachable r.2.database

/-! ## Registrations served at the same time

Each request to `/register` is served by its own goroutine, which runs
`registerClient`.  The goroutines are interleaved statement by statement: a step of
the server is one goroutine passing one of the points below.  `mutex.Lock()` can be
passed only while no goroutine holds the mutex, and the deferred `mutex.Unlock()`
runs when the handler returns.  A statement on the table is one step. -/

/-- Where a goroutine that runs `registerClient` stands. -/
inductive Stage where
  /-- Before `mutex.Lock()`. -/
  | start
  /-- After `mutex.Lock()`, before the request is decoded. -/
  | locked
  /-- The identity parsed and the address found private, before
  `SELECT COUNT(*) FROM clients WHERE uuid=?`. -/
  | identityKnown (uuid ip : String)
  /-- In the hostname loop, before `generateHostname()`. -/
  | allocating (uuid ip : String)
  /-- Out of the hostname loop with a hostname counted 0, before the `INSERT`. -/
  | chosen (uuid ip hostname : String)
  /-- After the `INSERT`, before the address record is published. -/
  | inserted (uuid ip hostname : String)
  /-- The response written, before the deferred `mutex.Unlock()`. -/
  | responded (r : Response)
  /-- After `mutex.Unlock()`: the handler has returned. -/
  | finished (r : Response)
  deriving DecidableEq, Repr

/-- Whether a goroutine at this stage holds the mutex. -/
def Stage.holdsMutex : Stage → Bool
  | .start => false
  | .finished _ => false
  | _ => true

/-- The hostname a response returns: the field `Hostname` of a response with
`Success` true. -/
def Response.returnedHostname (r : Response) : Option String :=
  match r.body with
  | some (.regClientResponse rr) => if rr.Success then some rr.Hostname else none
  | _ => none

/-- The server while it serves registrations: the table, the provider, the names
the generator will return, the goroutine that holds the mutex, the stage of every
goroutine, and whether `log.Fatal` has ended the process. -/
structure Server where
  database : List Client
  provider : Provider
  names : List String
  mutex : Option Nat
  stage : Nat → Stage
  halted : Bool

/-- The server before any goroutine has started on its request. -/
def Server.initial (database : List Client) (provider : Provider) (names : List String) :
    Server :=
  ⟨database, provider, names, none, fun _ => .start, false⟩

/-- Goroutine `i` writes the response `r` (with `writeError` or `fmt.Fprintf`). -/
def Server.respond (s : Server) (i : Nat) (r : Response) : Server :=
  { s with stage := Function.update s.stage i (.responded r) }

/-- One step of goroutine `i`, which serves the request with body `requests i`; `none`
when the goroutine cannot move: it waits for the mutex, it has returned, the process
has ended, or the hostname loop needs a name beyond those given. -/
def stepRegister (env : Env) (requests : Nat → Except String RegClientRequest) (i : Nat)
    (s : Server) : Option Server :=
  if s.halted then none
  else
    match s.stage i with
    | .start =>
      if s.mutex = none then
        some { s with mutex := some i, stage := Function.update s.stage i .locked }
      else none
    | .locked =>
      match requests i with
      | .error err =>
        some (s.respond i (writeError (RegClientResponse.Marshall
          ⟨false, "Error decoding the JSON\nError message: " ++ err, ""⟩)))
      | .ok regClient =>
        match uuid.Parse regClient.ClientID with
        | none =>
          some (s.respond i (writeError (RegClientResponse.Marshall
            ⟨false, "Client ID was not in the expected format: " ++ regClient.ClientID, ""⟩)))
        | some parsedUuid =>
          if !isPrivateIP (env.ParseIP regClient.IP) then
            some (s.respond i (writeError (RegClientResponse.Marshall
              ⟨false, "The IP address passed in is not private: " ++ regClient.IP, ""⟩)))
          else
            some { s with
              stage := Function.update s.stage i (.identityKnown parsedUuid.String regClient.IP) }
    | .identityKnown uuid ip =>
      if countUUID s.database uuid > 0 then
        some (s.respond i (writeError (RegClientResponse.Marshall
          ⟨false, "The client with provided UUID is already registered", ""⟩)))
      else some { s with stage := Function.update s.stage i (.allocating uuid ip) }
    | .allocating uuid ip =>
      match s.names with
      | [] => none
      | randomName :: rest =>
        if countHostname s.database (generateHostname randomName) > 0 then
          some { s with names := rest }
        else
          some { s with
            names := rest
            stage := Function.update s.stage i (.chosen uuid ip (generateHostname randomName)) }
    | .chosen uuid ip hostname =>
      match insertClient s.database ⟨uuid, hostname, ip⟩ with
      | .error _ => some { s with halted := true }
      | .ok database =>
        some { s with
          database := database
          stage := Function.update s.stage i (.inserted uuid ip hostname) }
    | .inserted _ ip hostname =>
      some { (s.respond i ⟨200, some (.regClientResponse
          ⟨true, "done", hostname ++ "." ++ env.Cfg.Domain⟩)⟩) with
        provider := (CreateOrUpdateDNSRecord "A" (hostname ++ "." ++ env.Cfg.Domain) ip
          s.provider).2 }
    | .responded r =>
      some { s with mutex := none, stage := Function.update s.stage i (.finished r) }
    | .finished _ => none

/-- The server after the goroutines have been given the turns of `schedule`, in
order; a turn given to a goroutine that cannot move changes nothing. -/
def runSchedule (env : Env) (requests : Nat → Except String RegClientRequest) :
    List Nat → Server → Server
  | [], s => s
  | i :: rest, s =>
    match stepRegister env requests i s with
    | some s1 => runSchedule env requests rest s1
    | none => runSchedule env requests rest s

/-- The hostname goroutine `i` has been given so far: the one of its row once the
row is inserted, the one of its response once the response is written. -/
def Stage.issued (env : Env) : Stage → Option String
  | .inserted _ _ hostname => some (hostname ++ "." ++ env.Cfg.Domain)
  | .responded r => r.returnedHostname
  | .finished r => r.returnedHostname
  | _ => none

/-- The invariant of the server while it serves registrations: the mutex is held by
exactly the goroutines between `Lock` and `Unlock`; a hostname chosen and not yet
inserted is the hostname of no row; a hostname given to a goroutine is the hostname
of a row; and two goroutines have not been given the same hostname. -/
structure Server.Inv (env : Env) (s : Server) : Prop where
  holder : ∀ i, s.mutex = some i ↔ (s.stage i).holdsMutex = true
  fresh : ∀ i u ip h, s.stage i = .chosen u ip h → countHostname s.database h = 0
  stored : ∀ i f, (s.stage i).issued env = some f →
    f ∈ s.database.map (fun c => c.hostname ++ "." ++ env.Cfg.Domain)
  distinct : ∀ i j f g, i ≠ j → (s.stage i).issued env = some f →
    (s.stage j).issued env = some g → f ≠ g

/-- The hostname goroutine `i` has returned to its client: the field `Hostname` of
the response it has written, when `Success` is true. -/
def Server.returned (s : Server) (i : Nat) : Option String :=
  match s.stage i with
  | .responded r => r.returnedHostname
  | .finished r => r.returnedHostname
  | _ => none

/-! ## Sample inputs, used to evaluate the definitions -/

/-- A certificate authority that offers an `http-01` and a `dns-01` challenge, accepts
the proof, reports the authorization on the second attempt and issues a chain of
two certificates. -/
def sampleAcme : Acme where
  Register := true
  Authorize := fun fqdn =>
    some ⟨"https://ca.example/authz/1", fqdn, [⟨"http-01", "token-a"⟩, ⟨"dns-01", "token-b"⟩]⟩
  DNS01ChallengeRecord := fun token => "proof-of-" ++ token
  Accept := fun _ => true
  WaitAuthorization := fun _ i => decide (1 ≤ i)
  CreateCert := fun _ => .ok [.certificate ⟨2000, ["foo.example.com"]⟩, .raw [48, 130]]

/-- A reader of dotted-quad addresses of one-digit numbers, enough to stand for
`net.ParseIP` on the sample addresses: `a.b.c.d` gives the 16-byte form, anything else
nil. -/
def sampleParseIP (s : String) : List Nat :=
  match s.data with
  | [a, '.', b, '.', c, '.', d] =>
    if a.isDigit ∧ b.isDigit ∧ c.isDigit ∧ d.isDigit then
      [0, 0, 0, 0, 0, 0, 0, 0, 0, 0, 255, 255, a.toNat - 48, b.toNat - 48, c.toNat - 48, d.toNat - 48]
    else []
  | [_, _, '.', b, '.', c, '.', d] =>
    if s.data.take 2 = ['1', '0'] ∧ b.isDigit ∧ c.isDigit ∧ d.isDigit then
      [0, 0, 0, 0, 0, 0, 0, 0, 0, 0, 255, 255, 10, b.toNat - 48, c.toNat - 48, d.toNat - 48]
    else []
  | _ => []

/-- A server configured as `foo.example.com`, started at instant 1000. -/
def sampleEnv : Env where
  Cfg := ⟨"example.com", "foo", ⟨"cert.pem", "private.key", "request.csr"⟩⟩
  acme := sampleAcme
  ParseIP := sampleParseIP
  now := 1000
  newUUID := ⟨[236, 162, 69, 10, 72, 45, 75, 75, 186, 165, 159, 240, 218, 236, 25, 233]⟩
  canCreate := fun _ => true
  rsaKey := 65537

/-- Certificate and key files of `foo.example.com`; both certificates end at
`notAfter`. -/
def sampleFiles (notAfter : Int) : Files :=
  [("cert.pem", [⟨"CERTIFICATE", .certificate ⟨notAfter, ["foo.example.com"]⟩⟩,
      ⟨"CERTIFICATE", .certificate ⟨notAfter, ["foo.example.com"]⟩⟩]),
    ("private.key", [⟨"PRIVATE KEY", .pkcs1PrivateKey 65537⟩])]

/-- A state with an empty table and zone, the given files and the given generator
output. -/
def sampleWorld (files : Files) (names : List String) : World :=
  ⟨[], ⟨[], 0, [], []⟩, files, names, []⟩

/-- Two registration requests with distinct valid identities and private addresses;
no other goroutine has a request it can decode. -/
def sampleRequests : Nat → Except String RegClientRequest
  | 0 => .ok ⟨"11111111-1111-1111-1111-111111111111", "10.0.0.5"⟩
  | 1 => .ok ⟨"eca2450a-482d-4b4b-baa5-9ff0daec19e9", "10.0.0.6"⟩
  | _ => .error "unexpected end of JSON input"

/-- Turns in which goroutine 1 asks for the mutex while goroutine 0 holds it, and is
served after goroutine 0 has returned. -/
def sampleSchedule : List Nat :=
  [0, 1, 0, 1, 0, 0, 1, 0, 0, 0, 1, 1, 1, 1, 1, 1, 1, 1, 1]

/-- A generator that returns the same name three times before another one. -/
def sampleNames : List String :=
  ["focused_turing", "focused_turing", "focused_turing", "happy_curie"]

/-! ## Theorems -/

/-! ### The provider -/

theorem nextFails_of_reliable {p : Provider} (h : p.failing = []) : p.nextFails = false := by
  simp [Provider.nextFails, h]

@[simp] theorem withContent_ID (r : DNSRecord) (c : String) : (r.withContent c).ID = r.ID := rfl

@[simp] theorem withContent_Type (r : DNSRecord) (c : String) :
    (r.withContent c).Type_ = r.Type_ := rfl

@[simp] theorem withContent_Name (r : DNSRecord) (c : String) :
    (r.withContent c).Name = r.Name := rfl

@[simp] theorem withContent_Content (r : DNSRecord) (c : String) :
    (r.withContent c).Content = c := rfl

@[simp] theorem withContent_withContent (r : DNSRecord) (c d : String) :
    (r.withContent c).withContent d = r.withContent d := rfl

/-- With every call succeeding, the update loop sets the content of exactly the
records whose identifier is among those of `recs`, and logs one update per record. -/
theorem updateEach_reliable (content : String) :
    ∀ (recs : List DNSRecord) (p : Provider), p.failing = [] →
      (∀ r ∈ recs, r.ID ∈ p.zone.map DNSRecord.ID) →
      updateEach content recs p =
        (none, { p with
          zone := p.zone.map
            (fun x => if x.ID ∈ recs.map DNSRecord.ID then x.withContent content else x)
          log := p.log ++ recs.map (fun r => ⟨.UpdateDNSRecord r.ID content, true⟩) }) := by
  intro recs
  induction recs with
  | nil => intro p _ _; simp [updateEach]
  | cons r rest ih =>
    intro p hf hmem
    have hr : p.zone.any (fun x => x.ID == r.ID) = true := by
      have := hmem r (List.mem_cons_self _ _)
      simp only [List.mem_map] at this
      obtain ⟨x, hx, hxr⟩ := this
      simp only [List.any_eq_true]
      exact ⟨x, hx, by simp [hxr]⟩
    have hstep : api.UpdateDNSRecord r.ID content p =
        (true, { (p.record (.UpdateDNSRecord r.ID content) true) with
          zone := p.zone.map (fun x => if x.ID = r.ID then x.withContent content else x) }) := by
      simp [api.UpdateDNSRecord, nextFails_of_reliable hf, hr]
    simp only [updateEach, hstep]
    rw [ih]
    · simp only [Provider.record, List.map_map, List.map_cons, List.append_assoc,
        List.singleton_append, Prod.mk.injEq, true_and]
      congr 1
      apply List.map_congr_left
      intro x _
      simp only [Function.comp, List.mem_cons]
      by_cases h1 : x.ID = r.ID <;>
        by_cases h2 : x.ID ∈ rest.map DNSRecord.ID <;> simp [h1, h2]
    · exact hf
    · intro r1 hr1
      have := hmem r1 (List.mem_cons_of_mem _ hr1)
      simp only [List.mem_map] at this ⊢
      obtain ⟨x, hx, hxr⟩ := this
      refine ⟨_, ⟨x, hx, rfl⟩, ?_⟩
      by_cases h : x.ID = r.ID
      · rw [if_pos h]; simpa using hxr
      · rw [if_neg h]; exact hxr

/-- In a well-formed zone a record has the identifier of a record that passes the
filter exactly when it passes the filter itself. -/
theorem id_mem_filter_iff {p : Provider} (hwf : p.WF) (t n : String) {x : DNSRecord}
    (hx : x ∈ p.zone) :
    x.ID ∈ (p.zone.filter (recordMatches t n)).map DNSRecord.ID ↔ recordMatches t n x = true := by
  constructor
  · intro h
    simp only [List.mem_map, List.mem_filter] at h
    obtain ⟨y, ⟨hy, hm⟩, hid⟩ := h
    have : y = x := List.inj_on_of_nodup_map hwf.1 hy hx hid
    rw [← this]; exact hm
  · intro h
    simp only [List.mem_map, List.mem_filter]
    exact ⟨x, ⟨hx, h⟩, rfl⟩

/-- What `CreateOrUpdateDNSRecord` does when every provider call succeeds, update case. -/
theorem createOrUpdate_update (t n c : String) (p : Provider) (hwf : p.WF)
    (hf : p.failing = []) (hne : p.zone.filter (recordMatches t n) ≠ []) :
    CreateOrUpdateDNSRecord t n c p =
      (none, { p with
        zone := p.zone.map (fun x => if recordMatches t n x then x.withContent c else x)
        log := p.log ++ ⟨.DNSRecords t n, true⟩ ::
          (p.zone.filter (recordMatches t n)).map (fun r => ⟨.UpdateDNSRecord r.ID c, true⟩) }) := by
  have hlen : (p.zone.filter (recordMatches t n)).length > 0 := List.length_pos.mpr hne
  simp only [CreateOrUpdateDNSRecord, api.DNSRecords, nextFails_of_reliable hf, Bool.false_eq_true,
    if_false, hlen, if_true]
  rw [updateEach_reliable]
  · simp only [Provider.record, List.append_assoc, List.singleton_append, Prod.mk.injEq, true_and]
    congr 1
    apply List.map_congr_left
    intro x hx
    by_cases h : recordMatches t n x = true
    · simp [h, (id_mem_filter_iff hwf t n hx).mpr h]
    · have h2 := mt (id_mem_filter_iff hwf t n hx).mp h
      simp only [h2, if_false, h]
      simp
  · exact hf
  · intro r hr
    simp only [Provider.record]
    exact List.mem_map_of_mem _ (List.mem_of_mem_filter hr)

/-- What `CreateOrUpdateDNSRecord` does when every provider call succeeds, create case. -/
theorem createOrUpdate_create (t n c : String) (p : Provider)
    (hf : p.failing = []) (hnone : p.zone.filter (recordMatches t n) = []) :
    CreateOrUpdateDNSRecord t n c p =
      (none, { p with
        zone := p.zone ++ [⟨p.nextID, t, n, c⟩]
        nextID := p.nextID + 1
        log := p.log ++ [⟨.DNSRecords t n, true⟩, ⟨.CreateDNSRecord t n c, true⟩] }) := by
  have hf2 : (p.record (.DNSRecords t n) true).nextFails = false :=
    nextFails_of_reliable (p := p.record (.DNSRecords t n) true) hf
  simp only [CreateOrUpdateDNSRecord, api.DNSRecords, nextFails_of_reliable hf, hnone,
    api.CreateDNSRecord, hf2, Bool.false_eq_true, if_false, List.length_nil, gt_iff_lt,
    lt_self_iff_false]
  simp [Provider.record]

theorem recordMatches_self (t n c : String) (i : Nat) :
    recordMatches t n ⟨i, t, n, c⟩ = true := by
  simp [recordMatches]

theorem recordMatches_withContent (t n c : String) (x : DNSRecord) :
    recordMatches t n (x.withContent c) = recordMatches t n x := rfl

/-- The shape of the log of the update loop: successful updates, then at most one
failed update, which ends the loop with an error. -/
theorem updateEach_log (content : String) :
    ∀ (recs : List DNSRecord) (p : Provider),
      ∃ oks : List LogEntry, (∀ e ∈ oks, e.ok = true) ∧
        (((updateEach content recs p).1 = none ∧ (updateEach content recs p).2.log = p.log ++ oks) ∨
         (∃ e : LogEntry, e.ok = false ∧
           (updateEach content recs p).1 = some "Failed to update the DNS record" ∧
           (updateEach content recs p).2.log = p.log ++ (oks ++ [e]))) := by
  intro recs
  induction recs with
  | nil => intro p; exact ⟨[], by simp, Or.inl (by simp [updateEach])⟩
  | cons r rest ih =>
    intro p
    by_cases hfail : (p.nextFails || !(p.zone.any (fun x => x.ID == r.ID))) = true
    · refine ⟨[], by simp, Or.inr ⟨⟨.UpdateDNSRecord r.ID content, false⟩, rfl, ?_, ?_⟩⟩
      · simp only [updateEach, api.UpdateDNSRecord, hfail, if_true]
      · simp only [updateEach, api.UpdateDNSRecord, hfail, if_true, Provider.record,
          List.nil_append]
    · have hstep : api.UpdateDNSRecord r.ID content p =
          (true, { (p.record (.UpdateDNSRecord r.ID content) true) with
            zone := p.zone.map (fun x => if x.ID = r.ID then x.withContent content else x) }) := by
        simp only [api.UpdateDNSRecord, hfail, if_false, Bool.false_eq_true]
      obtain ⟨oks, hoks, hcase⟩ := ih { (p.record (.UpdateDNSRecord r.ID content) true) with
            zone := p.zone.map (fun x => if x.ID = r.ID then x.withContent content else x) }
      refine ⟨⟨.UpdateDNSRecord r.ID content, true⟩ :: oks, ?_, ?_⟩
      · intro e he
        rcases List.mem_cons.mp he with h | h
        · rw [h]
        · exact hoks e h
      · simp only [updateEach, hstep]
        rcases hcase with ⟨h1, h2⟩ | ⟨e, he, h1, h2⟩
        · exact Or.inl ⟨h1, by rw [h2]; simp [Provider.record]⟩
        · exact Or.inr ⟨e, he, h1, by rw [h2]; simp [Provider.record]⟩

/-! ### DNS record manager -/

/-- C1: with a well-formed zone and every provider call succeeding,
`CreateOrUpdateDNSRecord(type, name, content)` returns no error; if the lookup for
(type, name) returns one or more records, the calls made are the lookup and one
update per returned record, every returned record has the new content afterwards and
no record is created; if it returns none, the calls are the lookup and one create,
and exactly the record (type, name, content) is appended; in both cases the records
that do not match (type, name) are the same before and after. -/
theorem CreateOrUpdateDNSRecord_reconciles (entryType name content : String) (p : Provider)
    (hwf : p.WF) (hok : p.failing = []) :
    (CreateOrUpdateDNSRecord entryType name content p).1 = none ∧
    (p.zone.filter (recordMatches entryType name) ≠ [] →
      (CreateOrUpdateDNSRecord entryType name content p).2.zone =
        p.zone.map (fun x => if recordMatches entryType name x then x.withContent content else x) ∧
      (CreateOrUpdateDNSRecord entryType name content p).2.log =
        p.log ++ ⟨.DNSRecords entryType name, true⟩ ::
          (p.zone.filter (recordMatches entryType name)).map
            (fun r => ⟨.UpdateDNSRecord r.ID content, true⟩)) ∧
    (p.zone.filter (recordMatches entryType name) = [] →
      (CreateOrUpdateDNSRecord entryType name content p).2.zone =
        p.zone ++ [⟨p.nextID, entryType, name, content⟩] ∧
      (CreateOrUpdateDNSRecord entryType name content p).2.log =
        p.log ++ [⟨.DNSRecords entryType name, true⟩,
          ⟨.CreateDNSRecord entryType name content, true⟩]) ∧
    (CreateOrUpdateDNSRecord entryType name content p).2.zone.filter
        (fun x => !recordMatches entryType name x) =
      p.zone.filter (fun x => !recordMatches entryType name x) := by
  by_cases h : p.zone.filter (recordMatches entryType name) = []
  · rw [createOrUpdate_create entryType name content p hok h]
    refine ⟨rfl, fun h2 => absurd h h2, fun _ => ⟨rfl, rfl⟩, ?_⟩
    simp [List.filter_append, recordMatches_self]
  · rw [createOrUpdate_update entryType name content p hwf hok h]
    refine ⟨rfl, fun _ => ⟨rfl, rfl⟩, fun h2 => absurd h2 h, ?_⟩
    simp only [List.filter_map]
    have hcomp : ((fun x => !recordMatches entryType name x) ∘
        fun x => if recordMatches entryType name x = true then x.withContent content else x) =
        fun x => !recordMatches entryType name x := by
      funext x
      by_cases hx : recordMatches entryType name x = true <;>
        simp [Function.comp, hx, recordMatches_withContent]
    rw [hcomp]
    have : ∀ l : List DNSRecord,
        (l.filter (fun x => !recordMatches entryType name x)).map
          (fun x => if recordMatches entryType name x = true then x.withContent content else x) =
        l.filter (fun x => !recordMatches entryType name x) := by
      intro l
      conv_rhs => rw [← List.map_id (l.filter (fun x => !recordMatches entryType name x))]
      apply List.map_congr_left
      intro x hx
      have := (List.mem_filter.mp hx).2
      simp at this
      simp [this]
    exact this _

/-- The hypotheses of C1 hold, and its conclusion is computed, on a zone holding one
address record for another name and two for the name being reconciled. -/
theorem CreateOrUpdateDNSRecord_reconciles_witness :
    Provider.WF ⟨[⟨0, "A", "a.example.com", "10.0.0.1"⟩, ⟨1, "A", "b.example.com", "10.0.0.2"⟩,
        ⟨2, "A", "a.example.com", "10.0.0.3"⟩], 3, [], []⟩ ∧
    (CreateOrUpdateDNSRecord "A" "a.example.com" "10.0.0.9"
      ⟨[⟨0, "A", "a.example.com", "10.0.0.1"⟩, ⟨1, "A", "b.example.com", "10.0.0.2"⟩,
        ⟨2, "A", "a.example.com", "10.0.0.3"⟩], 3, [], []⟩).2.zone =
      [⟨0, "A", "a.example.com", "10.0.0.9"⟩, ⟨1, "A", "b.example.com", "10.0.0.2"⟩,
        ⟨2, "A", "a.example.com", "10.0.0.9"⟩] :=
  ⟨by decide,
   ((CreateOrUpdateDNSRecord_reconciles "A" "a.example.com" "10.0.0.9"
      ⟨[⟨0, "A", "a.example.com", "10.0.0.1"⟩, ⟨1, "A", "b.example.com", "10.0.0.2"⟩,
        ⟨2, "A", "a.example.com", "10.0.0.3"⟩], 3, [], []⟩ (by decide) rfl).2.1 (by decide)).1⟩

/-- C2: starting from a well-formed zone with no record matching (type, name), with
every provider call succeeding, `CreateOrUpdateDNSRecord(type, name, c1)` followed by
`CreateOrUpdateDNSRecord(type, name, c2)` returns no error either time and leaves
exactly one record matching (type, name), with content `c2`; the second call makes
a lookup and one update, and creates nothing. -/
theorem CreateOrUpdateDNSRecord_twice (entryType name c1 c2 : String) (p : Provider)
    (hwf : p.WF) (hok : p.failing = [])
    (hnone : p.zone.filter (recordMatches entryType name) = []) :
    (CreateOrUpdateDNSRecord entryType name c1 p).1 = none ∧
    (CreateOrUpdateDNSRecord entryType name c2
      (CreateOrUpdateDNSRecord entryType name c1 p).2).1 = none ∧
    (CreateOrUpdateDNSRecord entryType name c2
      (CreateOrUpdateDNSRecord entryType name c1 p).2).2.zone.filter
        (recordMatches entryType name) = [⟨p.nextID, entryType, name, c2⟩] ∧
    (CreateOrUpdateDNSRecord entryType name c2
      (CreateOrUpdateDNSRecord entryType name c1 p).2).2.zone =
        p.zone ++ [⟨p.nextID, entryType, name, c2⟩] ∧
    (CreateOrUpdateDNSRecord entryType name c2
      (CreateOrUpdateDNSRecord entryType name c1 p).2).2.log =
        (CreateOrUpdateDNSRecord entryType name c1 p).2.log ++
          [⟨.DNSRecords entryType name, true⟩, ⟨.UpdateDNSRecord p.nextID c2, true⟩] := by
  rw [createOrUpdate_create entryType name c1 p hok hnone]
  have hfilter : (p.zone ++ [(⟨p.nextID, entryType, name, c1⟩ : DNSRecord)]).filter
      (recordMatches entryType name) = [⟨p.nextID, entryType, name, c1⟩] := by
    simp [List.filter_append, hnone, recordMatches_self]
  have hwf1 : Provider.WF { p with
      zone := p.zone ++ [⟨p.nextID, entryType, name, c1⟩]
      nextID := p.nextID + 1
      log := p.log ++ [⟨.DNSRecords entryType name, true⟩,
        ⟨.CreateDNSRecord entryType name c1, true⟩] } := by
    constructor
    · simp only [List.map_append, List.map_cons, List.map_nil]
      rw [List.nodup_append]
      refine ⟨hwf.1, by simp, ?_⟩
      intro a ha hb
      simp only [List.mem_singleton] at hb
      simp only [List.mem_map] at ha
      obtain ⟨x, hx, hxa⟩ := ha
      have := hwf.2 x hx
      omega
    · intro r hr
      simp only [List.mem_append, List.mem_singleton] at hr
      rcases hr with h | h
      · have := hwf.2 r h
        show r.ID < p.nextID + 1
        omega
      · rw [h]; show p.nextID < p.nextID + 1; omega
  have hmap : (p.zone ++ [(⟨p.nextID, entryType, name, c1⟩ : DNSRecord)]).map
      (fun x => if recordMatches entryType name x then x.withContent c2 else x) =
      p.zone ++ [⟨p.nextID, entryType, name, c2⟩] := by
    simp only [List.map_append, List.map_cons, List.map_nil, recordMatches_self, if_true]
    congr 1
    conv_rhs => rw [← List.map_id p.zone]
    apply List.map_congr_left
    intro x hx
    have hx2 : recordMatches entryType name x ≠ true := by
      intro hm
      have : x ∈ p.zone.filter (recordMatches entryType name) := List.mem_filter.mpr ⟨hx, hm⟩
      rw [hnone] at this
      exact absurd this (List.not_mem_nil _)
    simp [hx2]
  rw [createOrUpdate_update entryType name c2 _ hwf1 hok (by rw [hfilter]; simp)]
  simp [hfilter, hmap, List.filter_append, hnone, recordMatches_self]

/-- C2 at the spec's example: `Reconcile("A", "host.example.com", "1.2.3.4")` twice on
a zone that holds one record for another name. -/
theorem CreateOrUpdateDNSRecord_twice_witness :
    Provider.WF ⟨[⟨0, "A", "other.example.com", "10.0.0.1"⟩], 1, [], []⟩ ∧
    (CreateOrUpdateDNSRecord "A" "host.example.com" "1.2.3.4"
      (CreateOrUpdateDNSRecord "A" "host.example.com" "1.2.3.4"
        ⟨[⟨0, "A", "other.example.com", "10.0.0.1"⟩], 1, [], []⟩).2).2.zone.filter
        (recordMatches "A" "host.example.com") = [⟨1, "A", "host.example.com", "1.2.3.4"⟩] :=
  ⟨by decide,
   (CreateOrUpdateDNSRecord_twice "A" "host.example.com" "1.2.3.4" "1.2.3.4"
      ⟨[⟨0, "A", "other.example.com", "10.0.0.1"⟩], 1, [], []⟩ (by decide) rfl (by decide)).2.2.1⟩

/-- C3: `CreateOrUpdateDNSRecord` returns an error exactly when one of the provider
calls it makes fails.  No call is made after a failed one (so a failed update is not
followed by the remaining updates), and when the lookup fails the lookup is the only
call and the zone is as before. -/
theorem CreateOrUpdateDNSRecord_error_iff (entryType name content : String) (p : Provider) :
    ∃ calls : List LogEntry,
      (CreateOrUpdateDNSRecord entryType name content p).2.log = p.log ++ calls ∧
      ((CreateOrUpdateDNSRecord entryType name content p).1.isSome = true ↔
        ∃ e ∈ calls, e.ok = false) ∧
      (∀ e ∈ calls.dropLast, e.ok = true) ∧
      (p.nextFails = true →
        calls = [⟨.DNSRecords entryType name, false⟩] ∧
        (CreateOrUpdateDNSRecord entryType name content p).2.zone = p.zone) := by
  by_cases hfail : p.nextFails = true
  · refine ⟨[⟨.DNSRecords entryType name, false⟩], ?_, ?_, ?_, ?_⟩
    · simp [CreateOrUpdateDNSRecord, api.DNSRecords, hfail, Provider.record]
    · simp [CreateOrUpdateDNSRecord, api.DNSRecords, hfail]
    · simp
    · intro _
      simp [CreateOrUpdateDNSRecord, api.DNSRecords, hfail, Provider.record]
  · by_cases hlen : (p.zone.filter (recordMatches entryType name)).length > 0
    · obtain ⟨oks, hoks, hcase⟩ := updateEach_log content
        (p.zone.filter (recordMatches entryType name)) (p.record (.DNSRecords entryType name) true)
      have hdef : CreateOrUpdateDNSRecord entryType name content p =
          updateEach content (p.zone.filter (recordMatches entryType name))
            (p.record (.DNSRecords entryType name) true) := by
        have hf1 : p.nextFails = false := by simpa using hfail
        simp only [CreateOrUpdateDNSRecord, api.DNSRecords, hf1, Bool.false_eq_true, if_false,
          hlen, if_true]
      rw [hdef]
      rcases hcase with ⟨h1, h2⟩ | ⟨e, he, h1, h2⟩
      · refine ⟨⟨.DNSRecords entryType name, true⟩ :: oks, ?_, ?_, ?_, fun h => absurd h hfail⟩
        · rw [h2]; simp [Provider.record]
        · rw [h1]
          simp only [Option.isSome_none, Bool.false_eq_true, false_iff, not_exists, not_and]
          intro x hx
          rcases List.mem_cons.mp hx with h | h
          · rw [h]; simp
          · simp [hoks x h]
        · intro x hx
          rcases List.mem_cons.mp (List.mem_of_mem_dropLast hx) with h | h
          · rw [h]
          · exact hoks x h
      · refine ⟨(⟨.DNSRecords entryType name, true⟩ :: oks) ++ [e], ?_, ?_, ?_,
          fun h => absurd h hfail⟩
        · rw [h2]; simp [Provider.record]
        · rw [h1]
          simp only [Option.isSome_some, true_iff]
          exact ⟨e, by simp, he⟩
        · rw [List.dropLast_concat]
          intro x hx
          rcases List.mem_cons.mp hx with h | h
          · rw [h]
          · exact hoks x h
    · have hf1 : p.nextFails = false := by simpa using hfail
      by_cases hfail2 : (p.record (.DNSRecords entryType name) true).nextFails = true
      · have hdef : CreateOrUpdateDNSRecord entryType name content p =
            (some "Failed to add the DNS record",
              (p.record (.DNSRecords entryType name) true).record
                (.CreateDNSRecord entryType name content) false) := by
          simp only [CreateOrUpdateDNSRecord, api.DNSRecords, hf1, Bool.false_eq_true, if_false,
            hlen, api.CreateDNSRecord, hfail2, if_true]
        refine ⟨[⟨.DNSRecords entryType name, true⟩,
          ⟨.CreateDNSRecord entryType name content, false⟩], ?_, ?_, ?_, fun h => absurd h hfail⟩
        · rw [hdef]; simp [Provider.record]
        · rw [hdef]; simp
        · simp
      · have hf2 : (p.record (.DNSRecords entryType name) true).nextFails = false := by
          simpa using hfail2
        have hdef : CreateOrUpdateDNSRecord entryType name content p =
            (none, { ((p.record (.DNSRecords entryType name) true).record
                (.CreateDNSRecord entryType name content) true) with
              zone := p.zone ++ [⟨p.nextID, entryType, name, content⟩]
              nextID := p.nextID + 1 }) := by
          simp only [CreateOrUpdateDNSRecord, api.DNSRecords, hf1, Bool.false_eq_true, if_false,
            hlen, api.CreateDNSRecord, hf2]
          rfl
        refine ⟨[⟨.DNSRecords entryType name, true⟩,
          ⟨.CreateDNSRecord entryType name content, true⟩], ?_, ?_, ?_, fun h => absurd h hfail⟩
        · rw [hdef]; simp [Provider.record]
        · rw [hdef]; simp
        · simp

/-! ### Certificate reuse at start-up -/

/-- When `LoadX509KeyPair` returns a nil `*error`, both files were read. -/
theorem stat_of_loaded {fs : Files} {certFile keyFile : String}
    {a b : Option Certificate} {k : Option Nat}
    (h : LoadX509KeyPair fs certFile keyFile = .returned (a, b, k, none)) :
    Stat fs certFile = true ∧ Stat fs keyFile = true := by
  unfold LoadX509KeyPair ReadFile at h
  unfold Stat
  cases h1 : fs.lookup certFile with
  | none => simp [h1] at h
  | some cf =>
    cases h2 : fs.lookup keyFile with
    | none => simp [h1, h2] at h
    | some kf => simp

/-- The value of `certValid` once a certificate is loaded. -/
theorem existingCertificateValid_loaded (env : Env) (fqdn : String) (fs : Files)
    (a : Option Certificate) (cert : Certificate) (k : Option Nat)
    (hload : LoadX509KeyPair fs env.Cfg.WebServer.CertFilename env.Cfg.WebServer.KeyFilename =
      .returned (a, some cert, k, none)) :
    existingCertificateValid env fqdn fs =
      .returned (decide (env.now ≤ cert.NotAfter) && cert.DNSNames.any (fun name => name == fqdn)) := by
  have hs := stat_of_loaded hload
  unfold existingCertificateValid
  simp only [hs.1, hs.2, Bool.and_self, if_true, hload]
  by_cases hnow : env.now > cert.NotAfter
  · have : ¬ env.now ≤ cert.NotAfter := by omega
    simp [hnow, this]
  · have : env.now ≤ cert.NotAfter := by omega
    simp [hnow, this]

/-- Creating the certificate starts with the generation of a key. -/
theorem createCertificate_trace_key (env : Env) (fqdn : String) (w : World) :
    w.trace ++ [.GeneratePrivateKey env.Cfg.WebServer.KeyFilename] <+:
      (createCertificate env fqdn w).2.trace := by
  unfold createCertificate GeneratePrivateKey GenerateCSR
  by_cases h1 : env.canCreate env.Cfg.WebServer.KeyFilename = true
  · by_cases h2 : env.canCreate env.Cfg.WebServer.CSRFilename = true
    · simp only [h1, h2, Bool.not_true, Bool.false_eq_true, if_false]
      split
      · simp [List.prefix_append]
      · simp [List.prefix_append]
      · split
        · simp [List.prefix_append]
        · simp [List.prefix_append_right_inj, List.cons_prefix_cons]
    · simp [h2, h1]
  · simp [h1]

/-- When the key and request files can be created, creating the certificate
generates the key and the request and then invokes issuance. -/
theorem createCertificate_trace_issue (env : Env) (fqdn : String) (w : World)
    (h1 : env.canCreate env.Cfg.WebServer.KeyFilename = true)
    (h2 : env.canCreate env.Cfg.WebServer.CSRFilename = true) :
    w.trace ++ [.GeneratePrivateKey env.Cfg.WebServer.KeyFilename,
        .GenerateCSR env.Cfg.WebServer.CSRFilename fqdn,
        .GenerateCertificate (.certificateRequest fqdn env.rsaKey) fqdn] <+:
      (createCertificate env fqdn w).2.trace := by
  unfold createCertificate GeneratePrivateKey GenerateCSR
  simp only [h1, h2, Bool.not_true, Bool.false_eq_true, if_false]
  split
  · simp [List.prefix_append]
  · simp [List.prefix_append]
  · split
    · simp [List.prefix_append]
    · simp [List.prefix_append_right_inj, List.cons_prefix_cons]

/-- Start-up without a valid certificate extends the trace of creating one. -/
theorem finishStartup_trace (env : Env) (fqdn ip : String) (w : World) :
    (createCertificate env fqdn w).2.trace <+: (finishStartup env fqdn ip false w).2.trace := by
  unfold finishStartup
  simp only [Bool.not_false, if_true]
  rcases createCertificate env fqdn w with ⟨o, w1⟩
  cases o with
  | returned u => simp
  | fatal msg => simp
  | panic msg => simp

/-- C4 as stated fails at the instant of expiry: with the clock at exactly `notAfter`
of a certificate whose DNS names contain the server name, the certificate is
accepted although its `notAfter` is not strictly later than now.  It also fails when
the key file cannot be created: an expired certificate is not accepted, and start-up
ends in `log.Fatalf` inside `GeneratePrivateKey`, before issuance is invoked. -/
theorem certificate_accepted_at_notAfter :
    LoadX509KeyPair (sampleFiles 1000) sampleEnv.Cfg.WebServer.CertFilename
        sampleEnv.Cfg.WebServer.KeyFilename =
      .returned (some ⟨1000, ["foo.example.com"]⟩, some ⟨1000, ["foo.example.com"]⟩,
        some 65537, none) ∧
    existingCertificateValid sampleEnv "foo.example.com" (sampleFiles 1000) = .returned true ∧
    ¬ (sampleEnv.now < (1000 : Int) ∧ "foo.example.com" ∈ ["foo.example.com"]) ∧
    LoadX509KeyPair (sampleFiles 999) sampleEnv.Cfg.WebServer.CertFilename
        sampleEnv.Cfg.WebServer.KeyFilename =
      .returned (some ⟨999, ["foo.example.com"]⟩, some ⟨999, ["foo.example.com"]⟩,
        some 65537, none) ∧
    existingCertificateValid { sampleEnv with canCreate := fun _ => false } "foo.example.com"
      (sampleFiles 999) = .returned false ∧
    main { sampleEnv with canCreate := fun _ => false } "10.0.0.1"
        (sampleWorld (sampleFiles 999) []) =
      some (.fatal "Failed to create private key file, error: ",
        { sampleWorld (sampleFiles 999) [] with trace := [.GeneratePrivateKey "private.key"] }) :=
  ⟨by decide, by decide, by decide, by decide, by decide, by decide⟩

/-- C4, amended: for a configured hostname and a certificate and key that load, the
existing certificate is accepted exactly when now is not after its `notAfter` and
its DNS names contain the name `hostname.domain`.  When it is accepted, start-up
only publishes the address record: no key, signing request, issuance or file write,
and the files are as before.  When it is not accepted, start-up generates a key,
and, when the key and request files can be created, it generates the request and
invokes issuance for `hostname.domain`. -/
theorem certificate_reuse_decision (env : Env) (ip : String) (w : World)
    (a : Option Certificate) (cert : Certificate) (k : Option Nat)
    (hhost : env.Cfg.Hostname ≠ "")
    (hload : LoadX509KeyPair w.files env.Cfg.WebServer.CertFilename
      env.Cfg.WebServer.KeyFilename = .returned (a, some cert, k, none)) :
    ∃ certValid : Bool,
      existingCertificateValid env (env.Cfg.Hostname ++ "." ++ env.Cfg.Domain) w.files =
        .returned certValid ∧
      (certValid = true ↔
        env.now ≤ cert.NotAfter ∧ (env.Cfg.Hostname ++ "." ++ env.Cfg.Domain) ∈ cert.DNSNames) ∧
      (certValid = true →
        main env ip w = some (.returned (), { w with
          provider := (CreateOrUpdateDNSRecord "A" (env.Cfg.Hostname ++ "." ++ env.Cfg.Domain) ip
            w.provider).2
          trace := w.trace ++ [.CreateOrUpdateDNSRecord "A"
            (env.Cfg.Hostname ++ "." ++ env.Cfg.Domain) ip
            (CreateOrUpdateDNSRecord "A" (env.Cfg.Hostname ++ "." ++ env.Cfg.Domain) ip
              w.provider).1] })) ∧
      (certValid = false →
        ∃ r, main env ip w = some r ∧
          (∃ rest, r.2.trace = w.trace ++ .GeneratePrivateKey env.Cfg.WebServer.KeyFilename :: rest) ∧
          (env.canCreate env.Cfg.WebServer.KeyFilename = true →
            env.canCreate env.Cfg.WebServer.CSRFilename = true →
            ∃ rest, r.2.trace = w.trace ++
              .GeneratePrivateKey env.Cfg.WebServer.KeyFilename ::
              .GenerateCSR env.Cfg.WebServer.CSRFilename (env.Cfg.Hostname ++ "." ++ env.Cfg.Domain) ::
              .GenerateCertificate
                (.certificateRequest (env.Cfg.Hostname ++ "." ++ env.Cfg.Domain) env.rsaKey)
                (env.Cfg.Hostname ++ "." ++ env.Cfg.Domain) :: rest)) := by
  refine ⟨_, existingCertificateValid_loaded env _ w.files a cert k hload, ?_, ?_, ?_⟩
  · simp [List.any_eq_true]
  · intro hv
    simp only [main, hhost, if_false, existingCertificateValid_loaded env _ w.files a cert k hload,
      hv, finishStartup]
    simp
  · intro hv
    simp only [main, hhost, if_false, existingCertificateValid_loaded env _ w.files a cert k hload,
      hv]
    refine ⟨_, rfl, ?_, ?_⟩
    · obtain ⟨t, ht⟩ := (createCertificate_trace_key env _ w).trans (finishStartup_trace env _ ip w)
      exact ⟨t, by rw [← ht]; simp⟩
    · intro h1 h2
      obtain ⟨t, ht⟩ :=
        (createCertificate_trace_issue env _ w h1 h2).trans (finishStartup_trace env _ ip w)
      exact ⟨t, by rw [← ht]; simp⟩

/-- The hypotheses of the amended C4 hold for the sample server with a certificate
that ends after now, and the certificate is then accepted. -/
theorem certificate_reuse_decision_witness :
    sampleEnv.Cfg.Hostname ≠ "" ∧
    LoadX509KeyPair (sampleWorld (sampleFiles 1500) []).files sampleEnv.Cfg.WebServer.CertFilename
      sampleEnv.Cfg.WebServer.KeyFilename =
      .returned (some ⟨1500, ["foo.example.com"]⟩, some ⟨1500, ["foo.example.com"]⟩,
        some 65537, none) ∧
    ∃ certValid : Bool,
      existingCertificateValid sampleEnv "foo.example.com" (sampleFiles 1500) =
        .returned certValid ∧
      (certValid = true ↔
        sampleEnv.now ≤ (1500 : Int) ∧ "foo.example.com" ∈ ["foo.example.com"]) :=
  ⟨by decide, by decide,
    (certificate_reuse_decision sampleEnv "10.0.0.1" (sampleWorld (sampleFiles 1500) [])
      (some ⟨1500, ["foo.example.com"]⟩) ⟨1500, ["foo.example.com"]⟩ (some 65537)
      (by decide) (by decide)).imp (fun _ h => ⟨h.1, h.2.1⟩)⟩

/-- C5 fails on a certificate file that holds a single certificate (with a key file
that decodes): the rest after the first block is empty but not nil, the second
`pem.Decode` finds no block, and `certBlock.Bytes` dereferences nil.  The same
happens at `caBlock.Bytes` for an empty certificate file, and the panic is the
outcome of `main`. -/
theorem LoadX509KeyPair_single_certificate_panics :
    LoadX509KeyPair
        [("cert.pem", [⟨"CERTIFICATE", .certificate ⟨2000, ["foo.example.com"]⟩⟩]),
          ("private.key", [⟨"PRIVATE KEY", .pkcs1PrivateKey 65537⟩])]
        "cert.pem" "private.key" =
      .panic "invalid memory address or nil pointer dereference" ∧
    LoadX509KeyPair
        [("cert.pem", []), ("private.key", [⟨"PRIVATE KEY", .pkcs1PrivateKey 65537⟩])]
        "cert.pem" "private.key" =
      .panic "invalid memory address or nil pointer dereference" ∧
    main sampleEnv "10.0.0.1"
        (sampleWorld [("cert.pem", [⟨"CERTIFICATE", .certificate ⟨2000, ["foo.example.com"]⟩⟩]),
          ("private.key", [⟨"PRIVATE KEY", .pkcs1PrivateKey 65537⟩])] []) =
      some (.panic "invalid memory address or nil pointer dereference",
        sampleWorld [("cert.pem", [⟨"CERTIFICATE", .certificate ⟨2000, ["foo.example.com"]⟩⟩]),
          ("private.key", [⟨"PRIVATE KEY", .pkcs1PrivateKey 65537⟩])] []) :=
  ⟨by decide, by decide, by decide⟩

/-! ### Issuance -/

/-- The polls of `pollRecord`: failed polls, ended by a successful one unless all
`n` polls fail. -/
theorem pollRecord_trace (txtLabel : String) :
    ∀ (n : Nat) (p : Provider),
      ((pollRecord txtLabel n p).1 = false ∧
        (pollRecord txtLabel n p).2.2 = List.replicate n (.CheckRecord "TXT" txtLabel false)) ∨
      (∃ k, k < n ∧ (pollRecord txtLabel n p).1 = true ∧
        (pollRecord txtLabel n p).2.2 =
          List.replicate k (.CheckRecord "TXT" txtLabel false) ++
            [.CheckRecord "TXT" txtLabel true]) := by
  intro n
  induction n with
  | zero => intro p; exact Or.inl ⟨rfl, rfl⟩
  | succ n ih =>
    intro p
    rcases hc : CheckRecord "TXT" txtLabel p with ⟨res, p1⟩
    cases res with
    | true =>
      refine Or.inr ⟨0, Nat.succ_pos n, ?_, ?_⟩
      · simp [pollRecord, hc]
      · simp [pollRecord, hc]
    | false =>
      rcases ih p1 with ⟨h1, h2⟩ | ⟨k, hk, h1, h2⟩
      · refine Or.inl ⟨?_, ?_⟩
        · simp [pollRecord, hc, h1]
        · simp [pollRecord, hc, h2, List.replicate_succ]
      · refine Or.inr ⟨k + 1, Nat.succ_lt_succ hk, ?_, ?_⟩
        · simp [pollRecord, hc, h1]
        · simp [pollRecord, hc, h2, List.replicate_succ]

/-- The attempts of `waitAuthorized`: failed attempts, ended by a successful one
unless all `n` attempts fail. -/
theorem waitAuthorized_trace (acme : Acme) (uri : String) :
    ∀ (n i : Nat),
      ((waitAuthorized acme uri n i).1 = false ∧
        (waitAuthorized acme uri n i).2 = List.replicate n (.WaitAuthorization uri false)) ∨
      (∃ j, j < n ∧ (waitAuthorized acme uri n i).1 = true ∧
        (waitAuthorized acme uri n i).2 =
          List.replicate j (.WaitAuthorization uri false) ++ [.WaitAuthorization uri true]) := by
  intro n
  induction n with
  | zero => intro i; exact Or.inl ⟨rfl, rfl⟩
  | succ n ih =>
    intro i
    by_cases hc : acme.WaitAuthorization uri i = true
    · refine Or.inr ⟨0, Nat.succ_pos n, ?_, ?_⟩
      · simp [waitAuthorized, hc]
      · simp [waitAuthorized, hc]
    · rcases ih (i + 1) with ⟨h1, h2⟩ | ⟨j, hj, h1, h2⟩
      · refine Or.inl ⟨?_, ?_⟩
        · simp [waitAuthorized, hc, h1]
        · simp [waitAuthorized, hc, h2, List.replicate_succ]
      · refine Or.inr ⟨j + 1, Nat.succ_lt_succ hj, ?_, ?_⟩
        · simp [waitAuthorized, hc, h1]
        · simp [waitAuthorized, hc, h2, List.replicate_succ]

/-- The runs of `GenerateCertificate`: every run ends early (registration,
authorization or the choice of the challenge fails), or publishes the proof record
and then ends in one of: three failed polls; `k < 3` failed polls, a successful one and
a refused `Accept`; an accepted challenge and three failed waits; or `j < 3` failed
waits, a successful one and `CreateCert`, whose answer decides the result. -/
theorem GenerateCertificate_cases (acme : Acme) (csr : DER) (fqdn : String) (p : Provider) :
    (∃ m, (GenerateCertificate acme csr fqdn p).outcome = .fatal m ∧
      ((GenerateCertificate acme csr fqdn p).trace = [.Register] ∨
       (GenerateCertificate acme csr fqdn p).trace = [.Register, .Authorize fqdn])) ∨
    ∃ (txtLabel txtValue uri : String) (err : Option String) (chal : Challenge),
      ((GenerateCertificate acme csr fqdn p).trace =
          [.Register, .Authorize fqdn, .CreateOrUpdateDNSRecord "TXT" txtLabel txtValue err] ++
            List.replicate 3 (.CheckRecord "TXT" txtLabel false) ∧
        (GenerateCertificate acme csr fqdn p).outcome = .fatal "TXT record not created") ∨
      ∃ k, k < 3 ∧
        (((GenerateCertificate acme csr fqdn p).trace =
            [.Register, .Authorize fqdn, .CreateOrUpdateDNSRecord "TXT" txtLabel txtValue err] ++
              List.replicate k (.CheckRecord "TXT" txtLabel false) ++
              [.CheckRecord "TXT" txtLabel true, .Accept chal] ∧
          (GenerateCertificate acme csr fqdn p).outcome = .fatal "Can't accept challenge: ") ∨
         ((GenerateCertificate acme csr fqdn p).trace =
            [.Register, .Authorize fqdn, .CreateOrUpdateDNSRecord "TXT" txtLabel txtValue err] ++
              List.replicate k (.CheckRecord "TXT" txtLabel false) ++
              [.CheckRecord "TXT" txtLabel true, .Accept chal] ++
              List.replicate 3 (.WaitAuthorization uri false) ∧
          (GenerateCertificate acme csr fqdn p).outcome = .fatal "Failed authorization") ∨
         ∃ j, j < 3 ∧
          (GenerateCertificate acme csr fqdn p).trace =
            [.Register, .Authorize fqdn, .CreateOrUpdateDNSRecord "TXT" txtLabel txtValue err] ++
              List.replicate k (.CheckRecord "TXT" txtLabel false) ++
              [.CheckRecord "TXT" txtLabel true, .Accept chal] ++
              List.replicate j (.WaitAuthorization uri false) ++
              [.WaitAuthorization uri true, .CreateCert csr] ∧
          (GenerateCertificate acme csr fqdn p).outcome =
            (match acme.CreateCert csr with
             | .error e => .fatal ("Got an error when creating the certificate, error: " ++ e)
             | .ok certs =>
               if certs.length > 0 then .returned (certs, none)
               else .returned ([], some "No certificates returned"))) := by
  by_cases hreg : acme.Register = true
  · cases hauth : acme.Authorize fqdn with
    | none =>
      left
      refine ⟨"Can't authorize, error: ", ?_, Or.inr ?_⟩ <;>
        simp [GenerateCertificate, hreg, hauth]
    | some authz =>
      cases hch : authz.Challenges.find? (fun c => c.Type_ == "dns-01") with
      | none =>
        left
        refine ⟨"No DNS challenge was present", ?_, Or.inr ?_⟩ <;>
          simp [GenerateCertificate, hreg, hauth, hch]
      | some chal =>
        right
        refine ⟨"_acme-challenge." ++ authz.Identifier, acme.DNS01ChallengeRecord chal.Token,
          authz.URI, (CreateOrUpdateDNSRecord "TXT" ("_acme-challenge." ++ authz.Identifier)
            (acme.DNS01ChallengeRecord chal.Token) p).1, chal, ?_⟩
        rcases pollRecord_trace ("_acme-challenge." ++ authz.Identifier) 3
          (CreateOrUpdateDNSRecord "TXT" ("_acme-challenge." ++ authz.Identifier)
            (acme.DNS01ChallengeRecord chal.Token) p).2 with ⟨h1, h2⟩ | ⟨k, hk, h1, h2⟩
        · left
          constructor <;> simp [GenerateCertificate, hreg, hauth, hch, h1, h2]
        · right
          refine ⟨k, hk, ?_⟩
          by_cases hacc : acme.Accept chal = true
          · rcases waitAuthorized_trace acme authz.URI 3 0 with ⟨g1, g2⟩ | ⟨j, hj, g1, g2⟩
            · right; left
              constructor <;> simp [GenerateCertificate, hreg, hauth, hch, h1, h2, hacc, g1, g2]
            · right; right
              refine ⟨j, hj, ?_, ?_⟩
              · simp only [GenerateCertificate, hreg, hauth, hch, h1, h2, hacc, g1, g2,
                  Bool.not_true, Bool.false_eq_true, if_false]
                cases acme.CreateCert csr with
                | error e => simp
                | ok certs => by_cases hl : certs.length > 0 <;> simp [hl]
              · simp only [GenerateCertificate, hreg, hauth, hch, h1, h2, hacc, g1, g2,
                  Bool.not_true, Bool.false_eq_true, if_false]
                cases acme.CreateCert csr with
                | error e => simp
                | ok certs => by_cases hl : certs.length > 0 <;> simp [hl]
          · left
            constructor <;> simp [GenerateCertificate, hreg, hauth, hch, h1, h2, hacc]
  · left
    refine ⟨"Can't register an ACME account, error: ", ?_, Or.inl ?_⟩ <;>
      simp [GenerateCertificate, hreg]

@[simp] theorem checkRecordResults_append (t u : List Event) :
    checkRecordResults (t ++ u) = checkRecordResults t ++ checkRecordResults u := by
  simp [checkRecordResults, List.filterMap_append]

@[simp] theorem checkRecordResults_replicate_check (n : Nat) (t l : String) (b : Bool) :
    checkRecordResults (List.replicate n (.CheckRecord t l b)) = List.replicate n b := by
  induction n with
  | zero => rfl
  | succ n ih =>
    rw [List.replicate_succ, List.replicate_succ]
    have : checkRecordResults (Event.CheckRecord t l b :: List.replicate n (.CheckRecord t l b)) =
        b :: checkRecordResults (List.replicate n (.CheckRecord t l b)) := rfl
    rw [this, ih]

@[simp] theorem checkRecordResults_replicate_wait (n : Nat) (u : String) (b : Bool) :
    checkRecordResults (List.replicate n (.WaitAuthorization u b)) = [] := by
  induction n with
  | zero => rfl
  | succ n ih =>
    rw [List.replicate_succ]
    have : checkRecordResults (Event.WaitAuthorization u b ::
        List.replicate n (.WaitAuthorization u b)) =
        checkRecordResults (List.replicate n (.WaitAuthorization u b)) := rfl
    rw [this, ih]

@[simp] theorem waitAuthorizationResults_append (t u : List Event) :
    waitAuthorizationResults (t ++ u) =
      waitAuthorizationResults t ++ waitAuthorizationResults u := by
  simp [waitAuthorizationResults, List.filterMap_append]

@[simp] theorem waitAuthorizationResults_replicate_wait (n : Nat) (u : String) (b : Bool) :
    waitAuthorizationResults (List.replicate n (.WaitAuthorization u b)) = List.replicate n b := by
  induction n with
  | zero => rfl
  | succ n ih =>
    rw [List.replicate_succ, List.replicate_succ]
    have : waitAuthorizationResults (Event.WaitAuthorization u b ::
        List.replicate n (.WaitAuthorization u b)) =
        b :: waitAuthorizationResults (List.replicate n (.WaitAuthorization u b)) := rfl
    rw [this, ih]

@[simp] theorem waitAuthorizationResults_replicate_check (n : Nat) (t l : String) (b : Bool) :
    waitAuthorizationResults (List.replicate n (.CheckRecord t l b)) = [] := by
  induction n with
  | zero => rfl
  | succ n ih =>
    rw [List.replicate_succ]
    have : waitAuthorizationResults (Event.CheckRecord t l b ::
        List.replicate n (.CheckRecord t l b)) =
        waitAuthorizationResults (List.replicate n (.CheckRecord t l b)) := rfl
    rw [this, ih]

/-- The poll results of a trace that goes on after a successful poll. -/
theorem checkRecordResults_polled (fqdn l v : String) (err : Option String) (k : Nat)
    (chal : Challenge) (rest : List Event) (hrest : checkRecordResults rest = []) :
    checkRecordResults ([Event.Register, .Authorize fqdn,
        .CreateOrUpdateDNSRecord "TXT" l v err] ++
        List.replicate k (.CheckRecord "TXT" l false) ++
        [.CheckRecord "TXT" l true, .Accept chal] ++ rest) =
      List.replicate k false ++ [true] := by
  have e1 : checkRecordResults [Event.Register, .Authorize fqdn,
      .CreateOrUpdateDNSRecord "TXT" l v err] = [] := rfl
  have e2 : checkRecordResults [Event.CheckRecord "TXT" l true, .Accept chal] = [true] := rfl
  rw [checkRecordResults_append, checkRecordResults_append, checkRecordResults_append,
    hrest, checkRecordResults_replicate_check, e1, e2]
  simp

/-- C6: in every run of `GenerateCertificate` in which polls are made and all of
them return false, exactly 3 polls are made, the run ends in the fatal error
"TXT record not created", and neither `Accept` nor `CreateCert` is called.  If the
poll of attempt `a` (1 ≤ a ≤ 3) returns true, the polls made are `a - 1` failed ones
followed by that one, and `Accept` is called. -/
theorem GenerateCertificate_poll_bound (acme : Acme) (csr : DER) (fqdn : String)
    (p : Provider) :
    (checkRecordResults (GenerateCertificate acme csr fqdn p).trace ≠ [] →
      (∀ b ∈ checkRecordResults (GenerateCertificate acme csr fqdn p).trace, b = false) →
      (checkRecordResults (GenerateCertificate acme csr fqdn p).trace).length = 3 ∧
      (GenerateCertificate acme csr fqdn p).outcome = .fatal "TXT record not created" ∧
      ∀ e ∈ (GenerateCertificate acme csr fqdn p).trace,
        e.isAccept = false ∧ e.isCreateCert = false) ∧
    (∀ a, 1 ≤ a → a ≤ 3 →
      (checkRecordResults (GenerateCertificate acme csr fqdn p).trace).get? (a - 1) = some true →
      checkRecordResults (GenerateCertificate acme csr fqdn p).trace =
        List.replicate (a - 1) false ++ [true] ∧
      ∃ e ∈ (GenerateCertificate acme csr fqdn p).trace, e.isAccept = true) := by
  have key : ∀ (k a : Nat), k < 3 → 1 ≤ a → a ≤ 3 →
      (List.replicate k false ++ [true]).get? (a - 1) = some true → k = a - 1 := by
    intro k a hk h1 h3 h
    interval_cases k <;> interval_cases a <;> simp_all
  rcases GenerateCertificate_cases acme csr fqdn p with
    ⟨m, _, ht | ht⟩ | ⟨l, v, uri, err, chal, ⟨ht, ho⟩ | ⟨k, hk, ⟨ht, ho⟩ | ⟨ht, ho⟩ | ⟨j, hj, ht, ho⟩⟩⟩
  · rw [ht]; simp [checkRecordResults]
  · rw [ht]; simp [checkRecordResults]
  · rw [ht, ho]
    refine ⟨fun _ _ => ⟨by simp [checkRecordResults], rfl, ?_⟩, ?_⟩
    · intro e he
      simp only [List.mem_append, List.mem_cons, List.mem_replicate, List.mem_singleton,
        List.not_mem_nil, or_false] at he
      rcases he with (h | h | h) | ⟨_, h⟩ <;> rw [h] <;> exact ⟨rfl, rfl⟩
    · intro a h1 h3 h
      exfalso
      simp only [checkRecordResults_append, checkRecordResults_replicate_check] at h
      interval_cases a <;> simp [checkRecordResults] at h
  · rw [ht]
    have h0 := checkRecordResults_polled fqdn l v err k chal [] rfl
    simp only [List.append_nil] at h0
    rw [h0]
    refine ⟨fun _ hall => absurd (hall true (by simp)) (by decide), ?_⟩
    intro a h1 h3 h
    rw [key k a hk h1 h3 h]
    exact ⟨rfl, ⟨.Accept chal, by simp, rfl⟩⟩
  · rw [ht]
    rw [checkRecordResults_polled fqdn l v err k chal _ (checkRecordResults_replicate_wait 3 uri false)]
    refine ⟨fun _ hall => absurd (hall true (by simp)) (by decide), ?_⟩
    intro a h1 h3 h
    rw [key k a hk h1 h3 h]
    exact ⟨rfl, ⟨.Accept chal, by simp, rfl⟩⟩
  · rw [ht]
    have hrest : checkRecordResults (List.replicate j (Event.WaitAuthorization uri false) ++
        [.WaitAuthorization uri true, .CreateCert csr]) = [] := by
      rw [checkRecordResults_append, checkRecordResults_replicate_wait]; rfl
    have h0 := checkRecordResults_polled fqdn l v err k chal _ hrest
    simp only [← List.append_assoc] at h0
    rw [h0]
    refine ⟨fun _ hall => absurd (hall true (by simp)) (by decide), ?_⟩
    intro a h1 h3 h
    rw [key k a hk h1 h3 h]
    exact ⟨rfl, ⟨.Accept chal, by simp, rfl⟩⟩

/-- C6 on two runs with the sample authority: the three polls fail (provider calls
2, 3 and 4 return an error), and the second poll is the first to succeed (call 2
returns an error). -/
theorem GenerateCertificate_poll_bound_witness :
    ((checkRecordResults (GenerateCertificate sampleAcme (.raw []) "foo.example.com"
        ⟨[], 0, [2, 3, 4], []⟩).trace).length = 3 ∧
      (GenerateCertificate sampleAcme (.raw []) "foo.example.com"
        ⟨[], 0, [2, 3, 4], []⟩).outcome = .fatal "TXT record not created" ∧
      ∀ e ∈ (GenerateCertificate sampleAcme (.raw []) "foo.example.com"
        ⟨[], 0, [2, 3, 4], []⟩).trace, e.isAccept = false ∧ e.isCreateCert = false) ∧
    (checkRecordResults (GenerateCertificate sampleAcme (.raw []) "foo.example.com"
        ⟨[], 0, [2], []⟩).trace = List.replicate (2 - 1) false ++ [true] ∧
      ∃ e ∈ (GenerateCertificate sampleAcme (.raw []) "foo.example.com"
        ⟨[], 0, [2], []⟩).trace, e.isAccept = true) :=
  ⟨(GenerateCertificate_poll_bound sampleAcme (.raw []) "foo.example.com"
      ⟨[], 0, [2, 3, 4], []⟩).1 (by decide) (by decide),
   (GenerateCertificate_poll_bound sampleAcme (.raw []) "foo.example.com"
      ⟨[], 0, [2], []⟩).2 2 (by decide) (by decide) (by decide)⟩

/-- The wait results of a trace that reaches the wait loop. -/
theorem waitAuthorizationResults_accepted (fqdn l v : String) (err : Option String) (k : Nat)
    (chal : Challenge) :
    waitAuthorizationResults ([Event.Register, .Authorize fqdn,
        .CreateOrUpdateDNSRecord "TXT" l v err] ++
        List.replicate k (.CheckRecord "TXT" l false) ++
        [.CheckRecord "TXT" l true, .Accept chal]) = [] := by
  have e1 : waitAuthorizationResults [Event.Register, .Authorize fqdn,
      .CreateOrUpdateDNSRecord "TXT" l v err] = [] := rfl
  have e2 : waitAuthorizationResults [Event.CheckRecord "TXT" l true, .Accept chal] = [] := rfl
  rw [waitAuthorizationResults_append, waitAuthorizationResults_append,
    waitAuthorizationResults_replicate_check, e1, e2]
  rfl

/-- C7: in every run of `GenerateCertificate` at most 3 `WaitAuthorization` attempts
are made.  If attempts are made and all of them fail, exactly 3 are made, the run
ends in the fatal error "Failed authorization", and `CreateCert` is not called.  A
call of `CreateCert` comes directly after a successful attempt and ends the trace.
Every attempt but the last one made has failed, so none follows a success. -/
theorem GenerateCertificate_authorization_bound (acme : Acme) (csr : DER) (fqdn : String)
    (p : Provider) :
    (waitAuthorizationResults (GenerateCertificate acme csr fqdn p).trace).length ≤ 3 ∧
    (waitAuthorizationResults (GenerateCertificate acme csr fqdn p).trace ≠ [] →
      (∀ b ∈ waitAuthorizationResults (GenerateCertificate acme csr fqdn p).trace, b = false) →
      (waitAuthorizationResults (GenerateCertificate acme csr fqdn p).trace).length = 3 ∧
      (GenerateCertificate acme csr fqdn p).outcome = .fatal "Failed authorization" ∧
      ∀ e ∈ (GenerateCertificate acme csr fqdn p).trace, e.isCreateCert = false) ∧
    (∀ e ∈ (GenerateCertificate acme csr fqdn p).trace, e.isCreateCert = true →
      ∃ (pre : List Event) (uri : String),
        (GenerateCertificate acme csr fqdn p).trace = pre ++ [.WaitAuthorization uri true, e]) ∧
    (∀ b ∈ (waitAuthorizationResults (GenerateCertificate acme csr fqdn p).trace).dropLast,
      b = false) := by
  rcases GenerateCertificate_cases acme csr fqdn p with
    ⟨m, _, ht | ht⟩ | ⟨l, v, uri, err, chal, ⟨ht, ho⟩ | ⟨k, hk, ⟨ht, ho⟩ | ⟨ht, ho⟩ | ⟨j, hj, ht, ho⟩⟩⟩
  · rw [ht]; simp [waitAuthorizationResults, Event.isCreateCert]
  · rw [ht]; simp [waitAuthorizationResults, Event.isCreateCert]
  · rw [ht]
    have hw : waitAuthorizationResults ([Event.Register, .Authorize fqdn,
        .CreateOrUpdateDNSRecord "TXT" l v err] ++
        List.replicate 3 (.CheckRecord "TXT" l false)) = [] := by
      rw [waitAuthorizationResults_append, waitAuthorizationResults_replicate_check]; rfl
    rw [hw]
    refine ⟨by simp, fun h => absurd rfl h, ?_, by simp⟩
    intro e he hc
    exfalso
    simp only [List.mem_append, List.mem_cons, List.mem_replicate, List.mem_singleton,
      List.not_mem_nil, or_false] at he
    rcases he with (h | h | h) | ⟨_, h⟩ <;> rw [h] at hc <;>
      simp [Event.isCreateCert] at hc
  · rw [ht, waitAuthorizationResults_accepted]
    refine ⟨by simp, fun h => absurd rfl h, ?_, by simp⟩
    intro e he hc
    exfalso
    simp only [List.mem_append, List.mem_cons, List.mem_replicate, List.mem_singleton,
      List.not_mem_nil, or_false] at he
    rcases he with ((h | h | h) | ⟨_, h⟩) | h | h <;> rw [h] at hc <;>
      simp [Event.isCreateCert] at hc
  · rw [ht, ho, waitAuthorizationResults_append, waitAuthorizationResults_accepted,
      waitAuthorizationResults_replicate_wait]
    refine ⟨by simp, fun _ _ => ⟨by simp, rfl, ?_⟩, ?_, ?_⟩
    · intro e he
      simp only [List.mem_append, List.mem_cons, List.mem_replicate, List.mem_singleton,
        List.not_mem_nil, or_false] at he
      rcases he with (((h | h | h) | ⟨_, h⟩) | h | h) | ⟨_, h⟩ <;> rw [h] <;> rfl
    · intro e he hc
      exfalso
      simp only [List.mem_append, List.mem_cons, List.mem_replicate, List.mem_singleton,
        List.not_mem_nil, or_false] at he
      rcases he with (((h | h | h) | ⟨_, h⟩) | h | h) | ⟨_, h⟩ <;> rw [h] at hc <;>
        simp [Event.isCreateCert] at hc
    · intro b hb
      have := List.mem_of_mem_dropLast hb
      simp only [List.nil_append, List.mem_replicate] at this
      exact this.2
  · rw [ht]
    have hw : waitAuthorizationResults ([Event.Register, .Authorize fqdn,
        .CreateOrUpdateDNSRecord "TXT" l v err] ++
        List.replicate k (.CheckRecord "TXT" l false) ++
        [.CheckRecord "TXT" l true, .Accept chal] ++
        List.replicate j (.WaitAuthorization uri false) ++
        [.WaitAuthorization uri true, .CreateCert csr]) = List.replicate j false ++ [true] := by
      have e3 : waitAuthorizationResults [Event.WaitAuthorization uri true, .CreateCert csr] =
          [true] := rfl
      rw [waitAuthorizationResults_append, waitAuthorizationResults_append,
        waitAuthorizationResults_accepted, waitAuthorizationResults_replicate_wait, e3]
      rfl
    rw [hw]
    refine ⟨by simp; omega, fun _ hall => absurd (hall true (by simp)) (by decide), ?_, ?_⟩
    · intro e he hc
      simp only [List.mem_append, List.mem_cons, List.mem_replicate, List.mem_singleton,
        List.not_mem_nil, or_false] at he
      rcases he with ((((h | h | h) | ⟨_, h⟩) | h | h) | ⟨_, h⟩) | h | h
      all_goals first
        | (rw [h] at hc; simp [Event.isCreateCert] at hc; done)
        | (rw [h]
           exact ⟨[Event.Register, .Authorize fqdn,
              .CreateOrUpdateDNSRecord "TXT" l v err] ++
              List.replicate k (.CheckRecord "TXT" l false) ++
              [.CheckRecord "TXT" l true, .Accept chal] ++
              List.replicate j (.WaitAuthorization uri false), uri, rfl⟩)
    · intro b hb
      rw [List.dropLast_concat] at hb
      exact (List.mem_replicate.mp hb).2

/-- C7 on a run in which the authority never reports the authorization: three
attempts, the fatal error, and no `CreateCert`. -/
theorem GenerateCertificate_authorization_bound_witness :
    (waitAuthorizationResults (GenerateCertificate
        { sampleAcme with WaitAuthorization := fun _ _ => false } (.raw []) "foo.example.com"
        ⟨[], 0, [], []⟩).trace).length = 3 ∧
    (GenerateCertificate { sampleAcme with WaitAuthorization := fun _ _ => false } (.raw [])
        "foo.example.com" ⟨[], 0, [], []⟩).outcome = .fatal "Failed authorization" ∧
    ∀ e ∈ (GenerateCertificate { sampleAcme with WaitAuthorization := fun _ _ => false }
        (.raw []) "foo.example.com" ⟨[], 0, [], []⟩).trace, e.isCreateCert = false :=
  (GenerateCertificate_authorization_bound
    { sampleAcme with WaitAuthorization := fun _ _ => false } (.raw []) "foo.example.com"
    ⟨[], 0, [], []⟩).2.1 (by decide) (by decide)

/-- C8: `GenerateCertificate` returns without error exactly when `CreateCert` was
called and the authority answered with at least one certificate; the value returned
is then that sequence of certificates, unchanged.  It returns an error exactly when
`CreateCert` was called and the authority answered with no certificate; the error
is "No certificates returned" and the chain returned is empty. -/
theorem GenerateCertificate_result (acme : Acme) (csr : DER) (fqdn : String) (p : Provider) :
    (∀ certs, (GenerateCertificate acme csr fqdn p).outcome = .returned (certs, none) ↔
      (.CreateCert csr ∈ (GenerateCertificate acme csr fqdn p).trace ∧
        acme.CreateCert csr = .ok certs ∧ certs ≠ [])) ∧
    (∀ certs err, (GenerateCertificate acme csr fqdn p).outcome = .returned (certs, some err) ↔
      (.CreateCert csr ∈ (GenerateCertificate acme csr fqdn p).trace ∧
        acme.CreateCert csr = .ok [] ∧ certs = [] ∧ err = "No certificates returned")) := by
  rcases GenerateCertificate_cases acme csr fqdn p with
    ⟨m, ho, ht | ht⟩ | ⟨l, v, uri, err, chal, ⟨ht, ho⟩ | ⟨k, hk, ⟨ht, ho⟩ | ⟨ht, ho⟩ | ⟨j, hj, ht, ho⟩⟩⟩
  · rw [ht, ho]; simp
  · rw [ht, ho]; simp
  · rw [ht, ho]; simp [List.mem_replicate]
  · rw [ht, ho]; simp [List.mem_replicate]
  · rw [ht, ho]; simp [List.mem_replicate]
  · rw [ht, ho]
    have hmem : Event.CreateCert csr ∈
        [Event.Register, .Authorize fqdn, .CreateOrUpdateDNSRecord "TXT" l v err] ++
          List.replicate k (.CheckRecord "TXT" l false) ++
          [.CheckRecord "TXT" l true, .Accept chal] ++
          List.replicate j (.WaitAuthorization uri false) ++
          [.WaitAuthorization uri true, .CreateCert csr] := by simp
    simp only [hmem, true_and]
    cases hc : acme.CreateCert csr with
    | error e => simp
    | ok cs =>
      by_cases hl : cs.length > 0
      · have hne : cs ≠ [] := List.length_pos.mp hl
        simp only [hl, if_true, Outcome.returned.injEq, Prod.mk.injEq, Except.ok.injEq]
        constructor
        · intro certs
          constructor
          · rintro ⟨h, _⟩; exact ⟨h, h ▸ hne⟩
          · rintro ⟨h, _⟩; exact ⟨h, trivial⟩
        · intro certs e
          constructor
          · rintro ⟨_, h⟩; exact absurd h (by simp)
          · rintro ⟨h, _⟩; exact absurd h hne
      · have he : cs = [] := by
          cases cs with
          | nil => rfl
          | cons a t => simp at hl
        subst he
        simp only [List.length_nil, gt_iff_lt, lt_self_iff_false, if_false,
          Outcome.returned.injEq, Prod.mk.injEq, Except.ok.injEq]
        constructor
        · intro certs
          constructor
          · rintro ⟨_, h⟩; exact absurd h (by simp)
          · rintro ⟨h, hne⟩; exact absurd h.symm hne
        · intro certs e
          constructor
          · rintro ⟨h1, h2⟩
            exact ⟨trivial, h1.symm, (Option.some.inj h2).symm⟩
          · rintro ⟨_, h1, h2⟩
            exact ⟨h1.symm, by rw [h2]⟩

/-- C8 on the sample run: the chain returned is the one the authority issued. -/
theorem GenerateCertificate_result_witness :
    (GenerateCertificate sampleAcme (.raw []) "foo.example.com" ⟨[], 0, [], []⟩).outcome =
      .returned ([.certificate ⟨2000, ["foo.example.com"]⟩, .raw [48, 130]], none) :=
  ((GenerateCertificate_result sampleAcme (.raw []) "foo.example.com" ⟨[], 0, [], []⟩).1
    [.certificate ⟨2000, ["foo.example.com"]⟩, .raw [48, 130]]).mpr
    ⟨by decide, rfl, by decide⟩

/-! ### Registration -/

theorem countHostname_eq_zero_iff (database : List Client) (h : String) :
    countHostname database h = 0 ↔ ∀ c ∈ database, c.hostname ≠ h := by
  simp [countHostname, List.filter_eq_nil_iff]

theorem countUUID_eq_zero_iff (database : List Client) (u : String) :
    countUUID database u = 0 ↔ ∀ c ∈ database, c.uuid ≠ u := by
  simp [countUUID, List.filter_eq_nil_iff]

theorem countUUID_pos_iff (database : List Client) (u : String) :
    countUUID database u > 0 ↔ ∃ c ∈ database, c.uuid = u := by
  simp [countUUID, List.length_pos, List.filter_eq_nil_iff]

/-- The hostname loop ends as soon as the generator yields a name whose hostname is
not in the table, and returns the first such hostname. -/
theorem uniqueHostname_some (database : List Client) :
    ∀ names : List String,
      (∃ n ∈ names, countHostname database (generateHostname n) = 0) →
      ∃ n rest, n ∈ names ∧
        uniqueHostname database names = some (generateHostname n, rest) ∧
        countHostname database (generateHostname n) = 0 := by
  intro names
  induction names with
  | nil => rintro ⟨n, hn, _⟩; exact absurd hn (List.not_mem_nil _)
  | cons a rest ih =>
    rintro ⟨n, hn, hfree⟩
    by_cases ha : countHostname database (generateHostname a) > 0
    · have hne : n ≠ a := by
        rintro rfl
        omega
      have hn2 : n ∈ rest := by
        rcases List.mem_cons.mp hn with h | h
        · exact absurd h hne
        · exact h
      obtain ⟨m, r, hm, hu, hc⟩ := ih ⟨n, hn2, hfree⟩
      exact ⟨m, r, List.mem_cons_of_mem _ hm, by simp [uniqueHostname, ha, hu], hc⟩
    · exact ⟨a, rest, List.mem_cons_self _ _, by simp [uniqueHostname, ha], by omega⟩

/-- A generated hostname contains no underscore. -/
theorem generateHostname_no_underscore (n : String) : '_' ∉ (generateHostname n).data := by
  simp only [generateHostname, List.mem_map, not_exists, not_and]
  intro c _ h
  by_cases hc : c = '_'
  · simp [hc] at h
  · simp [hc] at h

/-- C9: a registration with a well-formed identity, a private address and an identity
that is not in the store, when the generator yields some name whose hostname is not
in the store: the call returns, the response is 200 with `Success` true and the
hostname `h.domain`, where `h` is a name of the generator with every underscore
replaced by a hyphen (so `h` has no underscore) and is the hostname of no row stored
before; the store afterwards is the store before followed by the one row
(canonical identity, `h`, address). -/
theorem registerClient_registers (env : Env) (req : RegClientRequest) (w : World) (u : UUID)
    (hid : uuid.Parse req.ClientID = some u)
    (hip : isPrivateIP (env.ParseIP req.IP) = true)
    (hnew : ∀ c ∈ w.database, c.uuid ≠ u.String)
    (hgen : ∃ n ∈ w.names, ∀ c ∈ w.database, c.hostname ≠ generateHostname n) :
    ∃ (n : String) (w1 : World),
      n ∈ w.names ∧
      registerClient env (.ok req) w =
        some (.returned ⟨200, some (.regClientResponse
          ⟨true, "done", generateHostname n ++ "." ++ env.Cfg.Domain⟩)⟩, w1) ∧
      w1.database = w.database ++ [⟨u.String, generateHostname n, req.IP⟩] ∧
      (∀ c ∈ w.database, c.hostname ≠ generateHostname n) ∧
      (generateHostname n).data = n.data.map (fun c => if c = '_' then '-' else c) ∧
      '_' ∉ (generateHostname n).data := by
  obtain ⟨n0, hn0, hfree0⟩ := hgen
  obtain ⟨n, rest, hn, hu, hc⟩ := uniqueHostname_some w.database w.names
    ⟨n0, hn0, (countHostname_eq_zero_iff _ _).mpr hfree0⟩
  have hcount : countUUID w.database u.String = 0 := (countUUID_eq_zero_iff _ _).mpr hnew
  refine ⟨n, { w with
      database := w.database ++ [⟨u.String, generateHostname n, req.IP⟩]
      names := rest
      provider := (CreateOrUpdateDNSRecord "A" (generateHostname n ++ "." ++ env.Cfg.Domain)
        req.IP w.provider).2
      trace := w.trace ++ [.CreateOrUpdateDNSRecord "A"
        (generateHostname n ++ "." ++ env.Cfg.Domain) req.IP
        (CreateOrUpdateDNSRecord "A" (generateHostname n ++ "." ++ env.Cfg.Domain)
          req.IP w.provider).1] },
    hn, ?_, rfl, (countHostname_eq_zero_iff _ _).mp hc, rfl, generateHostname_no_underscore n⟩
  simp only [registerClient, hid, hip, Bool.not_true, Bool.false_eq_true, if_false, hcount,
    gt_iff_lt, lt_self_iff_false, hu, insertClient]

/-- C9 at the spec's example, identity `11111111-1111-1111-1111-111111111111` and
address `10.0.0.5`, on a store that already holds the first hostname the generator
yields. -/
theorem registerClient_registers_witness :
    uuid.Parse "11111111-1111-1111-1111-111111111111" =
      some ⟨[17, 17, 17, 17, 17, 17, 17, 17, 17, 17, 17, 17, 17, 17, 17, 17]⟩ ∧
    isPrivateIP (sampleEnv.ParseIP "10.0.0.5") = true ∧
    ∃ (n : String) (w1 : World),
      n ∈ ["focused_turing", "happy_curie"] ∧
      registerClient sampleEnv (.ok ⟨"11111111-1111-1111-1111-111111111111", "10.0.0.5"⟩)
          ⟨[⟨"eca2450a-482d-4b4b-baa5-9ff0daec19e9", "focused-turing", "10.0.0.4"⟩],
            ⟨[], 0, [], []⟩, [], ["focused_turing", "happy_curie"], []⟩ =
        some (.returned ⟨200, some (.regClientResponse
          ⟨true, "done", generateHostname n ++ "." ++ "example.com"⟩)⟩, w1) ∧
      w1.database =
        [⟨"eca2450a-482d-4b4b-baa5-9ff0daec19e9", "focused-turing", "10.0.0.4"⟩,
          ⟨"11111111-1111-1111-1111-111111111111", generateHostname n, "10.0.0.5"⟩] :=
  ⟨by decide, by decide,
    (registerClient_registers sampleEnv ⟨"11111111-1111-1111-1111-111111111111", "10.0.0.5"⟩
      ⟨[⟨"eca2450a-482d-4b4b-baa5-9ff0daec19e9", "focused-turing", "10.0.0.4"⟩],
        ⟨[], 0, [], []⟩, [], ["focused_turing", "happy_curie"], []⟩
      ⟨[17, 17, 17, 17, 17, 17, 17, 17, 17, 17, 17, 17, 17, 17, 17, 17]⟩
      (by decide) (by decide) (by decide)
      ⟨"happy_curie", by decide, by decide⟩).imp
      (fun _ h => h.imp (fun _ g => ⟨g.1, g.2.1, g.2.2.1⟩))⟩

/-- A successful registration leaves a row with the canonical identity in the store. -/
theorem registered_of_success (env : Env) (req : RegClientRequest) (w w1 : World) (u : UUID)
    (resp : Response) (hid : uuid.Parse req.ClientID = some u)
    (hrun : registerClient env (.ok req) w = some (.returned resp, w1))
    (hstatus : resp.status = 200) :
    ∃ c ∈ w1.database, c.uuid = u.String := by
  simp only [registerClient, hid] at hrun
  by_cases hip : isPrivateIP (env.ParseIP req.IP) = true
  · by_cases hdup : countUUID w.database u.String > 0
    · simp [hip, hdup, writeError] at hrun
      rw [← hrun.1] at hstatus
      simp at hstatus
    · simp only [hip, Bool.not_true, Bool.false_eq_true, if_false, hdup] at hrun
      cases hu : uniqueHostname w.database w.names with
      | none => simp [hu] at hrun
      | some r =>
        obtain ⟨h, rest⟩ := r
        have hcount : ¬ (countUUID w.database u.String > 0) := hdup
        simp only [hu, insertClient, hcount, if_false, Option.some.injEq, Prod.mk.injEq,
          Outcome.returned.injEq] at hrun
        rw [← hrun.2]
        exact ⟨⟨u.String, h, req.IP⟩, by simp, rfl⟩
  · simp [hip, writeError] at hrun
    rw [← hrun.1] at hstatus
    simp at hstatus

/-- C10 as stated fails when the address is not private: the identity is in the store
and the request (the one of the comment in `webserver.go`, which carries no address)
is rejected with the not-private failure, not with the already-registered one. -/
theorem registerClient_duplicate_public_address :
    (∃ u, uuid.Parse "eca2450a-482d-4b4b-baa5-9ff0daec19e9" = some u ∧
      countUUID [⟨"eca2450a-482d-4b4b-baa5-9ff0daec19e9", "focused-turing", "10.0.0.4"⟩]
        u.String > 0) ∧
    registerClient sampleEnv (.ok ⟨"eca2450a-482d-4b4b-baa5-9ff0daec19e9", ""⟩)
        ⟨[⟨"eca2450a-482d-4b4b-baa5-9ff0daec19e9", "focused-turing", "10.0.0.4"⟩],
          ⟨[], 0, [], []⟩, [], ["happy_curie"], []⟩ =
      some (.returned ⟨500, some (.regClientResponse
          ⟨false, "The IP address passed in is not private: ", ""⟩)⟩,
        ⟨[⟨"eca2450a-482d-4b4b-baa5-9ff0daec19e9", "focused-turing", "10.0.0.4"⟩],
          ⟨[], 0, [], []⟩, [], ["happy_curie"], []⟩) ∧
    (⟨500, some (.regClientResponse
        ⟨false, "The IP address passed in is not private: ", ""⟩)⟩ : Response) ≠
      ⟨500, some (.regClientResponse
        ⟨false, "The client with provided UUID is already registered", ""⟩)⟩ :=
  ⟨⟨⟨[236, 162, 69, 10, 72, 45, 75, 75, 186, 165, 159, 240, 218, 236, 25, 233]⟩,
      by decide, by decide⟩, by decide, by decide⟩

/-- C10, amended: a registration with a well-formed identity and a private address
whose identity, in canonical form, is already in the store is rejected with status
500, `Success` false and the already-registered message, and changes nothing: the
store, the zone and the provider log are as before.  Hence, after a successful
registration, a request that spells the same UUID in any accepted format (with a
private address) is rejected in this way. -/
theorem registerClient_already_registered (env : Env) (req : RegClientRequest) (w : World)
    (u : UUID) (hid : uuid.Parse req.ClientID = some u)
    (hip : isPrivateIP (env.ParseIP req.IP) = true) :
    ((∃ c ∈ w.database, c.uuid = u.String) →
      registerClient env (.ok req) w =
        some (.returned ⟨500, some (.regClientResponse
          ⟨false, "The client with provided UUID is already registered", ""⟩)⟩, w)) ∧
    (∀ (first : RegClientRequest) (w0 : World) (resp : Response),
      uuid.Parse first.ClientID = some u →
      registerClient env (.ok first) w0 = some (.returned resp, w) →
      resp.status = 200 →
      registerClient env (.ok req) w =
        some (.returned ⟨500, some (.regClientResponse
          ⟨false, "The client with provided UUID is already registered", ""⟩)⟩, w)) := by
  have main : (∃ c ∈ w.database, c.uuid = u.String) →
      registerClient env (.ok req) w =
        some (.returned ⟨500, some (.regClientResponse
          ⟨false, "The client with provided UUID is already registered", ""⟩)⟩, w) := by
    intro hdup
    have hcount : countUUID w.database u.String > 0 := (countUUID_pos_iff _ _).mpr hdup
    simp only [registerClient, hid, hip, Bool.not_true, Bool.false_eq_true, if_false, hcount,
      if_true, writeError, RegClientResponse.Marshall]
  exact ⟨main, fun first w0 resp hfirst hrun hstatus =>
    main (registered_of_success env first w0 w u resp hfirst hrun hstatus)⟩

/-- C10, amended, on the formats of the comment in `webserver.go`: after the
registration of `eca2450a-482d-4b4b-baa5-9ff0daec19e9`, the same UUID written with
the URN prefix in upper case is rejected as already registered, and so is the same
UUID written without hyphens. -/
theorem registerClient_already_registered_witness :
    uuid.Parse "URN:UUID:ECA2450A-482D-4B4B-BAA5-9FF0DAEC19E9" =
      some ⟨[236, 162, 69, 10, 72, 45, 75, 75, 186, 165, 159, 240, 218, 236, 25, 233]⟩ ∧
    uuid.Parse "eca2450a482d4b4bbaa59ff0daec19e9" =
      some ⟨[236, 162, 69, 10, 72, 45, 75, 75, 186, 165, 159, 240, 218, 236, 25, 233]⟩ ∧
    isPrivateIP (sampleEnv.ParseIP "10.0.0.6") = true ∧
    registerClient sampleEnv (.ok ⟨"URN:UUID:ECA2450A-482D-4B4B-BAA5-9FF0DAEC19E9", "10.0.0.6"⟩)
        ⟨[⟨"eca2450a-482d-4b4b-baa5-9ff0daec19e9", "focused-turing", "10.0.0.5"⟩],
          ⟨[⟨0, "A", "focused-turing.example.com", "10.0.0.5"⟩], 1, [],
            [⟨.DNSRecords "A" "focused-turing.example.com", true⟩,
              ⟨.CreateDNSRecord "A" "focused-turing.example.com" "10.0.0.5", true⟩]⟩,
          [], ["happy_curie"],
          [.CreateOrUpdateDNSRecord "A" "focused-turing.example.com" "10.0.0.5" none]⟩ =
      some (.returned ⟨500, some (.regClientResponse
          ⟨false, "The client with provided UUID is already registered", ""⟩)⟩,
        ⟨[⟨"eca2450a-482d-4b4b-baa5-9ff0daec19e9", "focused-turing", "10.0.0.5"⟩],
          ⟨[⟨0, "A", "focused-turing.example.com", "10.0.0.5"⟩], 1, [],
            [⟨.DNSRecords "A" "focused-turing.example.com", true⟩,
              ⟨.CreateDNSRecord "A" "focused-turing.example.com" "10.0.0.5", true⟩]⟩,
          [], ["happy_curie"],
          [.CreateOrUpdateDNSRecord "A" "focused-turing.example.com" "10.0.0.5" none]⟩) ∧
    registerClient sampleEnv (.ok ⟨"eca2450a482d4b4bbaa59ff0daec19e9", "10.0.0.6"⟩)
        ⟨[⟨"eca2450a-482d-4b4b-baa5-9ff0daec19e9", "focused-turing", "10.0.0.5"⟩],
          ⟨[⟨0, "A", "focused-turing.example.com", "10.0.0.5"⟩], 1, [],
            [⟨.DNSRecords "A" "focused-turing.example.com", true⟩,
              ⟨.CreateDNSRecord "A" "focused-turing.example.com" "10.0.0.5", true⟩]⟩,
          [], ["happy_curie"],
          [.CreateOrUpdateDNSRecord "A" "focused-turing.example.com" "10.0.0.5" none]⟩ =
      some (.returned ⟨500, some (.regClientResponse
          ⟨false, "The client with provided UUID is already registered", ""⟩)⟩,
        ⟨[⟨"eca2450a-482d-4b4b-baa5-9ff0daec19e9", "focused-turing", "10.0.0.5"⟩],
          ⟨[⟨0, "A", "focused-turing.example.com", "10.0.0.5"⟩], 1, [],
            [⟨.DNSRecords "A" "focused-turing.example.com", true⟩,
              ⟨.CreateDNSRecord "A" "focused-turing.example.com" "10.0.0.5", true⟩]⟩,
          [], ["happy_curie"],
          [.CreateOrUpdateDNSRecord "A" "focused-turing.example.com" "10.0.0.5" none]⟩) :=
  ⟨by decide, by decide, by decide,
    (registerClient_already_registered sampleEnv
      ⟨"URN:UUID:ECA2450A-482D-4B4B-BAA5-9FF0DAEC19E9", "10.0.0.6"⟩ _
      ⟨[236, 162, 69, 10, 72, 45, 75, 75, 186, 165, 159, 240, 218, 236, 25, 233]⟩
      (by decide) (by decide)).2
      ⟨"eca2450a-482d-4b4b-baa5-9ff0daec19e9", "10.0.0.5"⟩
      (sampleWorld [] ["focused_turing", "happy_curie"])
      ⟨200, some (.regClientResponse ⟨true, "done", "focused-turing.example.com"⟩)⟩
      (by decide) (by decide) rfl,
    (registerClient_already_registered sampleEnv
      ⟨"eca2450a482d4b4bbaa59ff0daec19e9", "10.0.0.6"⟩ _
      ⟨[236, 162, 69, 10, 72, 45, 75, 75, 186, 165, 159, 240, 218, 236, 25, 233]⟩
      (by decide) (by decide)).1
      ⟨⟨"eca2450a-482d-4b4b-baa5-9ff0daec19e9", "focused-turing", "10.0.0.5"⟩,
        by decide, by decide⟩⟩

/-! ### Polling and deleting records -/

/-- C19: `CheckRecord(type, name)` returns true exactly when the lookup succeeds and
returns at least one record matching (type, name).  When the lookup fails the
result is false; the function has no other result than a boolean.  In every case
the zone is as before, and the one call made is the lookup. -/
theorem CheckRecord_iff (recordType name : String) (p : Provider) :
    ((CheckRecord recordType name p).1 = true ↔
      (p.nextFails = false ∧ p.zone.filter (recordMatches recordType name) ≠ [])) ∧
    (p.nextFails = true → (CheckRecord recordType name p).1 = false) ∧
    (CheckRecord recordType name p).2.zone = p.zone ∧
    (CheckRecord recordType name p).2.log =
      p.log ++ [⟨.DNSRecords recordType name, !p.nextFails⟩] := by
  by_cases hfail : p.nextFails = true
  · simp [CheckRecord, api.DNSRecords, hfail, Provider.record]
  · have hf : p.nextFails = false := by simpa using hfail
    simp [CheckRecord, api.DNSRecords, hf, Provider.record, List.length_pos]

/-- C19 on a zone that holds the record, once with the lookup succeeding and once
with the lookup failing. -/
theorem CheckRecord_iff_witness :
    (CheckRecord "TXT" "_acme-challenge.foo.example.com"
      ⟨[⟨0, "TXT", "_acme-challenge.foo.example.com", "proof"⟩], 1, [], []⟩).1 = true ∧
    (CheckRecord "TXT" "_acme-challenge.foo.example.com"
      ⟨[⟨0, "TXT", "_acme-challenge.foo.example.com", "proof"⟩], 1, [0], []⟩).1 = false :=
  ⟨((CheckRecord_iff "TXT" "_acme-challenge.foo.example.com"
      ⟨[⟨0, "TXT", "_acme-challenge.foo.example.com", "proof"⟩], 1, [], []⟩).1).mpr
      ⟨by decide, by decide⟩,
   (CheckRecord_iff "TXT" "_acme-challenge.foo.example.com"
      ⟨[⟨0, "TXT", "_acme-challenge.foo.example.com", "proof"⟩], 1, [0], []⟩).2.1 (by decide)⟩

/-- With every call succeeding, the delete loop removes exactly the records whose
identifier is among those of `recs`, and logs one delete per record. -/
theorem deleteEach_reliable :
    ∀ (recs : List DNSRecord) (p : Provider), p.failing = [] →
      (recs.map DNSRecord.ID).Nodup →
      (∀ r ∈ recs, r.ID ∈ p.zone.map DNSRecord.ID) →
      deleteEach recs p =
        (none, { p with
          zone := p.zone.filter (fun x => decide (x.ID ∉ recs.map DNSRecord.ID))
          log := p.log ++ recs.map (fun r => ⟨.DeleteDNSRecord r.ID, true⟩) }) := by
  intro recs
  induction recs with
  | nil => intro p _ _ _; simp [deleteEach]
  | cons r rest ih =>
    intro p hf hnd hmem
    have hr : p.zone.any (fun x => x.ID == r.ID) = true := by
      have := hmem r (List.mem_cons_self _ _)
      simp only [List.mem_map] at this
      obtain ⟨x, hx, hxr⟩ := this
      simp only [List.any_eq_true]
      exact ⟨x, hx, by simp [hxr]⟩
    have hstep : api.DeleteDNSRecord r.ID p =
        (true, { (p.record (.DeleteDNSRecord r.ID) true) with
          zone := p.zone.filter (fun x => x.ID != r.ID) }) := by
      simp [api.DeleteDNSRecord, nextFails_of_reliable hf, hr]
    rw [List.map_cons, List.nodup_cons] at hnd
    simp only [deleteEach, hstep]
    rw [ih]
    rotate_left
    · exact hf
    · exact hnd.2
    · intro r1 hr1
      have h1 := hmem r1 (List.mem_cons_of_mem _ hr1)
      have hne : r1.ID ≠ r.ID := by
        intro heq
        exact hnd.1 (heq ▸ List.mem_map_of_mem _ hr1)
      simp only [List.mem_map, List.mem_filter] at h1 ⊢
      obtain ⟨x, hx, hxr⟩ := h1
      exact ⟨x, ⟨hx, by simp [hxr, hne]⟩, hxr⟩
    · simp only [Provider.record, List.filter_filter, List.map_cons, List.append_assoc,
        List.singleton_append, Prod.mk.injEq, true_and]
      congr 1
      apply List.filter_congr
      intro x _
      by_cases h1 : x.ID = r.ID <;>
        by_cases h2 : x.ID ∈ rest.map DNSRecord.ID <;> simp [h1, h2]

/-- What `DeleteDNSRecord` does when every provider call succeeds. -/
theorem deleteDNSRecord_reliable (t n : String) (p : Provider) (hwf : p.WF)
    (hf : p.failing = []) :
    DeleteDNSRecord t n p =
      (none, { p with
        zone := p.zone.filter (fun x => !recordMatches t n x)
        log := p.log ++ ⟨.DNSRecords t n, true⟩ ::
          (p.zone.filter (recordMatches t n)).map (fun r => ⟨.DeleteDNSRecord r.ID, true⟩) }) := by
  by_cases hnone : p.zone.filter (recordMatches t n) = []
  · have hz : p.zone.filter (fun x => !recordMatches t n x) = p.zone := by
      rw [List.filter_eq_self]
      intro x hx
      have : ¬ recordMatches t n x = true := by
        intro hm
        have : x ∈ p.zone.filter (recordMatches t n) := List.mem_filter.mpr ⟨hx, hm⟩
        rw [hnone] at this
        exact absurd this (List.not_mem_nil _)
      simpa using this
    simp [DeleteDNSRecord, api.DNSRecords, nextFails_of_reliable hf, hnone, hz, Provider.record]
  · have hlen : ¬ (p.zone.filter (recordMatches t n)).length = 0 := by
      simpa [List.length_eq_zero] using hnone
    simp only [DeleteDNSRecord, api.DNSRecords, nextFails_of_reliable hf, Bool.false_eq_true,
      if_false, hlen]
    rw [deleteEach_reliable]
    rotate_left
    · exact hf
    · exact (hwf.1.sublist ((List.filter_sublist _).map _))
    · intro r hr
      simp only [Provider.record]
      exact List.mem_map_of_mem _ (List.mem_of_mem_filter hr)
    · simp only [Provider.record, List.append_assoc, List.singleton_append, Prod.mk.injEq,
        true_and]
      congr 1
      apply List.filter_congr
      intro x hx
      by_cases h : recordMatches t n x = true
      · simp [h, (id_mem_filter_iff hwf t n hx).mpr h]
      · have h2 := mt (id_mem_filter_iff hwf t n hx).mp h
        simp [h2, h]

/-- Removing records keeps a zone well formed. -/
theorem wf_filter (p : Provider) (hwf : p.WF) (f : DNSRecord → Bool) (l : List LogEntry) :
    Provider.WF { p with zone := p.zone.filter f, log := l } :=
  ⟨hwf.1.sublist ((List.filter_sublist _).map _),
    fun r hr => hwf.2 r (List.mem_of_mem_filter hr)⟩

/-- C20: with a well-formed zone and every provider call succeeding,
`DeleteDNSRecord(type, name)` returns no error and leaves the zone without any record
matching (type, name): the zone afterwards is the zone before with the matching
records taken out, the others unchanged and in the same order.  When no record
matches, the zone is unchanged and the lookup is the only call.  A second call
right after the first returns no error, leaves the zone as the first call left it
and makes the lookup only. -/
theorem DeleteDNSRecord_idempotent (entryType name : String) (p : Provider)
    (hwf : p.WF) (hok : p.failing = []) :
    (DeleteDNSRecord entryType name p).1 = none ∧
    (DeleteDNSRecord entryType name p).2.zone =
      p.zone.filter (fun x => !recordMatches entryType name x) ∧
    (DeleteDNSRecord entryType name p).2.zone.filter (recordMatches entryType name) = [] ∧
    (p.zone.filter (recordMatches entryType name) = [] →
      (DeleteDNSRecord entryType name p).2.zone = p.zone ∧
      (DeleteDNSRecord entryType name p).2.log = p.log ++ [⟨.DNSRecords entryType name, true⟩]) ∧
    (DeleteDNSRecord entryType name (DeleteDNSRecord entryType name p).2).1 = none ∧
    (DeleteDNSRecord entryType name (DeleteDNSRecord entryType name p).2).2.zone =
      (DeleteDNSRecord entryType name p).2.zone ∧
    (DeleteDNSRecord entryType name (DeleteDNSRecord entryType name p).2).2.log =
      (DeleteDNSRecord entryType name p).2.log ++ [⟨.DNSRecords entryType name, true⟩] := by
  have hgone : (p.zone.filter (fun x => !recordMatches entryType name x)).filter
      (recordMatches entryType name) = [] := by
    rw [List.filter_filter, List.filter_eq_nil_iff]
    intro x _
    cases recordMatches entryType name x <;> simp
  have hsame : (p.zone.filter (fun x => !recordMatches entryType name x)).filter
      (fun x => !recordMatches entryType name x) =
      p.zone.filter (fun x => !recordMatches entryType name x) := by
    rw [List.filter_filter]
    apply List.filter_congr
    intro x _
    cases recordMatches entryType name x <;> simp
  rw [deleteDNSRecord_reliable entryType name p hwf hok]
  rw [deleteDNSRecord_reliable entryType name _ (wf_filter p hwf _ _) hok]
  refine ⟨rfl, rfl, hgone, ?_, rfl, ?_, ?_⟩
  · intro hnone
    refine ⟨?_, by simp [hnone]⟩
    rw [List.filter_eq_self]
    intro x hx
    have : ¬ recordMatches entryType name x = true := by
      intro hm
      have : x ∈ p.zone.filter (recordMatches entryType name) := List.mem_filter.mpr ⟨hx, hm⟩
      rw [hnone] at this
      exact absurd this (List.not_mem_nil _)
    simpa using this
  · exact hsame
  · simp [hgone]

/-- C20 on a zone with two address records for the name and one for another name:
after the call only the other record is left. -/
theorem DeleteDNSRecord_idempotent_witness :
    Provider.WF ⟨[⟨0, "A", "a.example.com", "10.0.0.1"⟩, ⟨1, "A", "b.example.com", "10.0.0.2"⟩,
        ⟨2, "A", "a.example.com", "10.0.0.3"⟩], 3, [], []⟩ ∧
    (DeleteDNSRecord "A" "a.example.com"
      ⟨[⟨0, "A", "a.example.com", "10.0.0.1"⟩, ⟨1, "A", "b.example.com", "10.0.0.2"⟩,
        ⟨2, "A", "a.example.com", "10.0.0.3"⟩], 3, [], []⟩).2.zone =
      [⟨1, "A", "b.example.com", "10.0.0.2"⟩] :=
  ⟨by decide,
   (DeleteDNSRecord_idempotent "A" "a.example.com"
      ⟨[⟨0, "A", "a.example.com", "10.0.0.1"⟩, ⟨1, "A", "b.example.com", "10.0.0.2"⟩,
        ⟨2, "A", "a.example.com", "10.0.0.3"⟩], 3, [], []⟩ (by decide) rfl).2.1⟩

/-! ### Validation of registration requests -/

/-- C18: a registration whose `clientID` does not parse as a UUID is answered with
status 500, `Success` false and the message that names the `clientID`, and state
(store, zone, provider log) is as before.  The answer is the same whatever the
address of the request, the address parser and the state are: neither the address
check nor the store takes part in it. -/
theorem registerClient_invalid_identity (env : Env) (req : RegClientRequest) (w : World)
    (hbad : uuid.Parse req.ClientID = none) :
    registerClient env (.ok req) w =
      some (.returned ⟨500, some (.regClientResponse
        ⟨false, "Client ID was not in the expected format: " ++ req.ClientID, ""⟩)⟩, w) ∧
    ∀ (env1 : Env) (ip1 : String) (w1 : World),
      registerClient env1 (.ok ⟨req.ClientID, ip1⟩) w1 =
        some (.returned ⟨500, some (.regClientResponse
          ⟨false, "Client ID was not in the expected format: " ++ req.ClientID, ""⟩)⟩, w1) := by
  constructor
  · simp only [registerClient, hbad, writeError, RegClientResponse.Marshall]
  · intro env1 ip1 w1
    simp only [registerClient, hbad, writeError, RegClientResponse.Marshall]

/-- C18 on a `clientID` that is no UUID, sent with a private address. -/
theorem registerClient_invalid_identity_witness :
    uuid.Parse "eca2450a-482d-4b4b-baa5" = none ∧
    registerClient sampleEnv (.ok ⟨"eca2450a-482d-4b4b-baa5", "10.0.0.5"⟩)
        (sampleWorld [] ["focused_turing"]) =
      some (.returned ⟨500, some (.regClientResponse
        ⟨false, "Client ID was not in the expected format: " ++ "eca2450a-482d-4b4b-baa5", ""⟩)⟩,
        sampleWorld [] ["focused_turing"]) :=
  ⟨by decide,
    (registerClient_invalid_identity sampleEnv ⟨"eca2450a-482d-4b4b-baa5", "10.0.0.5"⟩
      (sampleWorld [] ["focused_turing"]) (by decide)).1⟩

/-! ### Private addresses -/

/-- The shapes of a `net.IP`: four bytes, sixteen bytes with the IPv4 prefix, or a
value that is no IPv4 address. -/
theorem ip_cases (ip : List Nat) :
    (∃ a b c d, ip = [a, b, c, d]) ∨
    (∃ a b c d, ip = [0, 0, 0, 0, 0, 0, 0, 0, 0, 0, 255, 255, a, b, c, d]) ∨
    (To4 ip = [] ∧ ip.length ≠ 4 ∧ ipv4Of ip = none) := by
  rcases ip with _ | ⟨x0, _ | ⟨x1, _ | ⟨x2, _ | ⟨x3, _ | ⟨x4, _ | ⟨x5, _ | ⟨x6, _ | ⟨x7, _ | ⟨x8, _ | ⟨x9, _ | ⟨x10, _ | ⟨x11, _ | ⟨x12, _ | ⟨x13, _ | ⟨x14, _ | ⟨x15, _ | ⟨x16, t⟩⟩⟩⟩⟩⟩⟩⟩⟩⟩⟩⟩⟩⟩⟩⟩⟩
  all_goals first
    | (left; exact ⟨_, _, _, _, rfl⟩)
    | (right; right; refine ⟨?_, ?_, ?_⟩ <;> simp [To4, ipv4Of]; done)
    | skip
  by_cases h : [x0, x1, x2, x3, x4, x5, x6, x7, x8, x9, x10, x11] =
      [0, 0, 0, 0, 0, 0, 0, 0, 0, 0, 255, 255]
  · right; left
    simp only [List.cons.injEq, and_true] at h
    obtain ⟨h0, h1, h2, h3, h4, h5, h6, h7, h8, h9, h10, h11⟩ := h
    subst h0 h1 h2 h3 h4 h5 h6 h7 h8 h9 h10 h11
    exact ⟨_, _, _, _, rfl⟩
  · right; right
    refine ⟨?_, by simp, by simp [ipv4Of, h]⟩
    simp only [List.cons.injEq, and_true] at h
    simp only [To4, List.length_cons, List.length_nil]
    simp
    intro h0 h1 h2 h3 h4 h5 h6 h7 h8 h9 h10 h11
    exact absurd ⟨h0, h1, h2, h3, h4, h5, h6, h7, h8, h9, h10, h11⟩ h

set_option maxRecDepth 100000 in
/-- Masking a byte with 255 keeps it. -/
theorem land_255 : ∀ a < 256, a &&& 255 = a := by decide

set_option maxRecDepth 100000 in
/-- The high four bits of a byte are those of 16 exactly for the bytes 16 to 31. -/
theorem land_240 : ∀ b < 256, (b &&& 240 = 16 ↔ 16 ≤ b ∧ b ≤ 31) := by decide

theorem To4_four (a b c d : Nat) : To4 [a, b, c, d] = [a, b, c, d] := by
  simp [To4]

theorem To4_mapped (a b c d : Nat) :
    To4 [0, 0, 0, 0, 0, 0, 0, 0, 0, 0, 255, 255, a, b, c, d] = [a, b, c, d] := by
  simp [To4]

/-- `Contains` on a 4-byte address compares the masked bytes one by one. -/
theorem contains_four (n0 n1 n2 n3 m0 m1 m2 m3 a b c d : Nat) :
    IPNet.Contains ⟨[n0, n1, n2, n3], [m0, m1, m2, m3]⟩ [a, b, c, d] =
      (n0 &&& m0 == a &&& m0 && (n1 &&& m1 == b &&& m1 &&
        (n2 &&& m2 == c &&& m2 && n3 &&& m3 == d &&& m3))) := by
  simp [IPNet.Contains, To4_four]

/-- `Contains` sees a 16-byte IPv4 address as its 4-byte form. -/
theorem contains_mapped (n : IPNet) (a b c d : Nat) :
    n.Contains [0, 0, 0, 0, 0, 0, 0, 0, 0, 0, 255, 255, a, b, c, d] = n.Contains [a, b, c, d] := by
  have hne : ([a, b, c, d] : List Nat) ≠ [] := by simp
  simp only [IPNet.Contains, To4_mapped, To4_four, hne, if_true, ne_eq, not_false_eq_true]

/-- `isPrivateIP` on a 4-byte address. -/
theorem isPrivateIP_four (a b c d : Nat) (ha : a < 256) (hb : b < 256) :
    isPrivateIP [a, b, c, d] = true ↔
      (a = 10 ∨ (a = 172 ∧ 16 ≤ b ∧ b ≤ 31) ∨ (a = 192 ∧ b = 168)) := by
  have h240 := land_240 b hb
  have h10 : (10 : Nat) &&& 255 = 10 := by decide
  have h172 : (172 : Nat) &&& 255 = 172 := by decide
  have h192 : (192 : Nat) &&& 255 = 192 := by decide
  have h16 : (16 : Nat) &&& 240 = 16 := by decide
  have h168 : (168 : Nat) &&& 255 = 168 := by decide
  simp only [isPrivateIP, privateIPBlocks, contains_four, List.any_cons, List.any_nil,
    Bool.or_false, Bool.or_eq_true, Bool.and_eq_true, beq_iff_eq, Nat.and_zero,
    land_255 a ha, land_255 b hb, h10, h172, h192, h16, h168, and_true, true_and]
  constructor
  · rintro (h | ⟨h1, h2⟩ | ⟨h1, h2⟩)
    · exact Or.inl h.symm
    · exact Or.inr (Or.inl ⟨h1.symm, h240.mp h2.symm⟩)
    · exact Or.inr (Or.inr ⟨h1.symm, h2.symm⟩)
  · rintro (h | ⟨h1, h2⟩ | ⟨h1, h2⟩)
    · exact Or.inl h.symm
    · exact Or.inr (Or.inl ⟨h1.symm, (h240.mpr h2).symm⟩)
    · exact Or.inr (Or.inr ⟨h1.symm, h2.symm⟩)

/-- The specification's predicate on the address `a.b.c.d`. -/
theorem inBlocks_four (a b c d : Nat) (hb : b < 256) (hc : c < 256) (hd : d < 256) :
    (inBlock (addr 10 0 0 0) 8 (addr a b c d) || inBlock (addr 172 16 0 0) 12 (addr a b c d) ||
      inBlock (addr 192 168 0 0) 16 (addr a b c d)) = true ↔
      (a = 10 ∨ (a = 172 ∧ 16 ≤ b ∧ b ≤ 31) ∨ (a = 192 ∧ b = 168)) := by
  simp only [inBlock, addr, Bool.or_eq_true, decide_eq_true_eq]
  norm_num
  omega

/-- `isPrivateIP` agrees with the specification's predicate on every list of bytes. -/
theorem isPrivateIP_eq_spec (ip : List Nat) (hbytes : ∀ b ∈ ip, b < 256) :
    isPrivateIP ip = true ↔ inPrivateAddressSpace ip = true := by
  rcases ip_cases ip with ⟨a, b, c, d, h⟩ | ⟨a, b, c, d, h⟩ | ⟨h1, h2, h3⟩
  · subst h
    have ha := hbytes a (by simp)
    have hb := hbytes b (by simp)
    have hc := hbytes c (by simp)
    have hd := hbytes d (by simp)
    rw [isPrivateIP_four a b c d ha hb]
    simp only [inPrivateAddressSpace, ipv4Of]
    exact (inBlocks_four a b c d hb hc hd).symm
  · subst h
    have ha := hbytes a (by simp)
    have hb := hbytes b (by simp)
    have hc := hbytes c (by simp)
    have hd := hbytes d (by simp)
    have hcont : isPrivateIP [0, 0, 0, 0, 0, 0, 0, 0, 0, 0, 255, 255, a, b, c, d] =
        isPrivateIP [a, b, c, d] := by
      simp only [isPrivateIP, contains_mapped]
    rw [hcont, isPrivateIP_four a b c d ha hb]
    simp only [inPrivateAddressSpace, ipv4Of, if_true]
    exact (inBlocks_four a b c d hb hc hd).symm
  · have hfalse : isPrivateIP ip = false := by
      simp [isPrivateIP, privateIPBlocks, IPNet.Contains, h1, h2]
    simp [hfalse, inPrivateAddressSpace, h3]

/-- The message of the already-registered failure is not a not-private message. -/
theorem already_registered_ne_not_private (ip : String) :
    "The client with provided UUID is already registered" ≠
      "The IP address passed in is not private: " ++ ip := by
  intro h
  have h1 := congrArg (fun s : String => s.data.get? 4) h
  have e : ("The IP address passed in is not private: " ++ ip).data =
      'T' :: 'h' :: 'e' :: ' ' :: 'I' :: ("P address passed in is not private: ".data ++ ip.data) := by
    rw [String.data_append]; rfl
  simp only [e] at h1
  have h2 : some 'c' = some 'I' := h1
  exact absurd h2 (by decide)

/-- C11: for a request with a well-formed identity, `registerClient` answers with the
not-private failure (status 500, `Success` false, the message naming the address,
state unchanged) exactly when the address does not parse to an IP address inside
`10.0.0.0/8`, `172.16.0.0/12` or `192.168.0.0/16`; an address string that does not
parse (nil) is rejected in this way.  `isPrivateIP` is true exactly on the addresses
inside the three blocks. -/
theorem registerClient_private_address (env : Env) (req : RegClientRequest) (w : World)
    (u : UUID) (hid : uuid.Parse req.ClientID = some u)
    (hbytes : ∀ b ∈ env.ParseIP req.IP, b < 256) :
    ((∃ w1, registerClient env (.ok req) w =
        some (.returned ⟨500, some (.regClientResponse
          ⟨false, "The IP address passed in is not private: " ++ req.IP, ""⟩)⟩, w1)) ↔
      inPrivateAddressSpace (env.ParseIP req.IP) = false) ∧
    (∀ w1, registerClient env (.ok req) w =
        some (.returned ⟨500, some (.regClientResponse
          ⟨false, "The IP address passed in is not private: " ++ req.IP, ""⟩)⟩, w1) →
      w1 = w) ∧
    (env.ParseIP req.IP = [] →
      registerClient env (.ok req) w =
        some (.returned ⟨500, some (.regClientResponse
          ⟨false, "The IP address passed in is not private: " ++ req.IP, ""⟩)⟩, w)) ∧
    (∀ ip : List Nat, (∀ b ∈ ip, b < 256) →
      (isPrivateIP ip = true ↔ inPrivateAddressSpace ip = true)) := by
  have hrej : isPrivateIP (env.ParseIP req.IP) = false →
      registerClient env (.ok req) w =
        some (.returned ⟨500, some (.regClientResponse
          ⟨false, "The IP address passed in is not private: " ++ req.IP, ""⟩)⟩, w) := by
    intro hip
    simp only [registerClient, hid, hip, Bool.not_false, if_true, writeError,
      RegClientResponse.Marshall]
  have hacc : isPrivateIP (env.ParseIP req.IP) = true →
      ∀ w1, registerClient env (.ok req) w ≠
        some (.returned ⟨500, some (.regClientResponse
          ⟨false, "The IP address passed in is not private: " ++ req.IP, ""⟩)⟩, w1) := by
    intro hip w1 hrun
    simp only [registerClient, hid, hip, Bool.not_true, Bool.false_eq_true, if_false] at hrun
    by_cases hdup : countUUID w.database u.String > 0
    · simp only [hdup, if_true, writeError, RegClientResponse.Marshall, Option.some.injEq,
        Prod.mk.injEq, Outcome.returned.injEq, Response.mk.injEq,
        JSONText.regClientResponse.injEq, RegClientResponse.mk.injEq, true_and, and_true] at hrun
      exact already_registered_ne_not_private req.IP hrun.1
    · simp only [hdup, if_false] at hrun
      cases hu : uniqueHostname w.database w.names with
      | none => simp [hu] at hrun
      | some r =>
        obtain ⟨h, rest⟩ := r
        simp [hu, insertClient, hdup] at hrun
  have hspec := isPrivateIP_eq_spec (env.ParseIP req.IP) hbytes
  refine ⟨⟨?_, ?_⟩, ?_, ?_, fun ip hip => isPrivateIP_eq_spec ip hip⟩
  · rintro ⟨w1, hrun⟩
    cases hp : isPrivateIP (env.ParseIP req.IP) with
    | true => exact absurd hrun (hacc hp w1)
    | false =>
      cases hs : inPrivateAddressSpace (env.ParseIP req.IP) with
      | false => rfl
      | true => rw [hspec.mpr hs] at hp; exact absurd hp (by decide)
  · intro hs
    refine ⟨w, hrej ?_⟩
    cases hp : isPrivateIP (env.ParseIP req.IP) with
    | false => rfl
    | true => rw [hspec.mp hp] at hs; exact absurd hs (by decide)
  · intro w1 hrun
    cases hp : isPrivateIP (env.ParseIP req.IP) with
    | true => exact absurd hrun (hacc hp w1)
    | false =>
      rw [hrej hp] at hrun
      simp only [Option.some.injEq, Prod.mk.injEq, true_and] at hrun
      exact hrun.symm
  · intro hnil
    exact hrej (by rw [hnil]; decide)

/-- C11 on the sample server: the address `8.8.8.8` is outside the three blocks and
the request is rejected with the not-private failure. -/
theorem registerClient_private_address_witness :
    uuid.Parse "11111111-1111-1111-1111-111111111111" =
      some ⟨[17, 17, 17, 17, 17, 17, 17, 17, 17, 17, 17, 17, 17, 17, 17, 17]⟩ ∧
    (∀ b ∈ sampleEnv.ParseIP "8.8.8.8", b < 256) ∧
    inPrivateAddressSpace (sampleEnv.ParseIP "8.8.8.8") = false ∧
    ∃ w1, registerClient sampleEnv (.ok ⟨"11111111-1111-1111-1111-111111111111", "8.8.8.8"⟩)
        (sampleWorld [] ["focused_turing"]) =
      some (.returned ⟨500, some (.regClientResponse
        ⟨false, "The IP address passed in is not private: " ++ "8.8.8.8", ""⟩)⟩, w1) :=
  ⟨by decide, by decide, by decide,
    ((registerClient_private_address sampleEnv
      ⟨"11111111-1111-1111-1111-111111111111", "8.8.8.8"⟩ (sampleWorld [] ["focused_turing"])
      ⟨[17, 17, 17, 17, 17, 17, 17, 17, 17, 17, 17, 17, 17, 17, 17, 17]⟩
      (by decide) (by decide)).1).mpr (by decide)⟩

/-! ### Publication of the address record -/

/-- C12 fails when a provider call fails during publication.  With the lookup
failing, and likewise with the create failing, `CreateOrUpdateDNSRecord` returns an
error, the zone holds no record, and `registerClient` still answers 200 with
`Success` true and the hostname. -/
theorem registerClient_success_without_record :
    registerClient sampleEnv (.ok ⟨"11111111-1111-1111-1111-111111111111", "10.0.0.5"⟩)
        ⟨[], ⟨[], 0, [0], []⟩, [], ["focused_turing"], []⟩ =
      some (.returned ⟨200, some (.regClientResponse
          ⟨true, "done", "focused-turing.example.com"⟩)⟩,
        ⟨[⟨"11111111-1111-1111-1111-111111111111", "focused-turing", "10.0.0.5"⟩],
          ⟨[], 0, [0], [⟨.DNSRecords "A" "focused-turing.example.com", false⟩]⟩, [], [],
          [.CreateOrUpdateDNSRecord "A" "focused-turing.example.com" "10.0.0.5"
            (some "Searching for existing record failed")]⟩) ∧
    registerClient sampleEnv (.ok ⟨"11111111-1111-1111-1111-111111111111", "10.0.0.5"⟩)
        ⟨[], ⟨[], 0, [1], []⟩, [], ["focused_turing"], []⟩ =
      some (.returned ⟨200, some (.regClientResponse
          ⟨true, "done", "focused-turing.example.com"⟩)⟩,
        ⟨[⟨"11111111-1111-1111-1111-111111111111", "focused-turing", "10.0.0.5"⟩],
          ⟨[], 0, [1], [⟨.DNSRecords "A" "focused-turing.example.com", true⟩,
            ⟨.CreateDNSRecord "A" "focused-turing.example.com" "10.0.0.5", false⟩]⟩, [], [],
          [.CreateOrUpdateDNSRecord "A" "focused-turing.example.com" "10.0.0.5"
            (some "Failed to add the DNS record")]⟩) :=
  ⟨by decide, by decide⟩

/-! ### The store -/

/-- The hostname the loop returns is the hostname of no row. -/
theorem uniqueHostname_fresh (database : List Client) :
    ∀ (names : List String) (h : String) (rest : List String),
      uniqueHostname database names = some (h, rest) → countHostname database h = 0 := by
  intro names
  induction names with
  | nil => intro h rest hu; simp [uniqueHostname] at hu
  | cons a t ih =>
    intro h rest hu
    by_cases ha : countHostname database (generateHostname a) > 0
    · simp only [uniqueHostname, ha, if_true] at hu
      exact ih h rest hu
    · simp only [uniqueHostname, ha, if_false, Option.some.injEq, Prod.mk.injEq] at hu
      rw [← hu.1]
      omega

/-- A registration leaves the table as it is or appends one row whose identity and
hostname are new. -/
theorem registerClient_database (env : Env) (body : Except String RegClientRequest) (w : World)
    (r : Outcome Response × World) (hrun : registerClient env body w = some r) :
    r.2.database = w.database ∨
    ∃ c, r.2.database = w.database ++ [c] ∧ countUUID w.database c.uuid = 0 ∧
      countHostname w.database c.hostname = 0 := by
  cases body with
  | error err =>
    simp only [registerClient, Option.some.injEq] at hrun
    rw [← hrun]; exact Or.inl rfl
  | ok req =>
    cases hid : uuid.Parse req.ClientID with
    | none =>
      simp only [registerClient, hid, Option.some.injEq] at hrun
      rw [← hrun]; exact Or.inl rfl
    | some u =>
      by_cases hip : isPrivateIP (env.ParseIP req.IP) = true
      · by_cases hdup : countUUID w.database u.String > 0
        · simp only [registerClient, hid, hip, Bool.not_true, Bool.false_eq_true, if_false, hdup,
            if_true, Option.some.injEq] at hrun
          rw [← hrun]; exact Or.inl rfl
        · cases hu : uniqueHostname w.database w.names with
          | none =>
            simp [registerClient, hid, hip, hdup, hu] at hrun
          | some x =>
            obtain ⟨h, rest⟩ := x
            simp only [registerClient, hid, hip, Bool.not_true, Bool.false_eq_true, if_false,
              hdup, hu, insertClient, Option.some.injEq] at hrun
            rw [← hrun]
            exact Or.inr ⟨⟨u.String, h, req.IP⟩, rfl, Nat.eq_zero_of_not_pos hdup,
              uniqueHostname_fresh w.database w.names h rest hu⟩
      · have hip2 : isPrivateIP (env.ParseIP req.IP) = false := by simpa using hip
        simp only [registerClient, hid, hip2, Bool.not_false, if_true, Option.some.injEq] at hrun
        rw [← hrun]; exact Or.inl rfl

/-- The certificate handler does not touch the table. -/
theorem generateCertificate_database (env : Env) (body : Except String CertificateRequest)
    (w : World) : (generateCertificate env body w).2.database = w.database := by
  unfold generateCertificate
  repeat' split
  all_goals first
    | rfl
    | (dsimp only; split <;> rfl)

/-- Creating the certificate of the server does not touch the table. -/
theorem createCertificate_database (env : Env) (fqdn : String) (w : World) :
    (createCertificate env fqdn w).2.database = w.database := by
  unfold createCertificate GeneratePrivateKey GenerateCSR
  by_cases h1 : env.canCreate env.Cfg.WebServer.KeyFilename = true
  · by_cases h2 : env.canCreate env.Cfg.WebServer.CSRFilename = true
    · simp only [h1, h2, Bool.not_true, Bool.false_eq_true, if_false]
      repeat' split
      all_goals rfl
    · simp [h1, h2]
  · simp [h1]

/-- The end of start-up does not touch the table. -/
theorem finishStartup_database (env : Env) (fqdn ip : String) (certValid : Bool) (w : World) :
    (finishStartup env fqdn ip certValid w).2.database = w.database := by
  unfold finishStartup
  cases certValid with
  | true => simp
  | false =>
    simp only [Bool.not_false, if_true]
    have h := createCertificate_database env fqdn w
    generalize createCertificate env fqdn w = r at h ⊢
    obtain ⟨o, w1⟩ := r
    cases o with
    | returned u => simpa using h
    | fatal msg => simpa using h
    | panic msg => simpa using h

/-- A start-up leaves the table as it is or appends one row whose identity and
hostname are new. -/
theorem main_database (env : Env) (ip : String) (w : World) (r : Outcome Unit × World)
    (hrun : main env ip w = some r) :
    r.2.database = w.database ∨
    ∃ c, r.2.database = w.database ++ [c] ∧ countUUID w.database c.uuid = 0 ∧
      countHostname w.database c.hostname = 0 := by
  by_cases hhost : env.Cfg.Hostname = ""
  · cases hu : uniqueHostname w.database w.names with
    | none => simp [main, hhost, hu] at hrun
    | some x =>
      obtain ⟨h, rest⟩ := x
      by_cases hdup : countUUID w.database env.newUUID.String > 0
      · simp only [main, hhost, if_true, hu, insertClient, hdup, Option.some.injEq] at hrun
        rw [← hrun]; exact Or.inl rfl
      · simp only [main, hhost, if_true, hu, insertClient, hdup, if_false,
          Option.some.injEq] at hrun
        rw [← hrun, finishStartup_database]
        exact Or.inr ⟨⟨env.newUUID.String, h, ip⟩, rfl, Nat.eq_zero_of_not_pos hdup,
          uniqueHostname_fresh w.database w.names h rest hu⟩
  · simp only [main, hhost, if_false] at hrun
    cases hv : existingCertificateValid env (env.Cfg.Hostname ++ "." ++ env.Cfg.Domain)
        w.files with
    | returned certValid =>
      simp only [hv, Option.some.injEq] at hrun
      rw [← hrun, finishStartup_database]; exact Or.inl rfl
    | fatal msg =>
      simp only [hv, Option.some.injEq] at hrun
      rw [← hrun]; exact Or.inl rfl
    | panic msg =>
      simp only [hv, Option.some.injEq] at hrun
      rw [← hrun]; exact Or.inl rfl

/-- Appending a row with a new key keeps the keys distinct. -/
theorem nodup_map_append_row {α : Type} (f : Client → α) (database : List Client) (c : Client)
    (hnd : (database.map f).Nodup) (hnew : ∀ x ∈ database, f x ≠ f c) :
    ((database ++ [c]).map f).Nodup := by
  rw [List.map_append, List.nodup_append]
  refine ⟨hnd, by simp, ?_⟩
  intro a ha hb
  simp only [List.map_cons, List.map_nil, List.mem_singleton] at hb
  simp only [List.mem_map] at ha
  obtain ⟨x, hx, hxa⟩ := ha
  exact hnew x hx (hxa.trans hb)

/-- A step that leaves the table or appends a row with new identity and hostname
keeps identities and hostnames distinct. -/
theorem nodup_step (before after : List Client)
    (hinv : (before.map Client.uuid).Nodup ∧ (before.map Client.hostname).Nodup)
    (hstep : after = before ∨
      ∃ c, after = before ++ [c] ∧ countUUID before c.uuid = 0 ∧
        countHostname before c.hostname = 0) :
    (after.map Client.uuid).Nodup ∧ (after.map Client.hostname).Nodup := by
  rcases hstep with h | ⟨c, h, hu, hh⟩
  · rw [h]; exact hinv
  · rw [h]
    exact ⟨nodup_map_append_row _ _ _ hinv.1 ((countUUID_eq_zero_iff _ _).mp hu),
      nodup_map_append_row _ _ _ hinv.2 ((countHostname_eq_zero_iff _ _).mp hh)⟩

/-- A step that leaves the table or appends a row keeps the rows it found. -/
theorem prefix_step (before after : List Client)
    (hstep : after = before ∨
      ∃ c, after = before ++ [c] ∧ countUUID before c.uuid = 0 ∧
        countHostname before c.hostname = 0) : before <+: after := by
  rcases hstep with h | ⟨c, h, _, _⟩
  · rw [h]
  · rw [h]; exact List.prefix_append _ _

/-- Identities and hostnames are distinct in every reachable table. -/
theorem reachable_nodup (database : List Client) (h : Reachable database) :
    (database.map Client.uuid).Nodup ∧ (database.map Client.hostname).Nodup := by
  induction h with
  | empty => exact ⟨List.nodup_nil, List.nodup_nil⟩
  | register env body w r _ run ih =>
    exact nodup_step _ _ ih (registerClient_database env body w r run)
  | certificate env body w _ ih =>
    rw [generateCertificate_database]; exact ih
  | startup env ip w r _ run ih =>
    exact nodup_step _ _ ih (main_database env ip w r run)

/-- C13: in every table reachable from the empty one by registrations, certificate
requests and start-ups run one after the other, no two rows have the same identity
and no two rows have the same hostname.  Every one of these operations leaves the
rows it finds in place and unchanged: the table before is a prefix of the table
after. -/
theorem store_invariant :
    (∀ database, Reachable database →
      (database.map Client.uuid).Nodup ∧ (database.map Client.hostname).Nodup) ∧
    (∀ (env : Env) (body : Except String RegClientRequest) (w : World)
      (r : Outcome Response × World),
      registerClient env body w = some r → w.database <+: r.2.database) ∧
    (∀ (env : Env) (body : Except String CertificateRequest) (w : World),
      (generateCertificate env body w).2.database = w.database) ∧
    (∀ (env : Env) (ip : String) (w : World) (r : Outcome Unit × World),
      main env ip w = some r → w.database <+: r.2.database) := by
  refine ⟨reachable_nodup, ?_, generateCertificate_database, ?_⟩
  · intro env body w r run
    exact prefix_step _ _ (registerClient_database env body w r run)
  · intro env ip w r run
    exact prefix_step _ _ (main_database env ip w r run)

/-- C13 on the table left by a start-up without a configured hostname (ended by the
key file that cannot be created, after the row was inserted) followed by a
registration. -/
theorem store_invariant_witness :
    ([⟨"eca2450a-482d-4b4b-baa5-9ff0daec19e9", "focused-turing", "10.0.0.1"⟩,
        ⟨"11111111-1111-1111-1111-111111111111", "happy-curie", "10.0.0.5"⟩].map
      Client.uuid).Nodup ∧
    ([⟨"eca2450a-482d-4b4b-baa5-9ff0daec19e9", "focused-turing", "10.0.0.1"⟩,
        ⟨"11111111-1111-1111-1111-111111111111", "happy-curie", "10.0.0.5"⟩].map
      Client.hostname).Nodup :=
  store_invariant.1 _
    (Reachable.register sampleEnv
      (.ok ⟨"11111111-1111-1111-1111-111111111111", "10.0.0.5"⟩)
      ⟨[⟨"eca2450a-482d-4b4b-baa5-9ff0daec19e9", "focused-turing", "10.0.0.1"⟩],
        ⟨[], 0, [], []⟩, [], ["focused_turing", "happy_curie"], []⟩
      (.returned ⟨200, some (.regClientResponse ⟨true, "done", "happy-curie.example.com"⟩)⟩,
        ⟨[⟨"eca2450a-482d-4b4b-baa5-9ff0daec19e9", "focused-turing", "10.0.0.1"⟩,
            ⟨"11111111-1111-1111-1111-111111111111", "happy-curie", "10.0.0.5"⟩],
          ⟨[⟨0, "A", "happy-curie.example.com", "10.0.0.5"⟩], 1, [],
            [⟨.DNSRecords "A" "happy-curie.example.com", true⟩,
              ⟨.CreateDNSRecord "A" "happy-curie.example.com" "10.0.0.5", true⟩]⟩,
          [], [], [.CreateOrUpdateDNSRecord "A" "happy-curie.example.com" "10.0.0.5" none]⟩)
      (Reachable.startup
        { sampleEnv with
          Cfg := ⟨"example.com", "", ⟨"cert.pem", "private.key", "request.csr"⟩⟩
          canCreate := fun _ => false }
        "10.0.0.1" (sampleWorld [] ["focused_turing"])
        (.fatal "Failed to create private key file, error: ",
          ⟨[⟨"eca2450a-482d-4b4b-baa5-9ff0daec19e9", "focused-turing", "10.0.0.1"⟩],
            ⟨[], 0, [], []⟩, [], [], [.GeneratePrivateKey "private.key"]⟩)
        Reachable.empty (by decide))
      (by decide))

/-! ### Certificate requests -/

/-- C14 fails on a request whose `clientID` is a well-formed UUID that is not in the
store: the handler returns without writing a response, so the client receives status
200 and an empty body, not a failure response.  Issuance is not invoked: the state,
trace included, is as before. -/
theorem generateCertificate_unknown_client_silent :
    uuid.Parse "11111111-1111-1111-1111-111111111111" =
      some ⟨[17, 17, 17, 17, 17, 17, 17, 17, 17, 17, 17, 17, 17, 17, 17, 17]⟩ ∧
    countUUID [⟨"eca2450a-482d-4b4b-baa5-9ff0daec19e9", "focused-turing", "10.0.0.5"⟩]
      "11111111-1111-1111-1111-111111111111" = 0 ∧
    generateCertificate sampleEnv
        (.ok ⟨.certificateRequest "focused-turing.example.com" 3,
          "11111111-1111-1111-1111-111111111111"⟩)
        ⟨[⟨"eca2450a-482d-4b4b-baa5-9ff0daec19e9", "focused-turing", "10.0.0.5"⟩],
          ⟨[], 0, [], []⟩, [], [], []⟩ =
      (.returned ⟨200, none⟩,
        ⟨[⟨"eca2450a-482d-4b4b-baa5-9ff0daec19e9", "focused-turing", "10.0.0.5"⟩],
          ⟨[], 0, [], []⟩, [], [], []⟩) :=
  ⟨by decide, by decide, by decide⟩

/-- C15 fails on a request whose `clientID` is no UUID, and on a body that does not
decode: the status is 500 and issuance is not invoked, but the body is the encoding
`{}` of the embedded `JSONMessage`, which carries neither `Success` nor the message
the handler built. -/
theorem generateCertificate_invalid_identity_body :
    uuid.Parse "123" = none ∧
    generateCertificate sampleEnv (.ok ⟨.certificateRequest "focused-turing.example.com" 3, "123"⟩)
        (sampleWorld [] []) =
      (.returned ⟨500, some .jsonMessage⟩, sampleWorld [] []) ∧
    generateCertificate sampleEnv (.error "unexpected end of JSON input") (sampleWorld [] []) =
      (.returned ⟨500, some .jsonMessage⟩, sampleWorld [] []) ∧
    JSONText.jsonMessage ≠ .certificateResponse
      ⟨false, [], "Client ID was not in the expected format: 123"⟩ :=
  ⟨by decide, by decide, by decide, by decide⟩

/-- What a run of `GenerateCertificate` that returns has returned, when the authority
never answers `CreateCert` with an empty chain and no error: no error, and the
non-empty chain the authority answered with. -/
theorem GenerateCertificate_returned (acme : Acme) (csr : DER) (fqdn : String) (p : Provider)
    (certs : List DER) (e : Option String) (hca : ∀ c, acme.CreateCert c ≠ .ok [])
    (h : (GenerateCertificate acme csr fqdn p).outcome = .returned (certs, e)) :
    e = none ∧ acme.CreateCert csr = .ok certs ∧ certs ≠ [] := by
  rcases GenerateCertificate_cases acme csr fqdn p with
    ⟨m, hm, _⟩ | ⟨l, v, u, err, chal, hc⟩
  · rw [hm] at h; cases h
  · rcases hc with ⟨_, hm⟩ | ⟨k, _, hc⟩
    · rw [hm] at h; cases h
    · rcases hc with ⟨_, hm⟩ | ⟨_, hm⟩ | ⟨j, _, _, hm⟩
      · rw [hm] at h; cases h
      · rw [hm] at h; cases h
      · rw [hm] at h
        cases hcc : acme.CreateCert csr with
        | error msg => rw [hcc] at h; cases h
        | ok cs =>
          rw [hcc] at h
          cases cs with
          | nil => exact absurd hcc (hca csr)
          | cons c rest =>
            simp only [List.length_cons, gt_iff_lt, Nat.zero_lt_succ, if_true] at h
            injection h with h
            injection h with h1 h2
            subst h1 h2
            exact ⟨rfl, rfl, by simp⟩

/-- C16: a `Success` true answer of `/get_certificate` carries the non-empty chain the
authority returned.  The authority's client never answers `CreateCert` with an empty
chain and no error.  Then `GenerateCertificate` never returns an error, and whenever
the handler answers with `Success` true, the request was decoded, the authority
answered its signing request with the chain in `Certificates`, and that chain is
not empty. -/
theorem generateCertificate_success_chain (env : Env)
    (hca : ∀ c, env.acme.CreateCert c ≠ .ok []) :
    (∀ (csr : DER) (fqdn : String) (p : Provider) (certs : List DER) (e : String),
      (GenerateCertificate env.acme csr fqdn p).outcome ≠ .returned (certs, some e)) ∧
    (∀ (body : Except String CertificateRequest) (w : World) (status : Nat)
        (r : CertificateResponse),
      (generateCertificate env body w).1 =
          .returned ⟨status, some (.certificateResponse r)⟩ →
      r.Success = true →
      r.Certificates ≠ [] ∧
        ∃ req, body = .ok req ∧ env.acme.CreateCert req.CSR = .ok r.Certificates) := by
  constructor
  · intro csr fqdn p certs e h
    have := (GenerateCertificate_returned env.acme csr fqdn p certs (some e) hca h).1
    cases this
  · intro body w status r h hs
    cases body with
    | error err =>
      simp [generateCertificate, writeError, CertificateResponse.Marshall,
        JSONMessage.Marshall] at h
    | ok req =>
      unfold generateCertificate at h
      simp only at h
      split at h
      · simp [writeError, CertificateResponse.Marshall, JSONMessage.Marshall] at h
      · split at h
        · cases h
        · cases h
        · split at h
          · simp at h
          · split at h
            · cases h
            · cases h
            · rename_i certificates e hout
              injection h with h
              injection h with _ h
              injection h with h
              injection h with h
              subst h
              obtain ⟨_, hcc, hne⟩ := GenerateCertificate_returned _ _ _ _ _ _ hca hout
              exact ⟨hne, req, rfl, hcc⟩

/-- C16 on the sample authority, which answers `CreateCert` with a chain of two: the
handler answers the registered client with `Success` true and that chain. -/
theorem generateCertificate_success_chain_witness :
    (∀ c, sampleEnv.acme.CreateCert c ≠ .ok []) ∧
    (generateCertificate sampleEnv
        (.ok ⟨.certificateRequest "focused-turing.example.com" 3,
          "eca2450a-482d-4b4b-baa5-9ff0daec19e9"⟩)
        ⟨[⟨"eca2450a-482d-4b4b-baa5-9ff0daec19e9", "focused-turing", "10.0.0.5"⟩],
          ⟨[], 0, [], []⟩, [], [], []⟩).1 =
      .returned ⟨200, some (.certificateResponse
        ⟨true, [.certificate ⟨2000, ["foo.example.com"]⟩, .raw [48, 130]], "done"⟩)⟩ ∧
    ([.certificate ⟨2000, ["foo.example.com"]⟩, .raw [48, 130]] : List DER) ≠ [] :=
  ⟨(fun _ h => by cases h), by decide,
    ((generateCertificate_success_chain sampleEnv (fun _ h => by cases h)).2
      (.ok ⟨.certificateRequest "focused-turing.example.com" 3,
        "eca2450a-482d-4b4b-baa5-9ff0daec19e9"⟩)
      ⟨[⟨"eca2450a-482d-4b4b-baa5-9ff0daec19e9", "focused-turing", "10.0.0.5"⟩],
        ⟨[], 0, [], []⟩, [], [], []⟩ 200
      ⟨true, [.certificate ⟨2000, ["foo.example.com"]⟩, .raw [48, 130]], "done"⟩
      (by decide) rfl).1⟩

/-- The guarantee of the authority's client is needed: the handler does not look at
the error `GenerateCertificate` returns, so an authority that answered `CreateCert`
with an empty chain and no error would be answered for with `Success` true and an
empty chain. -/
theorem generateCertificate_unguarded_empty_chain :
    (GenerateCertificate { sampleAcme with CreateCert := fun _ => .ok [] }
        (.certificateRequest "focused-turing.example.com" 3) "focused-turing.example.com"
        ⟨[], 0, [], []⟩).outcome = .returned ([], some "No certificates returned") ∧
    (generateCertificate
        { sampleEnv with acme := { sampleAcme with CreateCert := fun _ => .ok [] } }
        (.ok ⟨.certificateRequest "focused-turing.example.com" 3,
          "eca2450a-482d-4b4b-baa5-9ff0daec19e9"⟩)
        ⟨[⟨"eca2450a-482d-4b4b-baa5-9ff0daec19e9", "focused-turing", "10.0.0.5"⟩],
          ⟨[], 0, [], []⟩, [], [], []⟩).1 =
      .returned ⟨200, some (.certificateResponse ⟨true, [], "done"⟩)⟩ :=
  ⟨by decide, by decide⟩

/-- The canonical form of a UUID is not the empty string. -/
theorem UUID.String_ne_empty (u : UUID) : u.String ≠ "" := by
  intro h
  have h1 := congrArg String.data h
  simp [UUID.String] at h1

/-- In a table with distinct identities the rows with the identity of a row of the
table are that row alone. -/
theorem selectClient_of_nodup :
    ∀ (database : List Client) (c : Client), (database.map Client.uuid).Nodup →
      c ∈ database → selectClient database c.uuid = [c] := by
  intro database
  induction database with
  | nil => intro c _ hc; exact absurd hc (List.not_mem_nil _)
  | cons a t ih =>
    intro c hnd hc
    rw [List.map_cons, List.nodup_cons] at hnd
    rcases List.mem_cons.mp hc with h | h
    · subst h
      have hnone : List.filter (fun x => x.uuid == c.uuid) t = [] := by
        rw [List.filter_eq_nil_iff]
        intro x hx hxc
        exact hnd.1 (List.mem_map.mpr ⟨x, hx, by simpa using hxc⟩)
      simp [selectClient, List.filter_cons, hnone]
    · have hne : ¬ (a.uuid = c.uuid) := by
        intro heq
        exact hnd.1 (heq ▸ List.mem_map_of_mem _ h)
      have := ih c hnd.2 h
      simp only [selectClient] at this ⊢
      simp [List.filter_cons, hne, this]

/-- C17: for an identity registered in a reachable store, the handler of
`/get_certificate` runs issuance for the name `hostname.domain`, with the hostname of
the stored row and the configured domain, whatever the CSR of the request is: two
requests that differ in their CSR alone pass the same name to
`GenerateCertificate`. -/
theorem generateCertificate_fqdn_from_store (env : Env) (w : World) (clientID : String)
    (csr1 csr2 : DER) (u : UUID) (c : Client)
    (hid : uuid.Parse clientID = some u)
    (hreach : Reachable w.database)
    (hrow : c ∈ w.database) (hkey : c.uuid = u.String) :
    (generateCertificate env (.ok ⟨csr1, clientID⟩) w).2.trace =
      w.trace ++ .GenerateCertificate csr1 (c.hostname ++ "." ++ env.Cfg.Domain) ::
        (GenerateCertificate env.acme csr1 (c.hostname ++ "." ++ env.Cfg.Domain)
          w.provider).trace ∧
    (generateCertificate env (.ok ⟨csr2, clientID⟩) w).2.trace =
      w.trace ++ .GenerateCertificate csr2 (c.hostname ++ "." ++ env.Cfg.Domain) ::
        (GenerateCertificate env.acme csr2 (c.hostname ++ "." ++ env.Cfg.Domain)
          w.provider).trace := by
  have hsel : selectClient w.database u.String = [c] := by
    rw [← hkey]
    exact selectClient_of_nodup w.database c (reachable_nodup _ hreach).1 hrow
  have hget : getClient w.database u.String = .returned c := by
    simp [getClient, hsel]
  have hne : c ≠ ⟨"", "", ""⟩ := by
    intro h
    rw [h] at hkey
    exact UUID.String_ne_empty u hkey.symm
  have key : ∀ csr : DER,
      (generateCertificate env (.ok ⟨csr, clientID⟩) w).2.trace =
        w.trace ++ .GenerateCertificate csr (c.hostname ++ "." ++ env.Cfg.Domain) ::
          (GenerateCertificate env.acme csr (c.hostname ++ "." ++ env.Cfg.Domain)
            w.provider).trace := by
    intro csr
    simp only [generateCertificate, hid, hget, hne, if_false]
    split <;> rfl
  exact ⟨key csr1, key csr2⟩

/-- C17 on the sample server: after the registration of
`eca2450a-482d-4b4b-baa5-9ff0daec19e9` as `focused-turing`, a request with a CSR for
another name and a request with bytes that are no CSR both run issuance for
`focused-turing.example.com`. -/
theorem generateCertificate_fqdn_from_store_witness :
    uuid.Parse "eca2450a-482d-4b4b-baa5-9ff0daec19e9" =
      some ⟨[236, 162, 69, 10, 72, 45, 75, 75, 186, 165, 159, 240, 218, 236, 25, 233]⟩ ∧
    (generateCertificate sampleEnv
        (.ok ⟨.certificateRequest "www.example.org" 3, "eca2450a-482d-4b4b-baa5-9ff0daec19e9"⟩)
        ⟨[⟨"eca2450a-482d-4b4b-baa5-9ff0daec19e9", "focused-turing", "10.0.0.5"⟩],
          ⟨[], 0, [], []⟩, [], [], []⟩).2.trace =
      [] ++ .GenerateCertificate (.certificateRequest "www.example.org" 3)
          ("focused-turing" ++ "." ++ "example.com") ::
        (GenerateCertificate sampleAcme (.certificateRequest "www.example.org" 3)
          ("focused-turing" ++ "." ++ "example.com") ⟨[], 0, [], []⟩).trace ∧
    (generateCertificate sampleEnv
        (.ok ⟨.raw [0], "eca2450a-482d-4b4b-baa5-9ff0daec19e9"⟩)
        ⟨[⟨"eca2450a-482d-4b4b-baa5-9ff0daec19e9", "focused-turing", "10.0.0.5"⟩],
          ⟨[], 0, [], []⟩, [], [], []⟩).2.trace =
      [] ++ .GenerateCertificate (.raw [0]) ("focused-turing" ++ "." ++ "example.com") ::
        (GenerateCertificate sampleAcme (.raw [0])
          ("focused-turing" ++ "." ++ "example.com") ⟨[], 0, [], []⟩).trace :=
  ⟨by decide,
    generateCertificate_fqdn_from_store sampleEnv
      ⟨[⟨"eca2450a-482d-4b4b-baa5-9ff0daec19e9", "focused-turing", "10.0.0.5"⟩],
        ⟨[], 0, [], []⟩, [], [], []⟩
      "eca2450a-482d-4b4b-baa5-9ff0daec19e9"
      (.certificateRequest "www.example.org" 3) (.raw [0])
      ⟨[236, 162, 69, 10, 72, 45, 75, 75, 186, 165, 159, 240, 218, 236, 25, 233]⟩
      ⟨"eca2450a-482d-4b4b-baa5-9ff0daec19e9", "focused-turing", "10.0.0.5"⟩
      (by decide)
      (Reachable.register sampleEnv
        (.ok ⟨"eca2450a-482d-4b4b-baa5-9ff0daec19e9", "10.0.0.5"⟩)
        (sampleWorld [] ["focused_turing"])
        (.returned ⟨200, some (.regClientResponse
            ⟨true, "done", "focused-turing.example.com"⟩)⟩,
          ⟨[⟨"eca2450a-482d-4b4b-baa5-9ff0daec19e9", "focused-turing", "10.0.0.5"⟩],
            ⟨[⟨0, "A", "focused-turing.example.com", "10.0.0.5"⟩], 1, [],
              [⟨.DNSRecords "A" "focused-turing.example.com", true⟩,
                ⟨.CreateDNSRecord "A" "focused-turing.example.com" "10.0.0.5", true⟩]⟩,
            [], [],
            [.CreateOrUpdateDNSRecord "A" "focused-turing.example.com" "10.0.0.5" none]⟩)
        Reachable.empty (by decide))
      (by decide) (by decide)⟩

/-! ### Order of the values of `LoadX509KeyPair` -/

/-- C23, counterexample: on a certificate file that holds the CA certificate followed
by the site certificate, with a key file that holds a PKCS#1 key, the first value
returned is the certificate of the second block and the second value is the
certificate of the first block, not the other way round.  `main` reads the second
value as the site certificate, so on this file it checks the CA certificate and
finds no valid certificate. -/
theorem LoadX509KeyPair_returns_site_first :
    LoadX509KeyPair
        [("cert.pem", [⟨"CERTIFICATE", .certificate ⟨3000, []⟩⟩,
            ⟨"CERTIFICATE", .certificate ⟨2000, ["foo.example.com"]⟩⟩]),
          ("private.key", [⟨"PRIVATE KEY", .pkcs1PrivateKey 65537⟩])]
        "cert.pem" "private.key" =
      .returned (some ⟨2000, ["foo.example.com"]⟩, some ⟨3000, []⟩, some 65537, none) ∧
    (Outcome.returned (some ⟨2000, ["foo.example.com"]⟩, some ⟨3000, []⟩, some 65537, none) :
        Outcome KeyPair) ≠
      .returned (some ⟨3000, []⟩, some ⟨2000, ["foo.example.com"]⟩, some 65537, none) ∧
    existingCertificateValid sampleEnv "foo.example.com"
        [("cert.pem", [⟨"CERTIFICATE", .certificate ⟨3000, []⟩⟩,
            ⟨"CERTIFICATE", .certificate ⟨2000, ["foo.example.com"]⟩⟩]),
          ("private.key", [⟨"PRIVATE KEY", .pkcs1PrivateKey 65537⟩])] =
      .returned false :=
  ⟨by decide, by decide, by decide⟩

/-- C23, amended: for every certificate file that starts with two blocks that parse
as certificates and every key file that starts with a block that parses as a PKCS#1
key, `LoadX509KeyPair` returns, in this order, the certificate of the second block,
the certificate of the first block and the key, with a nil error. -/
theorem LoadX509KeyPair_second_block_first (fs : Files) (certFile keyFile : String)
    (first second keyBlock : Block) (more keyMore : List Block)
    (firstCert secondCert : Certificate) (key : Nat)
    (hcf : fs.lookup certFile = some (first :: second :: more))
    (hkf : fs.lookup keyFile = some (keyBlock :: keyMore))
    (hfirst : x509.ParseCertificate first.Bytes = .ok firstCert)
    (hsecond : x509.ParseCertificate second.Bytes = .ok secondCert)
    (hkey : x509.ParsePKCS1PrivateKey keyBlock.Bytes = .ok key) :
    LoadX509KeyPair fs certFile keyFile =
      .returned (some secondCert, some firstCert, some key, none) := by
  simp [LoadX509KeyPair, ReadFile, pem.Decode, hcf, hkf, hfirst, hsecond, hkey]

/-- C23, amended, on a certificate file in the order in which `main` writes the chain
it was issued: the site certificate, then the certificate of the issuer.  The values
returned are the certificate of the issuer, the site certificate and the key. -/
theorem LoadX509KeyPair_second_block_first_witness :
    LoadX509KeyPair
        [("cert.pem", [⟨"CERTIFICATE", .certificate ⟨2000, ["foo.example.com"]⟩⟩,
            ⟨"CERTIFICATE", .certificate ⟨3000, []⟩⟩]),
          ("private.key", [⟨"PRIVATE KEY", .pkcs1PrivateKey 65537⟩])]
        "cert.pem" "private.key" =
      .returned (some ⟨3000, []⟩, some ⟨2000, ["foo.example.com"]⟩, some 65537, none) :=
  LoadX509KeyPair_second_block_first
    [("cert.pem", [⟨"CERTIFICATE", .certificate ⟨2000, ["foo.example.com"]⟩⟩,
        ⟨"CERTIFICATE", .certificate ⟨3000, []⟩⟩]),
      ("private.key", [⟨"PRIVATE KEY", .pkcs1PrivateKey 65537⟩])]
    "cert.pem" "private.key"
    ⟨"CERTIFICATE", .certificate ⟨2000, ["foo.example.com"]⟩⟩
    ⟨"CERTIFICATE", .certificate ⟨3000, []⟩⟩ ⟨"PRIVATE KEY", .pkcs1PrivateKey 65537⟩ [] []
    ⟨2000, ["foo.example.com"]⟩ ⟨3000, []⟩ 65537
    (by decide) (by decide) rfl rfl rfl

/-- On a certificate file in the order in which `main` writes it, the certificate
`main` checks is the site certificate: it is found valid for the name of the server
while it has not expired. -/
theorem existingCertificateValid_site_first :
    existingCertificateValid sampleEnv "foo.example.com"
        [("cert.pem", [⟨"CERTIFICATE", .certificate ⟨2000, ["foo.example.com"]⟩⟩,
            ⟨"CERTIFICATE", .certificate ⟨3000, []⟩⟩]),
          ("private.key", [⟨"PRIVATE KEY", .pkcs1PrivateKey 65537⟩])] =
      .returned true := by
  decide

/-! ### The proof record at the time of `Accept` -/

/-- C22 fails when the publication of the text record fails while a text record of
the same name is in the zone: the update of the record left by an earlier issuance
returns an error, `GenerateCertificate` does not look at the error, the first poll
finds the old record, and `Accept` is called although no record of the zone holds
the proof value. -/
theorem GenerateCertificate_accepts_with_stale_record :
    (GenerateCertificate sampleAcme (.raw []) "foo.example.com"
        ⟨[⟨0, "TXT", "_acme-challenge.foo.example.com", "proof-of-an-earlier-token"⟩], 1, [1],
          []⟩).trace =
      [.Register, .Authorize "foo.example.com",
        .CreateOrUpdateDNSRecord "TXT" "_acme-challenge.foo.example.com" "proof-of-token-b"
          (some "Failed to update the DNS record"),
        .CheckRecord "TXT" "_acme-challenge.foo.example.com" true,
        .Accept ⟨"dns-01", "token-b"⟩,
        .WaitAuthorization "https://ca.example/authz/1" false,
        .WaitAuthorization "https://ca.example/authz/1" true,
        .CreateCert (.raw [])] ∧
    (GenerateCertificate sampleAcme (.raw []) "foo.example.com"
        ⟨[⟨0, "TXT", "_acme-challenge.foo.example.com", "proof-of-an-earlier-token"⟩], 1, [1],
          []⟩).provider.zone =
      [⟨0, "TXT", "_acme-challenge.foo.example.com", "proof-of-an-earlier-token"⟩] ∧
    (∀ r ∈ (GenerateCertificate sampleAcme (.raw []) "foo.example.com"
        ⟨[⟨0, "TXT", "_acme-challenge.foo.example.com", "proof-of-an-earlier-token"⟩], 1, [1],
          []⟩).provider.zone, r.Content ≠ "proof-of-token-b") :=
  ⟨by decide, by decide, by decide⟩

/-- A poll leaves the zone as it is. -/
theorem CheckRecord_zone (recordType name : String) (p : Provider) :
    (CheckRecord recordType name p).2.zone = p.zone := by
  by_cases hfail : p.nextFails = true
  · simp [CheckRecord, api.DNSRecords, hfail, Provider.record]
  · have hf : p.nextFails = false := by simpa using hfail
    simp [CheckRecord, api.DNSRecords, hf, Provider.record]

/-- The polls of `pollRecord` leave the zone as it is. -/
theorem pollRecord_zone (txtLabel : String) :
    ∀ (n : Nat) (p : Provider), (pollRecord txtLabel n p).2.1.zone = p.zone := by
  intro n
  induction n with
  | zero => intro p; rfl
  | succ n ih =>
    intro p
    have hz := CheckRecord_zone "TXT" txtLabel p
    rcases hc : CheckRecord "TXT" txtLabel p with ⟨res, p1⟩
    rw [hc] at hz
    cases res with
    | true => simpa [pollRecord, hc] using hz
    | false =>
      have := ih p1
      simp only [pollRecord, hc]
      rw [this]
      exact hz

/-- With unique remote identifiers and every provider call succeeding, the zone after
`CreateOrUpdateDNSRecord(t, n, c)` holds a record of type `t` and name `n` with
content `c`. -/
theorem createOrUpdate_holds (t n c : String) (p : Provider) (hwf : p.WF)
    (hf : p.failing = []) (ht : t ≠ "") (hn : n ≠ "") :
    ∃ r ∈ (CreateOrUpdateDNSRecord t n c p).2.zone, r.Type_ = t ∧ r.Name = n ∧ r.Content = c := by
  by_cases h : p.zone.filter (recordMatches t n) = []
  · rw [createOrUpdate_create t n c p hf h]
    exact ⟨⟨p.nextID, t, n, c⟩, by simp, rfl, rfl, rfl⟩
  · rw [createOrUpdate_update t n c p hwf hf h]
    obtain ⟨x, hx⟩ := List.exists_mem_of_ne_nil _ h
    have hxz := List.mem_of_mem_filter hx
    have hm : recordMatches t n x = true := (List.mem_filter.mp hx).2
    refine ⟨x.withContent c, ?_, ?_, ?_, rfl⟩
    · simp only [List.mem_map]
      exact ⟨x, hxz, by simp [hm]⟩
    · simp only [recordMatches, Bool.and_eq_true, Bool.or_eq_true, beq_iff_eq] at hm
      rcases hm.1 with h1 | h1
      · exact absurd h1 ht
      · exact h1
    · simp only [recordMatches, Bool.and_eq_true, Bool.or_eq_true, beq_iff_eq] at hm
      rcases hm.2 with h1 | h1
      · exact absurd h1 hn
      · exact h1

/-- What holds of the proof record when the publication succeeds: with unique remote
identifiers and every provider call succeeding, a run of `GenerateCertificate` that
finds a `dns-01` challenge (the only runs in which `Accept` is called) ends with a
zone that holds a text record with the derived label as name and the derived proof
value as content. -/
theorem GenerateCertificate_published (acme : Acme) (csr : DER) (fqdn : String) (p : Provider)
    (authz : Authorization) (chal : Challenge) (hwf : p.WF) (hf : p.failing = [])
    (hreg : acme.Register = true) (hauth : acme.Authorize fqdn = some authz)
    (hchal : authz.Challenges.find? (fun c => c.Type_ == "dns-01") = some chal) :
    ∃ r ∈ (GenerateCertificate acme csr fqdn p).provider.zone,
      r.Type_ = "TXT" ∧ r.Name = "_acme-challenge." ++ authz.Identifier ∧
        r.Content = acme.DNS01ChallengeRecord chal.Token := by
  have hlabel : "_acme-challenge." ++ authz.Identifier ≠ "" := by
    intro h
    have := congrArg String.length h
    simp only [String.length_append] at this
    have h16 : "_acme-challenge.".length = 16 := by decide
    rw [h16] at this
    exact absurd this (by simp)
  have hpub := createOrUpdate_holds "TXT" ("_acme-challenge." ++ authz.Identifier)
    (acme.DNS01ChallengeRecord chal.Token) p hwf hf (by decide) hlabel
  have hprov : (GenerateCertificate acme csr fqdn p).provider =
      (pollRecord ("_acme-challenge." ++ authz.Identifier) 3
        (CreateOrUpdateDNSRecord "TXT" ("_acme-challenge." ++ authz.Identifier)
          (acme.DNS01ChallengeRecord chal.Token) p).2).2.1 := by
    simp only [GenerateCertificate, hreg, hauth, hchal, Bool.not_true, Bool.false_eq_true,
      if_false]
    repeat' split
    all_goals rfl
  rw [hprov, pollRecord_zone]
  exact hpub

/-! ### Registrations served at the same time -/

/-- A hostname is determined by the name `hostname.domain`. -/
theorem fqdn_injective (a b d : String) (h : a ++ "." ++ d = b ++ "." ++ d) : a = b := by
  have h1 := congrArg String.data h
  simp only [String.data_append] at h1
  have h2 := List.append_cancel_right (List.append_cancel_right h1)
  exact String.ext h2

/-- The name of a hostname that is in no row is the name of no row. -/
theorem fqdn_not_stored (database : List Client) (h d : String)
    (hfresh : countHostname database h = 0) :
    h ++ "." ++ d ∉ database.map (fun c => c.hostname ++ "." ++ d) := by
  intro hmem
  simp only [List.mem_map] at hmem
  obtain ⟨c, hc, heq⟩ := hmem
  exact (countHostname_eq_zero_iff database h).mp hfresh c hc (fqdn_injective _ _ _ heq)

/-- The invariant holds before any goroutine has started. -/
theorem inv_initial (env : Env) (database : List Client) (provider : Provider)
    (names : List String) : Server.Inv env (Server.initial database provider names) where
  holder := by intro i; simp [Server.initial, Stage.holdsMutex]
  fresh := by intro i u ip h hst; simp [Server.initial] at hst
  stored := by intro i f hf; simp [Server.initial, Stage.issued] at hf
  distinct := by intro i j f g _ hf; simp [Server.initial, Stage.issued] at hf

/-- While a goroutine holds the mutex, no other goroutine does. -/
theorem inv_others_idle {env : Env} {s : Server} (hinv : Server.Inv env s) {i k : Nat}
    (hi : (s.stage i).holdsMutex = true) (hk : k ≠ i) : (s.stage k).holdsMutex = false := by
  cases hh : (s.stage k).holdsMutex with
  | false => rfl
  | true =>
    have h1 := (hinv.holder i).mpr hi
    have h2 := (hinv.holder k).mpr hh
    rw [h1] at h2
    exact absurd (Option.some.inj h2).symm hk

/-- A goroutine that does not hold the mutex has no hostname chosen. -/
theorem not_chosen_of_idle {st : Stage} (h : st.holdsMutex = false) (u ip hn : String) :
    st ≠ .chosen u ip hn := by
  intro heq
  rw [heq] at h
  simp [Stage.holdsMutex] at h

/-- The invariant after a step of goroutine `i` that brings it to stage `x`, while
no other goroutine holds the mutex: it is enough that the mutex is held by `i`
exactly when `x` is a stage between `Lock` and `Unlock`, that the table has only
grown, that a hostname chosen at `x` is in no row, and that a hostname given at `x`
is in a row and is either the one `i` had before or the hostname of no row before. -/
theorem inv_after {env : Env} {s s1 : Server} (hinv : Server.Inv env s) (i : Nat) (x : Stage)
    (hidle : ∀ k, k ≠ i → (s.stage k).holdsMutex = false)
    (hst : s1.stage = Function.update s.stage i x)
    (hmx : s1.mutex = if x.holdsMutex = true then some i else none)
    (hdb : s.database <+: s1.database)
    (hfresh : ∀ u ip h, x = .chosen u ip h → countHostname s1.database h = 0)
    (hstored : ∀ f, x.issued env = some f →
      f ∈ s1.database.map (fun c => c.hostname ++ "." ++ env.Cfg.Domain))
    (hnew : ∀ f, x.issued env = some f → (s.stage i).issued env = some f ∨
      f ∉ s.database.map (fun c => c.hostname ++ "." ++ env.Cfg.Domain)) :
    Server.Inv env s1 := by
  have hat : s1.stage i = x := by rw [hst]; simp
  have hother : ∀ k, k ≠ i → s1.stage k = s.stage k := by
    intro k hk; rw [hst]; simp [Function.update_apply, hk]
  have hgrow : ∀ f, f ∈ s.database.map (fun c => c.hostname ++ "." ++ env.Cfg.Domain) →
      f ∈ s1.database.map (fun c => c.hostname ++ "." ++ env.Cfg.Domain) := by
    intro f hf
    obtain ⟨t, ht⟩ := hdb
    rw [← ht, List.map_append]
    exact List.mem_append_left _ hf
  constructor
  · intro k
    by_cases hk : k = i
    · subst hk
      rw [hat, hmx]
      cases x.holdsMutex <;> simp
    · rw [hother k hk, hidle k hk, hmx]
      cases x.holdsMutex
      · simp
      · simp only [if_true, Option.some.injEq, Bool.false_eq_true, iff_false]
        exact fun h => hk h.symm
  · intro k u ip h hk
    by_cases hki : k = i
    · subst hki
      rw [hat] at hk
      exact hfresh u ip h hk
    · rw [hother k hki] at hk
      exact absurd hk (not_chosen_of_idle (hidle k hki) u ip h)
  · intro k f hf
    by_cases hki : k = i
    · subst hki
      rw [hat] at hf
      exact hstored f hf
    · rw [hother k hki] at hf
      exact hgrow f (hinv.stored k f hf)
  · intro a b f g hab hf hg
    by_cases ha : a = i
    · subst ha
      have hb : b ≠ a := fun h => hab h.symm
      rw [hat] at hf
      rw [hother b hb] at hg
      rcases hnew f hf with h | h
      · exact hinv.distinct a b f g hab h hg
      · intro hfg
        exact h (hfg ▸ hinv.stored b g hg)
    · rw [hother a ha] at hf
      by_cases hb : b = i
      · subst hb
        rw [hat] at hg
        rcases hnew g hg with h | h
        · exact hinv.distinct a b f g hab hf h
        · intro hfg
          exact h (hfg ▸ hinv.stored a f hf)
      · rw [hother b hb] at hg
        exact hinv.distinct a b f g hab hf hg

/-- A goroutine can move only while no other goroutine holds the mutex. -/
theorem step_others_idle {env : Env} {requests : Nat → Except String RegClientRequest}
    {s s1 : Server} (hinv : Server.Inv env s) {i : Nat}
    (hstep : stepRegister env requests i s = some s1) :
    ∀ k, k ≠ i → (s.stage k).holdsMutex = false := by
  intro k hk
  cases hh : (s.stage k).holdsMutex with
  | false => rfl
  | true =>
    exfalso
    have hmk := (hinv.holder k).mpr hh
    cases hi : (s.stage i).holdsMutex with
    | true =>
      have := inv_others_idle hinv hi hk
      rw [hh] at this
      exact absurd this (by decide)
    | false =>
      unfold stepRegister at hstep
      cases hst : s.stage i with
      | start => simp [hst, hmk] at hstep
      | finished r => simp [hst] at hstep
      | locked => rw [hst] at hi; simp [Stage.holdsMutex] at hi
      | identityKnown u ip => rw [hst] at hi; simp [Stage.holdsMutex] at hi
      | allocating u ip => rw [hst] at hi; simp [Stage.holdsMutex] at hi
      | chosen u ip h => rw [hst] at hi; simp [Stage.holdsMutex] at hi
      | inserted u ip h => rw [hst] at hi; simp [Stage.holdsMutex] at hi
      | responded r => rw [hst] at hi; simp [Stage.holdsMutex] at hi

/-- A response written with `writeError` for a registration returns no hostname. -/
theorem writeError_no_hostname (env : Env) (msg : String) (f : String) :
    (Stage.responded (writeError (RegClientResponse.Marshall ⟨false, msg, ""⟩))).issued env
      ≠ some f := by
  simp [Stage.issued, Response.returnedHostname, writeError, RegClientResponse.Marshall]

/-- The invariant after goroutine `i`, which holds the mutex, has moved to a stage
`x` between `Lock` and `Unlock` at which it has no hostname chosen and none given,
the table and the mutex being as before. -/
theorem inv_move {env : Env} {s s1 : Server} (hinv : Server.Inv env s) (i : Nat) (x : Stage)
    (hidle : ∀ k, k ≠ i → (s.stage k).holdsMutex = false)
    (hheld : s.mutex = some i)
    (hst : s1.stage = Function.update s.stage i x)
    (hmx : s1.mutex = s.mutex)
    (hdb : s1.database = s.database)
    (hx : x.holdsMutex = true)
    (hnot : ∀ u ip h, x ≠ .chosen u ip h)
    (hnone : ∀ f, x.issued env ≠ some f) : Server.Inv env s1 := by
  refine inv_after hinv i x hidle hst ?_ ?_ ?_ ?_ ?_
  · rw [hmx, hheld, hx]; rfl
  · rw [hdb]
  · intro u ip h hxe; exact absurd hxe (hnot u ip h)
  · intro f hf; exact absurd hf (hnone f)
  · intro f hf; exact absurd hf (hnone f)

/-- The invariant after a step that leaves the stages, the mutex and the table as
they were. -/
theorem inv_same {env : Env} {s s1 : Server} (hinv : Server.Inv env s)
    (hst : s1.stage = s.stage) (hmx : s1.mutex = s.mutex) (hdb : s1.database = s.database) :
    Server.Inv env s1 where
  holder := by intro i; rw [hst, hmx]; exact hinv.holder i
  fresh := by intro i u ip h hi; rw [hst] at hi; rw [hdb]; exact hinv.fresh i u ip h hi
  stored := by intro i f hf; rw [hst] at hf; rw [hdb]; exact hinv.stored i f hf
  distinct := by
    intro i j f g hij hf hg
    rw [hst] at hf hg
    exact hinv.distinct i j f g hij hf hg

/-- Every step of a goroutine keeps the invariant. -/
theorem inv_step {env : Env} {requests : Nat → Except String RegClientRequest}
    {s s1 : Server} (hinv : Server.Inv env s) {i : Nat}
    (hstep : stepRegister env requests i s = some s1) : Server.Inv env s1 := by
  have hidle := step_others_idle hinv hstep
  have hheld : (s.stage i).holdsMutex = true → s.mutex = some i := (hinv.holder i).mpr
  unfold stepRegister at hstep
  split at hstep
  · exact absurd hstep (by simp)
  · split at hstep
    · rename_i hst
      split at hstep
      · rename_i hfree
        injection hstep with hstep
        subst hstep
        refine inv_after hinv i .locked hidle rfl (by simp [Stage.holdsMutex])
          (List.prefix_refl _) ?_ ?_ ?_
        · intro u ip h hx; cases hx
        · intro f hf; simp [Stage.issued] at hf
        · intro f hf; simp [Stage.issued] at hf
      · exact absurd hstep (by simp)
    · rename_i hst
      have hm := hheld (by rw [hst]; rfl)
      split at hstep
      · injection hstep with hstep
        subst hstep
        exact inv_move hinv i _ hidle hm rfl rfl rfl rfl (by intro u ip h hx; cases hx)
          (writeError_no_hostname env _)
      · split at hstep
        · injection hstep with hstep
          subst hstep
          exact inv_move hinv i _ hidle hm rfl rfl rfl rfl (by intro u ip h hx; cases hx)
            (writeError_no_hostname env _)
        · split at hstep
          · injection hstep with hstep
            subst hstep
            exact inv_move hinv i _ hidle hm rfl rfl rfl rfl (by intro u ip h hx; cases hx)
              (writeError_no_hostname env _)
          · injection hstep with hstep
            subst hstep
            exact inv_move hinv i _ hidle hm rfl rfl rfl rfl (by intro u ip h hx; cases hx)
              (by intro f hf; simp [Stage.issued] at hf)
    · rename_i uuid ip hst
      have hm := hheld (by rw [hst]; rfl)
      split at hstep
      · injection hstep with hstep
        subst hstep
        exact inv_move hinv i _ hidle hm rfl rfl rfl rfl (by intro u ip h hx; cases hx)
          (writeError_no_hostname env _)
      · injection hstep with hstep
        subst hstep
        exact inv_move hinv i _ hidle hm rfl rfl rfl rfl (by intro u ip h hx; cases hx)
          (by intro f hf; simp [Stage.issued] at hf)
    · rename_i uuid ip hst
      have hm := hheld (by rw [hst]; rfl)
      split at hstep
      · exact absurd hstep (by simp)
      · split at hstep
        · injection hstep with hstep
          subst hstep
          exact inv_same hinv rfl rfl rfl
        · rename_i randomName rest hnames hcount
          injection hstep with hstep
          subst hstep
          refine inv_after hinv i (.chosen uuid ip (generateHostname randomName)) hidle rfl ?_
            (List.prefix_refl _) ?_ ?_ ?_
          · show s.mutex = _
            rw [hm]; rfl
          · intro u ip1 h hx
            injection hx with _ _ hh
            subst hh
            exact Nat.eq_zero_of_not_pos hcount
          · intro f hf; simp [Stage.issued] at hf
          · intro f hf; simp [Stage.issued] at hf
    · rename_i uuid ip hostname hst
      have hm := hheld (by rw [hst]; rfl)
      split at hstep
      · injection hstep with hstep
        subst hstep
        exact inv_same hinv rfl rfl rfl
      · rename_i database hins
        injection hstep with hstep
        subst hstep
        have hdb : database = s.database ++ [⟨uuid, hostname, ip⟩] := by
          unfold insertClient at hins
          split at hins
          · cases hins
          · injection hins with hins
            exact hins.symm
        subst hdb
        refine inv_after hinv i (.inserted uuid ip hostname) hidle rfl ?_
          (List.prefix_append _ _) ?_ ?_ ?_
        · show s.mutex = _
          rw [hm]; rfl
        · intro u ip1 h hx; cases hx
        · intro f hf
          simp only [Stage.issued, Option.some.injEq] at hf
          subst hf
          simp
        · intro f hf
          simp only [Stage.issued, Option.some.injEq] at hf
          subst hf
          exact Or.inr (fqdn_not_stored _ _ _ (hinv.fresh i uuid ip hostname hst))
    · rename_i uuid ip hostname hst
      have hm := hheld (by rw [hst]; rfl)
      injection hstep with hstep
      subst hstep
      have hsame : (Stage.responded ⟨200, some (.regClientResponse
          ⟨true, "done", hostname ++ "." ++ env.Cfg.Domain⟩)⟩).issued env
          = (s.stage i).issued env := by
        rw [hst]; rfl
      refine inv_after hinv i _ hidle rfl ?_ (List.prefix_refl _) ?_ ?_ ?_
      · show s.mutex = _
        rw [hm]; rfl
      · intro u ip1 h hx; cases hx
      · intro f hf
        rw [hsame] at hf
        exact hinv.stored i f hf
      · intro f hf
        rw [hsame] at hf
        exact Or.inl hf
    · rename_i r hst
      injection hstep with hstep
      subst hstep
      have hsame : (Stage.finished r).issued env = (s.stage i).issued env := by
        rw [hst]; rfl
      refine inv_after hinv i (.finished r) hidle rfl ?_ (List.prefix_refl _) ?_ ?_ ?_
      · rfl
      · intro u ip1 h hx; cases hx
      · intro f hf
        rw [hsame] at hf
        exact hinv.stored i f hf
      · intro f hf
        rw [hsame] at hf
        exact Or.inl hf
    · exact absurd hstep (by simp)

/-- The invariant holds after every schedule. -/
theorem inv_run (env : Env) (requests : Nat → Except String RegClientRequest)
    (schedule : List Nat) (s : Server) (hinv : Server.Inv env s) :
    Server.Inv env (runSchedule env requests schedule s) := by
  induction schedule generalizing s with
  | nil => exact hinv
  | cons i rest ih =>
    unfold runSchedule
    split
    · rename_i s1 hstep
      exact ih s1 (inv_step hinv hstep)
    · exact ih s hinv

/-! #### A goroutine that runs alone does what `registerClient` does -/

theorem runSchedule_append (env : Env) (requests : Nat → Except String RegClientRequest)
    (a b : List Nat) (s : Server) :
    runSchedule env requests (a ++ b) s =
      runSchedule env requests b (runSchedule env requests a s) := by
  induction a generalizing s with
  | nil => rfl
  | cons i rest ih =>
    simp only [List.cons_append, runSchedule]
    split <;> exact ih _

theorem runSchedule_step {env : Env} {requests : Nat → Except String RegClientRequest}
    {i : Nat} {s s1 : Server} (rest : List Nat) (h : stepRegister env requests i s = some s1) :
    runSchedule env requests (i :: rest) s = runSchedule env requests rest s1 := by
  simp [runSchedule, h]

/-- The steps of the hostname loop end at the hostname `uniqueHostname` gives, with
the names it leaves. -/
theorem hostname_loop (env : Env) (requests : Nat → Except String RegClientRequest) (i : Nat)
    (u ip : String) (names : List String) (s : Server) (h : String) (rest : List String)
    (hst : s.stage i = .allocating u ip) (hh : s.halted = false) (hn : s.names = names)
    (hu : uniqueHostname s.database names = some (h, rest)) :
    ∃ n, runSchedule env requests (List.replicate n i) s =
      { s with names := rest, stage := Function.update s.stage i (.chosen u ip h) } := by
  induction names generalizing s with
  | nil => simp [uniqueHostname] at hu
  | cons randomName tl ih =>
    unfold uniqueHostname at hu
    split at hu
    · rename_i hc
      have hstep : stepRegister env requests i s = some { s with names := tl } := by
        simp [stepRegister, hh, hst, hn, hc]
      obtain ⟨n, hrun⟩ := ih { s with names := tl } hst hh rfl hu
      exact ⟨n + 1, by rw [List.replicate_succ, runSchedule_step _ hstep, hrun]⟩
    · rename_i hc
      injection hu with hu
      injection hu with h1 h2
      subst h1 h2
      have hstep : stepRegister env requests i s = some { s with
          names := tl
          stage := Function.update s.stage i (.chosen u ip (generateHostname randomName)) } := by
        simp [stepRegister, hh, hst, hn, hc]
      exact ⟨1, by simp [runSchedule, hstep]⟩

/-- A goroutine that is given all the turns does what `registerClient` does: when
`registerClient` returns a response, the goroutine comes to return the same response,
with the same table, zone and names left, and the mutex free again. -/
theorem stepRegister_alone (env : Env) (body : Except String RegClientRequest) (w : World)
    (r : Response) (w1 : World) (i : Nat)
    (h : registerClient env body w = some (.returned r, w1)) :
    ∃ n, runSchedule env (fun _ => body) (List.replicate n i)
        (Server.initial w.database w.provider w.names) =
      ⟨w1.database, w1.provider, w1.names, none,
        Function.update (fun _ => .start) i (.finished r), false⟩ := by
  cases body with
  | error err =>
    unfold registerClient at h
    injection h with h
    injection h with hr hw
    injection hr with hr
    subst hr hw
    exact ⟨3, by simp [runSchedule, stepRegister, Server.initial, Server.respond]⟩
  | ok regClient =>
    unfold registerClient at h
    simp only at h
    split at h
    · rename_i hid
      injection h with h
      injection h with hr hw
      injection hr with hr
      subst hr hw
      exact ⟨3, by simp [runSchedule, stepRegister, Server.initial, Server.respond, hid]⟩
    · rename_i parsedUuid hid
      split at h
      · rename_i hip
        injection h with h
        injection h with hr hw
        injection hr with hr
        subst hr hw
        exact ⟨3, by simp [runSchedule, stepRegister, Server.initial, Server.respond, hid, hip]⟩
      · rename_i hip
        split at h
        · rename_i hdup
          injection h with h
          injection h with hr hw
          injection hr with hr
          subst hr hw
          exact ⟨4, by
            simp [runSchedule, stepRegister, Server.initial, Server.respond, hid, hip, hdup]⟩
        · rename_i hdup
          split at h
          · cases h
          · rename_i hostname names hloop
            split at h
            · injection h with h
              injection h with hr
              cases hr
            · rename_i database hins
              injection h with h
              injection h with hr hw
              injection hr with hr
              subst hr hw
              have h3 : runSchedule env (fun _ => .ok regClient) (List.replicate 3 i)
                  (Server.initial w.database w.provider w.names) =
                  ⟨w.database, w.provider, w.names, some i,
                    Function.update (fun _ => .start) i
                      (.allocating parsedUuid.String regClient.IP), false⟩ := by
                simp [runSchedule, stepRegister, Server.initial, Server.respond, hid, hip, hdup]
              obtain ⟨n, hn⟩ := hostname_loop env (fun _ => .ok regClient) i parsedUuid.String
                regClient.IP w.names
                ⟨w.database, w.provider, w.names, some i,
                    Function.update (fun _ => .start) i
                      (.allocating parsedUuid.String regClient.IP), false⟩
                hostname names (by simp) rfl rfl hloop
              refine ⟨3 + n + 3, ?_⟩
              rw [List.replicate_add, List.replicate_add, runSchedule_append, runSchedule_append,
                h3, hn]
              simp [runSchedule, stepRegister, Server.respond, hins]
/-- The hostname a goroutine has returned is the hostname it has been given. -/
theorem issued_of_returned {env : Env} {s : Server} {i : Nat} {f : String}
    (h : s.returned i = some f) : (s.stage i).issued env = some f := by
  unfold Server.returned at h
  cases hst : s.stage i <;> rw [hst] at h <;> simp [Stage.issued] at h ⊢ <;> exact h

/-- At every point of every interleaving at most one goroutine is between
`mutex.Lock()` and the deferred `mutex.Unlock()`. -/
theorem registerClient_mutual_exclusion (env : Env)
    (requests : Nat → Except String RegClientRequest) (schedule : List Nat)
    (database : List Client) (provider : Provider) (names : List String) (i j : Nat)
    (hi : ((runSchedule env requests schedule
      (Server.initial database provider names)).stage i).holdsMutex = true)
    (hj : ((runSchedule env requests schedule
      (Server.initial database provider names)).stage j).holdsMutex = true) : i = j := by
  have hinv := inv_run env requests schedule _ (inv_initial env database provider names)
  have h1 := (hinv.holder i).mpr hi
  have h2 := (hinv.holder j).mpr hj
  rw [h1] at h2
  exact Option.some.inj h2

/-- C21: registrations served at the same time return pairwise distinct hostnames.
Whatever the requests, the table at the start, the names the generator returns
(repeated ones included) and the order in which the goroutines take their steps, two
different goroutines that have each returned a hostname have returned different
hostnames. -/
theorem registerClient_concurrent_distinct (env : Env)
    (requests : Nat → Except String RegClientRequest) (schedule : List Nat)
    (database : List Client) (provider : Provider) (names : List String) (i j : Nat)
    (h1 h2 : String) (hij : i ≠ j)
    (hi : (runSchedule env requests schedule
      (Server.initial database provider names)).returned i = some h1)
    (hj : (runSchedule env requests schedule
      (Server.initial database provider names)).returned j = some h2) : h1 ≠ h2 :=
  (inv_run env requests schedule _ (inv_initial env database provider names)).distinct i j h1 h2
    hij (issued_of_returned hi) (issued_of_returned hj)

/-- Two requests with distinct valid identities, interleaved, with a generator that
repeats its first name: the first goroutine returns `focused-turing.example.com`, the
second runs into the repeated name twice and returns `happy-curie.example.com`. -/
theorem registerClient_concurrent_distinct_witness :
    (0 : Nat) ≠ 1 ∧
    (runSchedule sampleEnv sampleRequests sampleSchedule
      (Server.initial [] ⟨[], 0, [], []⟩ sampleNames)).returned 0 =
        some "focused-turing.example.com" ∧
    (runSchedule sampleEnv sampleRequests sampleSchedule
      (Server.initial [] ⟨[], 0, [], []⟩ sampleNames)).returned 1 =
        some "happy-curie.example.com" ∧
    "focused-turing.example.com" ≠ "happy-curie.example.com" :=
  ⟨by decide, by decide, by decide,
    registerClient_concurrent_distinct sampleEnv sampleRequests sampleSchedule []
      ⟨[], 0, [], []⟩ sampleNames 0 1 "focused-turing.example.com" "happy-curie.example.com"
      (by decide) (by decide) (by decide)⟩

end OtsCert
